import Mathlib

/-!
# Lyric renderer of NeteasePlugin (`src/lyric-renderer.js`)

A shallow embedding of the `LyricRenderer` class.

* A JavaScript string is the list of its UTF-16 code units (`Str`), so that
  `length`, `slice`, the regular expressions (which have no `u` flag) and
  `Array.from` (which walks code points) all keep their own meaning.
* Pixel quantities (widths, coordinates, font sizes) are rationals: JavaScript
  doubles without rounding.
* The arithmetic of `interpolateColor` is that of doubles: a finite number is the
  exact value of a double, and every operation rounds its result to the nearest
  double.
* Clock readings (`Date.now()`) and lyric indices are integers.
* `ctx.measureText(s).width` is a parameter `measure : Font → Str → ℚ`.
* A frame is the list of the `fillRect`/`fillText` calls made on the canvas,
  each with the context attributes in force at the call.
* From `src/plugin.js` the options object built by `updateLyricKey` is embedded,
  over a small type of JavaScript values; from `src/canvas-renderer.js` the
  method `truncateText`.
-/

namespace NeteasePlugin

/-! ## Strings -/

/-- A JavaScript string, as its UTF-16 code units. -/
abbrev Str := List Nat

/-- UTF-16 encoding of one Unicode scalar value. -/
def encodeCodePoint (c : Char) : Str :=
  if c.toNat < 0x10000 then [c.toNat]
  else [0xD800 + (c.toNat - 0x10000) / 0x400, 0xDC00 + (c.toNat - 0x10000) % 0x400]

/-- UTF-16 encoding of a sequence of Unicode scalar values. -/
def encodeCodePoints (cs : List Char) : Str := cs.flatMap encodeCodePoint

/-- The JavaScript string written as the literal `s`. -/
def utf16 (s : String) : Str := encodeCodePoints s.toList

/-- JavaScript truthiness of a value that is `undefined` or a string. -/
def truthy : Option Str → Bool
  | some (_ :: _) => true
  | _ => false

/-- The value of `v || ''` for a value that is `undefined` or a string. -/
def orEmpty : Option Str → Str
  | some s => s
  | none => []

/-! ## Constants -/

/-- The constant `DEFAULT_COLORS.background`. -/
def DEFAULT_BACKGROUND : Str := utf16 "#1a1a1a"
/-- The constant `DEFAULT_COLORS.primary`. -/
def DEFAULT_PRIMARY : Str := utf16 "#FFFFFF"
/-- The constant `DEFAULT_COLORS.secondary`. -/
def DEFAULT_SECONDARY : Str := utf16 "#888888"
/-- The constant `DEFAULT_COLORS.highlight`. -/
def DEFAULT_HIGHLIGHT : Str := utf16 "#E60026"

def DEFAULT_WIDTH : ℚ := 480
def DEFAULT_HEIGHT : ℚ := 60

/-- Milliseconds per highlighted character. -/
def CHAR_INTERVAL_MS : Int := 35

/-- The three full stops appended by `truncateText` and painted on overflow. -/
def ELLIPSIS : Str := [46, 46, 46]

/-- The string `' '`. -/
def SPACE : Str := [32]

/-! ## Renderer state -/

/-- The mutable fields of a `LyricRenderer` instance (the logger apart). -/
structure LyricRenderer where
  fontsRegistered : Bool
  lastWordIndex : Int
  lastLineIndex : Int
  wordStartTime : Int
  currentWordLength : Nat
  deriving DecidableEq, Repr

/-- The state built by the constructor. -/
def LyricRenderer.new : LyricRenderer :=
  { fontsRegistered := false
    lastWordIndex := -1
    lastLineIndex := -1
    wordStartTime := 0
    currentWordLength := 0 }

/-- The method `ensureFonts`: registration itself only touches the font registry. -/
def ensureFonts (r : LyricRenderer) : LyricRenderer :=
  if !r.fontsRegistered then { r with fontsRegistered := true } else r

/-- The method `updateGradientState`, with `now` the value read from `Date.now()`.
`wordLength` is a string length. Returns the new state and the number of
characters to highlight, `Math.min(Math.floor(elapsed / 35), wordLength)`. -/
def updateGradientState (r : LyricRenderer) (now : Int) (lineIndex wordIndex : Int)
    (wordLength : Nat) : LyricRenderer × Int :=
  let r1 : LyricRenderer :=
    if lineIndex ≠ r.lastLineIndex ∨ wordIndex ≠ r.lastWordIndex then
      { r with
        lastLineIndex := lineIndex
        lastWordIndex := wordIndex
        wordStartTime := now
        currentWordLength := wordLength }
    else r
  let elapsed : Int := now - r1.wordStartTime
  let highlightedChars : Int := ⌊(elapsed : ℚ) / (CHAR_INTERVAL_MS : ℚ)⌋
  (r1, min highlightedChars (wordLength : Int))

/-- The value `clamp(v, lo, hi)` of the specification. -/
def clamp (v lo hi : Int) : Int := max lo (min v hi)

/-! ## Colours -/

/-- White space of the language: the class `\s` of regular expressions, which is
also what `parseInt` skips at the start of its argument. -/
def isWhitespace (c : Nat) : Bool :=
  c == 0x09 || c == 0x0A || c == 0x0B || c == 0x0C || c == 0x0D || c == 0x20 ||
  c == 0xA0 || c == 0x1680 || (0x2000 ≤ c && c ≤ 0x200A) || c == 0x2028 ||
  c == 0x2029 || c == 0x202F || c == 0x205F || c == 0x3000 || c == 0xFEFF

/-- Value of a hexadecimal digit given as a code unit. -/
def hexDigit (c : Nat) : Option Nat :=
  if 48 ≤ c ∧ c ≤ 57 then some (c - 48)
  else if 65 ≤ c ∧ c ≤ 70 then some (c - 55)
  else if 97 ≤ c ∧ c ≤ 102 then some (c - 87)
  else none

/-- The hexadecimal digits at the start of a string, as values. -/
def leadingHexDigits : Str → List Nat
  | [] => []
  | c :: cs =>
    match hexDigit c with
    | some d => d :: leadingHexDigits cs
    | none => []

/-- The call `parseInt(s, 16)`: white space is skipped, then an optional sign and an
optional `0x`/`0X`, then the longest run of hexadecimal digits is read; `none` is
`NaN`. -/
def parseInt16 (s : Str) : Option Int :=
  let s1 := s.dropWhile isWhitespace
  let negative : Bool := s1.head? == some 45
  let s2 := match s1 with
    | 45 :: t => t
    | 43 :: t => t
    | _ => s1
  let s3 := match s2 with
    | 48 :: 120 :: t => t
    | 48 :: 88 :: t => t
    | _ => s2
  match leadingHexDigits s3 with
  | [] => none
  | ds =>
    let v : Int := (ds.foldl (fun acc d => 16 * acc + d) 0 : Nat)
    some (if negative then -v else v)

/-- The object returned by `parseColor`; a channel that is `none` is `NaN`. -/
structure RGB where
  r : Option Int
  g : Option Int
  b : Option Int
  deriving DecidableEq, Repr

/-- The method `parseColor`. -/
def parseColor (color : Str) : RGB :=
  match color with
  | 35 :: hex =>
    { r := parseInt16 (hex.take 2)
      g := parseInt16 ((hex.drop 2).take 2)
      b := parseInt16 ((hex.drop 4).take 2) }
  | _ => { r := some 255, g := some 255, b := some 255 }

/-! ## Numbers

The arithmetic of `interpolateColor` is that of JavaScript numbers: every sum and
product is rounded to the nearest double, ties going to the even significand. -/

/-- A JavaScript number over values of type `α`: `NaN`, an infinity, or a finite
value. The sign of a zero is not kept: no text below depends on it. -/
inductive JSNum (α : Type) where
  | nan
  | infinity (negative : Bool)
  | finite (value : α)
  deriving DecidableEq, Repr

/-- A JavaScript number: a finite one is given by the exact value of the double. -/
abbrev JSNumber := JSNum ℚ

/-- Two to the power `k`. -/
def pow2 (k : Int) : ℚ :=
  if 0 ≤ k then ((2 ^ k.toNat : Nat) : ℚ) else 1 / ((2 ^ (-k).toNat : Nat) : ℚ)

/-- Search for the binary exponent of `m * 2 ^ e` with `m` positive: halve or double
`m` until it lies in `[1, 2)`. The exponent stays within `-1022` (the exponent of
the subnormal doubles) and `1024` (one beyond the largest double), so `1100` steps
from exponent `0` are always enough. -/
def binaryExponent : Nat → ℚ → Int → Int
  | 0, _, e => e
  | fuel + 1, m, e =>
    if 2 ≤ m ∧ e < 1024 then binaryExponent fuel (m / 2) (e + 1)
    else if m < 1 ∧ -1022 < e then binaryExponent fuel (m * 2) (e - 1)
    else e

/-- Rounding to the nearest integer, a tie going to the even neighbour. -/
def roundHalfEven (m : ℚ) : Int :=
  let f := ⌊m⌋
  let d := m - f
  if d < 1 / 2 then f
  else if 1 / 2 < d then f + 1
  else if f % 2 = 0 then f else f + 1

/-- Exponent of the spacing of the doubles around `x`: a double has a significand of
53 bits, so the spacing is `2 ^ (e - 52)` where `2 ^ e ≤ |x| < 2 ^ (e + 1)`, and
`e = -1022` below that range. -/
def doubleQuantum (x : ℚ) : Int := binaryExponent 1100 |x| 0 - 52

/-- The value of `x` rounded to the spacing of the doubles around it (round to
nearest, ties to even), before the check for overflow. -/
def roundToDouble (x : ℚ) : ℚ :=
  if x = 0 then 0
  else
    let q := doubleQuantum x
    let v := (roundHalfEven (|x| / pow2 q) : ℚ) * pow2 q
    if x < 0 then -v else v

/-- The double nearest to `x`: the rounded value, or an infinity when the rounded
value reaches `2 ^ 1024`. -/
def toDouble (x : ℚ) : JSNumber :=
  if x = 0 then JSNum.finite 0
  else if 1024 ≤ binaryExponent 1100 |roundToDouble x| 0 then JSNum.infinity (decide (x < 0))
  else JSNum.finite (roundToDouble x)

/-- The operator `+` on numbers. -/
def JSNum.add : JSNumber → JSNumber → JSNumber
  | JSNum.finite x, JSNum.finite y => toDouble (x + y)
  | JSNum.finite _, JSNum.infinity s => JSNum.infinity s
  | JSNum.infinity s, JSNum.finite _ => JSNum.infinity s
  | JSNum.infinity s, JSNum.infinity s' => if s = s' then JSNum.infinity s else JSNum.nan
  | _, _ => JSNum.nan

/-- The operator `-` on numbers. -/
def JSNum.sub : JSNumber → JSNumber → JSNumber
  | JSNum.finite x, JSNum.finite y => toDouble (x - y)
  | JSNum.finite _, JSNum.infinity s => JSNum.infinity (!s)
  | JSNum.infinity s, JSNum.finite _ => JSNum.infinity s
  | JSNum.infinity s, JSNum.infinity s' => if s = s' then JSNum.nan else JSNum.infinity s
  | _, _ => JSNum.nan

/-- The operator `*` on numbers. -/
def JSNum.mul : JSNumber → JSNumber → JSNumber
  | JSNum.finite x, JSNum.finite y => toDouble (x * y)
  | JSNum.finite x, JSNum.infinity s =>
    if x = 0 then JSNum.nan else JSNum.infinity (s != decide (x < 0))
  | JSNum.infinity s, JSNum.finite y =>
    if y = 0 then JSNum.nan else JSNum.infinity (s != decide (y < 0))
  | JSNum.infinity s, JSNum.infinity s' => JSNum.infinity (s != s')
  | _, _ => JSNum.nan

/-- The function `Math.round`: the nearest integer, halves going up; `NaN` and the
infinities are returned as they are. -/
def mathRound : JSNumber → JSNum Int
  | JSNum.finite v => JSNum.finite ⌊v + 1 / 2⌋
  | JSNum.infinity s => JSNum.infinity s
  | JSNum.nan => JSNum.nan

/-- Decimal digits of a natural number, as code units. -/
def natToStr (n : Nat) : Str := (Nat.toDigits 10 n).map Char.toNat

/-- Search for the shortest decimal significand of the integral double `n`, which
has `digits` decimal digits: the first `k`, counted from `k`, for which a
significand `s` of `k` digits gives `s * 10 ^ (digits - k)` rounding to `n`; the
candidates are the two multiples of `10 ^ (digits - k)` around `n`, the nearer one
first and the even one on a tie. The result is `(s, k)`. -/
def shortestSignificand (n digits : Nat) : Nat → Nat → Nat × Nat
  | 0, k => (n / 10 ^ (digits - k), k)
  | fuel + 1, k =>
    let p := 10 ^ (digits - k)
    let lo := n / p
    let hi := lo + 1
    let fitsLo : Bool := decide (toDouble ((lo * p : Nat) : ℚ) = JSNum.finite (n : ℚ))
    let fitsHi : Bool := decide (toDouble ((hi * p : Nat) : ℚ) = JSNum.finite (n : ℚ))
    let hiNearer : Bool :=
      decide (hi * p - n < n - lo * p) || (decide (hi * p - n = n - lo * p) && hi % 2 == 0)
    if digits ≤ k then (n, digits)
    else if fitsLo && fitsHi then (if hiNearer then (hi, k) else (lo, k))
    else if fitsLo then (lo, k)
    else if fitsHi then (hi, k)
    else shortestSignificand n digits fuel (k + 1)

/-- Text of a non-negative integral double (`Number::toString`): its decimal digits
below `2 ^ 53`, where every integer is a double; above, the shortest significand
that reads back as the same double, followed by zeros, or written with an exponent
from `10 ^ 21` on. -/
def integralToStr (n : Nat) : Str :=
  if n < 2 ^ 53 then natToStr n
  else
    let digits := (natToStr n).length
    let sk := shortestSignificand n digits 17 1
    let carried : Bool := decide (sk.1 = 10 ^ sk.2)
    let s := if carried then 10 ^ (sk.2 - 1) else sk.1
    let e := if carried then digits + 1 else digits
    let text := natToStr s
    if e ≤ 21 then text ++ List.replicate (e - sk.2) 48
    else if sk.2 = 1 then text ++ utf16 "e+" ++ natToStr (e - 1)
    else text.take 1 ++ [46] ++ text.drop 1 ++ utf16 "e+" ++ natToStr (e - 1)

/-- Text of an integral number inside a template literal. -/
def numberToStr : JSNum Int → Str
  | JSNum.nan => utf16 "NaN"
  | JSNum.infinity false => utf16 "Infinity"
  | JSNum.infinity true => utf16 "-Infinity"
  | JSNum.finite i => if i < 0 then 45 :: integralToStr (-i).toNat else integralToStr i.toNat

/-- The method `rgbToColor`. -/
def rgbToColor (r g b : JSNumber) : Str :=
  utf16 "rgb(" ++ numberToStr (mathRound r) ++ utf16 ", " ++ numberToStr (mathRound g)
    ++ utf16 ", " ++ numberToStr (mathRound b) ++ utf16 ")"

/-- A channel of `parseColor` as a number; the integers read from two hexadecimal
digits are doubles. -/
def channelNumber : Option Int → JSNumber
  | none => JSNum.nan
  | some a => JSNum.finite (a : ℚ)

/-- One channel of `interpolateColor`: `c1 + (c2 - c1) * progress`, the difference,
the product and the sum each rounded to a double. -/
def interpolateChannel (c1 c2 : Option Int) (progress : JSNumber) : JSNumber :=
  (channelNumber c1).add (((channelNumber c2).sub (channelNumber c1)).mul progress)

/-- The method `interpolateColor`. The argument `progress` stands for the double
nearest to it, which is what the division at the call site returns. -/
def interpolateColor (color1 color2 : Str) (progress : ℚ) : Str :=
  let c1 := parseColor color1
  let c2 := parseColor color2
  let p := toDouble progress
  let r := interpolateChannel c1.r c2.r p
  let g := interpolateChannel c1.g c2.g p
  let b := interpolateChannel c1.b c2.b p
  rgbToColor r g b

/-! ## Truncation, segmentation, alignment -/

/-- The `while` loop of `truncateText`. The first argument bounds the number of
iterations; `truncateText` passes the length of the text, which the loop never
exceeds since every iteration removes one code unit. -/
def truncateLoop (measure : Str → ℚ) (maxWidth : ℚ) : Nat → Str → ℚ → Str
  | 0, truncated, _ => truncated
  | fuel + 1, truncated, width =>
    if width > maxWidth ∧ truncated.length > 0 then
      truncateLoop measure maxWidth fuel truncated.dropLast
        (measure (truncated.dropLast ++ ELLIPSIS))
    else truncated

/-- The method `truncateText`; `measure s` is `ctx.measureText(s).width`. -/
def truncateText (measure : Str → ℚ) (text : Str) (maxWidth : ℚ) : Str :=
  if text = [] then []
  else
    let width := measure text
    if width ≤ maxWidth then text
    else truncateLoop measure maxWidth text.length text width ++ ELLIPSIS

/-- One code unit matched by the character class of `hasCJK`. -/
def isCJKUnit (c : Nat) : Bool :=
  (0x4e00 ≤ c && c ≤ 0x9fff) || (0x3040 ≤ c && c ≤ 0x309f) ||
  (0x30a0 ≤ c && c ≤ 0x30ff) || (0xac00 ≤ c && c ≤ 0xd7af)

/-- The method `hasCJK`: the expression is tested against code units. -/
def hasCJK (text : Str) : Bool := text.any isCJKUnit

/-- The call `Array.from(text)`: the string iterator, which yields a high surrogate
followed by a low surrogate as one element and any other code unit alone. -/
def arrayFrom : Str → List Str
  | [] => []
  | [a] => [[a]]
  | a :: b :: rest =>
    if (0xD800 ≤ a ∧ a ≤ 0xDBFF) ∧ (0xDC00 ≤ b ∧ b ≤ 0xDFFF) then [a, b] :: arrayFrom rest
    else [a] :: arrayFrom (b :: rest)

/-- The call `text.split(/\s+/)`, scanning from the left. `inRun` says that the
code unit before was white space, which belongs to the separator already found;
`pending` is the piece since the last separator. -/
def splitWhitespace : Bool → Str → Str → List Str
  | _, pending, [] => [pending]
  | inRun, pending, c :: cs =>
    if isWhitespace c then
      if inRun then splitWhitespace true [] cs
      else pending :: splitWhitespace true [] cs
    else splitWhitespace false (pending ++ [c]) cs

/-- The method `splitLyricToWords`. -/
def splitLyricToWords (text : Str) : List Str :=
  if text = [] then []
  else if hasCJK text then (arrayFrom text).map (fun char => char)
  else (splitWhitespace false [] text).filter (fun w => decide (w.length > 0))

/-- The method `getAlignedX`. -/
def getAlignedX (align : Str) (padding maxWidth textWidth : ℚ) : ℚ :=
  if align = utf16 "center" then padding + (maxWidth - textWidth) / 2
  else if align = utf16 "right" then padding + maxWidth - textWidth
  else padding

/-! ## Canvas -/

/-- A value of `ctx.font`: an optional `bold`, a size in pixels, and `FONT_FAMILY`. -/
structure Font where
  bold : Bool
  size : ℚ
  deriving DecidableEq, Repr

/-- The attributes of the 2D context that a `fillText` call reads. -/
structure Ctx where
  fillStyle : Str
  font : Font
  textAlign : Str
  textBaseline : Str
  deriving DecidableEq, Repr

/-- One painting call on the canvas. -/
inductive DrawOp where
  | fillRect (fillStyle : Str) (x y w h : ℚ)
  | fillText (ctx : Ctx) (text : Str) (x y : ℚ)
  deriving DecidableEq, Repr

/-- Value of `textAlign` on a fresh context. -/
def ALIGN_START : Str := utf16 "start"
/-- Value of `textBaseline` on a fresh context. -/
def BASELINE_ALPHABETIC : Str := utf16 "alphabetic"
def BASELINE_MIDDLE : Str := utf16 "middle"

/-- The text painted when no song is known. -/
def WAITING_TEXT : Str := utf16 "♪ 等待播放 ♪"

/-! ## Inputs of `render` -/

/-- A lyric line; a field that is `none` is `undefined`. -/
structure LyricLine where
  originalLyric : Option Str
  translatedLyric : Option Str
  deriving DecidableEq, Repr

/-- The object `currentLyric`; a field that is `none` is `undefined`. -/
structure LyricPosition where
  lineIndex : Option Int
  wordIndex : Option Int
  line : Option LyricLine
  nextLine : Option LyricLine
  deriving DecidableEq, Repr

/-- The object `song`. -/
structure Song where
  songName : Option Str
  authorName : Option Str
  albumName : Option Str
  deriving DecidableEq, Repr

/-- The options of `render` after destructuring (defaults filled in). -/
structure RenderOptions where
  showTranslation : Bool
  highlightWord : Bool
  backgroundColor : Str
  primaryAlign : Str
  primaryFontSize : ℚ
  primaryColor : Str
  highlightColor : Str
  primaryPaddingTop : ℚ
  secondaryAlign : Str
  secondaryFontSize : ℚ
  secondaryColor : Str
  secondaryPaddingTop : ℚ
  paddingHorizontal : ℚ
  deriving DecidableEq, Repr

/-- The defaults of the destructuring in `render`. -/
def RenderOptions.default : RenderOptions :=
  { showTranslation := true
    highlightWord := true
    backgroundColor := DEFAULT_BACKGROUND
    primaryAlign := utf16 "left"
    primaryFontSize := 18
    primaryColor := DEFAULT_PRIMARY
    highlightColor := DEFAULT_HIGHLIGHT
    primaryPaddingTop := 8
    secondaryAlign := utf16 "left"
    secondaryFontSize := 13
    secondaryColor := DEFAULT_SECONDARY
    secondaryPaddingTop := 4
    paddingHorizontal := 10 }

/-- The `config` argument of `renderCurrentLine`. -/
structure LineConfig where
  x : ℚ
  y : ℚ
  maxWidth : ℚ
  fontSize : ℚ
  align : Str
  primaryColor : Str
  highlightColor : Str
  deriving DecidableEq, Repr

/-- The `config` argument of `renderCurrentLineCentered`. -/
structure CenteredConfig where
  padding : ℚ
  centerY : ℚ
  maxWidth : ℚ
  fontSize : ℚ
  align : Str
  primaryColor : Str
  highlightColor : Str
  deriving DecidableEq, Repr

/-! ## Painting the current line -/

/-- The blend fraction of the character being highlighted,
`((Date.now() - this.wordStartTime) % CHAR_INTERVAL_MS) / CHAR_INTERVAL_MS`, with
`nowPaint` the value read from `Date.now()`; `%` takes the sign of the dividend. -/
def gradientProgress (r : LyricRenderer) (nowPaint : Int) : ℚ :=
  (((nowPaint - r.wordStartTime).tmod CHAR_INTERVAL_MS : Int) : ℚ) / (CHAR_INTERVAL_MS : ℚ)

/-- The `for` loop of `renderWordWithGradient` (and of its centred twin, whose body
is the same), from index `i` over the remaining characters. -/
def gradientLoop (measure : Str → ℚ) (r : LyricRenderer) (nowPaint : Int) (ctx : Ctx) (y : ℚ)
    (highlightedChars : Int) (primaryColor highlightColor : Str) :
    Nat → List Str → ℚ → List DrawOp
  | _, [], _ => []
  | i, char :: rest, currentX =>
    let charWidth := measure char
    let fillStyle :=
      if (i : Int) < highlightedChars then highlightColor
      else if (i : Int) = highlightedChars then
        interpolateColor primaryColor highlightColor (gradientProgress r nowPaint)
      else primaryColor
    DrawOp.fillText { ctx with fillStyle := fillStyle } char currentX y ::
      gradientLoop measure r nowPaint ctx y highlightedChars primaryColor highlightColor
        (i + 1) rest (currentX + charWidth)

/-- The method `renderWordWithGradient`. -/
def renderWordWithGradient (measure : Str → ℚ) (r : LyricRenderer) (nowPaint : Int) (ctx : Ctx)
    (word : Str) (x y : ℚ) (highlightedChars : Int) (primaryColor highlightColor : Str) :
    List DrawOp :=
  gradientLoop measure r nowPaint ctx y highlightedChars primaryColor highlightColor
    0 (arrayFrom word) x

/-- The method `renderWordWithGradientCentered`. -/
def renderWordWithGradientCentered (measure : Str → ℚ) (r : LyricRenderer) (nowPaint : Int)
    (ctx : Ctx) (word : Str) (x centerY : ℚ) (highlightedChars : Int)
    (primaryColor highlightColor : Str) : List DrawOp :=
  gradientLoop measure r nowPaint ctx centerY highlightedChars primaryColor highlightColor
    0 (arrayFrom word) x

/-- The loop that adds up the widths of the words and of the spaces between them;
`n` is `words.length`. -/
def totalWidthLoop (measure : Str → ℚ) (isCJK : Bool) (n : Nat) : Nat → List Str → ℚ → ℚ
  | _, [], totalWidth => totalWidth
  | i, word :: rest, totalWidth =>
    let t1 := totalWidth + measure word
    let t2 := if !isCJK ∧ (i : Int) < (n : Int) - 1 then t1 + measure SPACE else t1
    totalWidthLoop measure isCJK n (i + 1) rest t2

/-- The test `highlightWord && wordIndex !== undefined && wordIndex >= 0`, giving
the index when it holds. -/
def validWordIndex (highlightWord : Bool) (wordIndex : Option Int) : Option Int :=
  match wordIndex with
  | some wi => if highlightWord ∧ wi ≥ 0 then some wi else none
  | none => none

/-- The expression `words[wordIndex] || ''` for a word index that is not negative. -/
def currentWordOf (words : List Str) (wordIndex : Int) : Str :=
  words.getD wordIndex.toNat []

/-- The painting loop of `renderCurrentLine`, from index `i` over the remaining
words; `n` is `words.length` and `limit` is `x + maxWidth`. -/
def lineLoop (measure : Str → ℚ) (r : LyricRenderer) (nowPaint : Int) (ctx : Ctx)
    (isCJK : Bool) (n : Nat) (wordIndex highlightedChars : Int) (limit lineY : ℚ)
    (primaryColor highlightColor : Str) : Nat → List Str → ℚ → List DrawOp
  | _, [], _ => []
  | i, word :: rest, currentX =>
    let wordWidth := measure word
    if currentX + wordWidth > limit then
      [DrawOp.fillText { ctx with fillStyle := primaryColor } ELLIPSIS currentX lineY]
    else
      let wordOps :=
        if (i : Int) < wordIndex then
          [DrawOp.fillText { ctx with fillStyle := highlightColor } word currentX lineY]
        else if (i : Int) = wordIndex then
          renderWordWithGradient measure r nowPaint ctx word currentX lineY highlightedChars
            primaryColor highlightColor
        else
          [DrawOp.fillText { ctx with fillStyle := primaryColor } word currentX lineY]
      let currentX1 := currentX + wordWidth
      if !isCJK ∧ (i : Int) < (n : Int) - 1 then
        let spaceWidth := measure SPACE
        let spaceStyle := if (i : Int) < wordIndex then highlightColor else primaryColor
        wordOps ++ DrawOp.fillText { ctx with fillStyle := spaceStyle } SPACE currentX1 lineY ::
          lineLoop measure r nowPaint ctx isCJK n wordIndex highlightedChars limit lineY
            primaryColor highlightColor (i + 1) rest (currentX1 + spaceWidth)
      else
        wordOps ++
          lineLoop measure r nowPaint ctx isCJK n wordIndex highlightedChars limit lineY
            primaryColor highlightColor (i + 1) rest currentX1

/-- The method `renderCurrentLine`: the calls it paints and the state it leaves.
`now` is the clock value read by `updateGradientState`, `nowPaint` the one read
while the current word is painted. (The returned `y + fontSize` is not used by
`render` and is left out.) -/
def renderCurrentLine (measure : Font → Str → ℚ) (r : LyricRenderer) (now nowPaint : Int)
    (line : Option LyricLine) (lineIndex : Int) (wordIndex : Option Int) (highlightWord : Bool)
    (config : LineConfig) : List DrawOp × LyricRenderer :=
  match line with
  | none => ([], r)
  | some line =>
    if !truthy line.originalLyric then ([], r)
    else
      let font : Font := { bold := true, size := config.fontSize }
      let ctx : Ctx :=
        { fillStyle := config.highlightColor, font := font, textAlign := ALIGN_START,
          textBaseline := BASELINE_ALPHABETIC }
      let lineY := config.y + config.fontSize
      let originalText := orEmpty line.originalLyric
      let words := splitLyricToWords originalText
      let isCJK := hasCJK originalText
      match validWordIndex highlightWord wordIndex with
      | some wi =>
        if words.length > 0 then
          let currentWord := currentWordOf words wi
          let (r1, highlightedChars) := updateGradientState r now lineIndex wi currentWord.length
          let totalWidth := totalWidthLoop (measure font) isCJK words.length 0 words 0
          let currentX := getAlignedX config.align config.x config.maxWidth
            (min totalWidth config.maxWidth)
          (lineLoop (measure font) r1 nowPaint ctx isCJK words.length wi highlightedChars
            (config.x + config.maxWidth) lineY config.primaryColor config.highlightColor
            0 words currentX, r1)
        else
          let text := truncateText (measure font) originalText config.maxWidth
          let textWidth := measure font text
          let textX := getAlignedX config.align config.x config.maxWidth textWidth
          ([DrawOp.fillText ctx text textX lineY], r)
      | none =>
        let text := truncateText (measure font) originalText config.maxWidth
        let textWidth := measure font text
        let textX := getAlignedX config.align config.x config.maxWidth textWidth
        ([DrawOp.fillText ctx text textX lineY], r)

/-- The painting loop of `renderCurrentLineCentered`, from index `i` over the
remaining words; `n` is `words.length` and `limit` is `padding + maxWidth`. -/
def centeredLoop (measure : Str → ℚ) (r : LyricRenderer) (nowPaint : Int) (ctx : Ctx)
    (isCJK : Bool) (n : Nat) (wordIndex highlightedChars : Int) (limit centerY : ℚ)
    (primaryColor highlightColor : Str) : Nat → List Str → ℚ → List DrawOp
  | _, [], _ => []
  | i, word :: rest, currentX =>
    let wordWidth := measure word
    if currentX + wordWidth > limit then []
    else
      let wordOps :=
        if (i : Int) < wordIndex then
          [DrawOp.fillText { ctx with fillStyle := highlightColor } word currentX centerY]
        else if (i : Int) = wordIndex then
          renderWordWithGradientCentered measure r nowPaint ctx word currentX centerY
            highlightedChars primaryColor highlightColor
        else
          [DrawOp.fillText { ctx with fillStyle := primaryColor } word currentX centerY]
      let currentX1 := currentX + wordWidth
      if !isCJK ∧ (i : Int) < (n : Int) - 1 then
        let spaceWidth := measure SPACE
        let spaceStyle := if (i : Int) < wordIndex then highlightColor else primaryColor
        wordOps ++ DrawOp.fillText { ctx with fillStyle := spaceStyle } SPACE currentX1 centerY ::
          centeredLoop measure r nowPaint ctx isCJK n wordIndex highlightedChars limit centerY
            primaryColor highlightColor (i + 1) rest (currentX1 + spaceWidth)
      else
        wordOps ++
          centeredLoop measure r nowPaint ctx isCJK n wordIndex highlightedChars limit centerY
            primaryColor highlightColor (i + 1) rest currentX1

/-- Assignment to `ctx.textAlign`: the canvas keeps the old value when the new one
is not one of its keywords. -/
def setTextAlign (old value : Str) : Str :=
  if value = utf16 "left" ∨ value = utf16 "right" ∨ value = utf16 "center" ∨
      value = utf16 "start" ∨ value = utf16 "end" then value
  else old

/-- The static branch of `renderCurrentLineCentered`: the whole line, truncated,
in the highlight colour. -/
def centeredStatic (measure : Str → ℚ) (ctx : Ctx) (originalText : Str)
    (config : CenteredConfig) : List DrawOp :=
  let text := truncateText measure originalText config.maxWidth
  let textX :=
    if config.align = utf16 "center" then config.padding + config.maxWidth / 2
    else if config.align = utf16 "right" then config.padding + config.maxWidth
    else config.padding
  [DrawOp.fillText
    { ctx with fillStyle := config.highlightColor,
               textAlign := setTextAlign ctx.textAlign config.align }
    text textX config.centerY]

/-- The method `renderCurrentLineCentered`: the calls it paints and the state it
leaves; `now` and `nowPaint` as in `renderCurrentLine`. -/
def renderCurrentLineCentered (measure : Font → Str → ℚ) (r : LyricRenderer)
    (now nowPaint : Int) (line : Option LyricLine) (lineIndex : Int) (wordIndex : Option Int)
    (highlightWord : Bool) (config : CenteredConfig) : List DrawOp × LyricRenderer :=
  match line with
  | none => ([], r)
  | some line =>
    if !truthy line.originalLyric then ([], r)
    else
      let font : Font := { bold := true, size := config.fontSize }
      let ctx : Ctx :=
        { fillStyle := config.highlightColor, font := font, textAlign := ALIGN_START,
          textBaseline := BASELINE_MIDDLE }
      let originalText := orEmpty line.originalLyric
      let words := splitLyricToWords originalText
      let isCJK := hasCJK originalText
      match validWordIndex highlightWord wordIndex with
      | some wi =>
        if words.length > 0 then
          let currentWord := currentWordOf words wi
          let (r1, highlightedChars) := updateGradientState r now lineIndex wi currentWord.length
          let totalWidth := totalWidthLoop (measure font) isCJK words.length 0 words 0
          let currentX := getAlignedX config.align config.padding config.maxWidth
            (min totalWidth config.maxWidth)
          (centeredLoop (measure font) r1 nowPaint ctx isCJK words.length wi highlightedChars
            (config.padding + config.maxWidth) config.centerY config.primaryColor
            config.highlightColor 0 words currentX, r1)
        else (centeredStatic (measure font) ctx originalText config, r)
      | none => (centeredStatic (measure font) ctx originalText config, r)

/-! ## The song panel and `render` -/

/-- The method `renderSongInfo`, after the background has been painted. -/
def renderSongInfo (measure : Font → Str → ℚ) (width height : ℚ) (song : Option Song)
    (o : RenderOptions) : List DrawOp :=
  let maxWidth := width - o.paddingHorizontal * 2
  match song with
  | none =>
    [DrawOp.fillText
      { fillStyle := o.secondaryColor, font := { bold := false, size := 16 },
        textAlign := utf16 "center", textBaseline := BASELINE_MIDDLE }
      WAITING_TEXT (width / 2) (height / 2)]
  | some song =>
    if !truthy song.songName then
      [DrawOp.fillText
        { fillStyle := o.secondaryColor, font := { bold := false, size := 16 },
          textAlign := utf16 "center", textBaseline := BASELINE_MIDDLE }
        WAITING_TEXT (width / 2) (height / 2)]
    else
      let primaryFont : Font := { bold := true, size := o.primaryFontSize }
      let songName := truncateText (measure primaryFont)
        (utf16 "♪ " ++ orEmpty song.songName) maxWidth
      let songNameWidth := measure primaryFont songName
      let songNameX := getAlignedX o.primaryAlign o.paddingHorizontal maxWidth songNameWidth
      let nameOp := DrawOp.fillText
        { fillStyle := o.highlightColor, font := primaryFont, textAlign := ALIGN_START,
          textBaseline := BASELINE_ALPHABETIC }
        songName songNameX (o.primaryPaddingTop + o.primaryFontSize)
      let secondaryFont : Font := { bold := false, size := o.secondaryFontSize }
      let artistAlbum0 := orEmpty song.authorName
      let artistAlbum :=
        if truthy song.albumName then
          artistAlbum0 ++
            (if artistAlbum0 ≠ [] then utf16 " - " ++ orEmpty song.albumName
             else orEmpty song.albumName)
        else artistAlbum0
      nameOp ::
        (if artistAlbum ≠ [] then
          let artistText := truncateText (measure secondaryFont) artistAlbum maxWidth
          let artistWidth := measure secondaryFont artistText
          let artistX := getAlignedX o.secondaryAlign o.paddingHorizontal maxWidth artistWidth
          [DrawOp.fillText
            { fillStyle := o.secondaryColor, font := secondaryFont, textAlign := ALIGN_START,
              textBaseline := BASELINE_ALPHABETIC }
            artistText artistX (o.secondaryPaddingTop + o.secondaryFontSize)]
        else [])

/-- Which of its three paintings `render` makes (a record of the path taken). -/
inductive RenderBranch where
  | songInfo
  | dualLine
  | singleLine
  deriving DecidableEq, Repr

/-- What a call of `render` produces: the painting calls that make up the frame,
the state it leaves, and the path taken. -/
structure RenderResult where
  branch : RenderBranch
  ops : List DrawOp
  state : LyricRenderer
  deriving DecidableEq, Repr

/-- The test `showTranslation && line.translatedLyric`, as a truth value. -/
def hasTranslation (o : RenderOptions) (line : LyricLine) : Bool :=
  o.showTranslation && truthy line.translatedLyric

/-- The test `nextLine && nextLine.originalLyric`, as a truth value. -/
def hasNextLine (nextLine : Option LyricLine) : Bool :=
  match nextLine with
  | some nl => truthy nl.originalLyric
  | none => false

/-- The method `render`, on options already destructured; `now` and `nowPaint` are
the clock values read during the call (see `renderCurrentLine`). The argument
`lyrics` is not read by the method and is left out. -/
def render (measure : Font → Str → ℚ) (r : LyricRenderer) (now nowPaint : Int)
    (currentLyric : Option LyricPosition) (song : Option Song) (o : RenderOptions)
    (width height : ℚ) : RenderResult :=
  let r0 := ensureFonts r
  let background := DrawOp.fillRect o.backgroundColor 0 0 width height
  let songInfo : RenderResult :=
    { branch := RenderBranch.songInfo
      ops := background :: renderSongInfo measure width height song o
      state := r0 }
  match currentLyric with
  | none => songInfo
  | some cl =>
    match cl.lineIndex with
    | none => songInfo
    | some lineIndex =>
      if lineIndex < 0 then songInfo
      else
        match cl.line with
        | none => songInfo
        | some line =>
          if !truthy line.originalLyric then songInfo
          else
            let maxWidth := width - o.paddingHorizontal * 2
            if hasTranslation o line ∨ hasNextLine cl.nextLine then
              let (lineOps, r1) := renderCurrentLine measure r0 now nowPaint (some line) lineIndex
                cl.wordIndex o.highlightWord
                { x := o.paddingHorizontal, y := o.primaryPaddingTop, maxWidth := maxWidth,
                  fontSize := o.primaryFontSize, align := o.primaryAlign,
                  primaryColor := o.primaryColor, highlightColor := o.highlightColor }
              let secondaryFont : Font := { bold := false, size := o.secondaryFontSize }
              let secondaryText :=
                if hasTranslation o line then orEmpty line.translatedLyric
                else orEmpty (cl.nextLine.bind (fun nl => nl.originalLyric))
              let truncatedText := truncateText (measure secondaryFont) secondaryText maxWidth
              let textWidth := measure secondaryFont truncatedText
              let textX := getAlignedX o.secondaryAlign o.paddingHorizontal maxWidth textWidth
              { branch := RenderBranch.dualLine
                ops := background :: (lineOps ++
                  [DrawOp.fillText
                    { fillStyle := o.secondaryColor, font := secondaryFont,
                      textAlign := ALIGN_START, textBaseline := BASELINE_ALPHABETIC }
                    truncatedText textX (o.secondaryPaddingTop + o.secondaryFontSize)])
                state := r1 }
            else
              let centerY := height / 2
              let (lineOps, r1) := renderCurrentLineCentered measure r0 now nowPaint (some line)
                lineIndex cl.wordIndex o.highlightWord
                { padding := o.paddingHorizontal, centerY := centerY, maxWidth := maxWidth,
                  fontSize := o.primaryFontSize + 2, align := o.primaryAlign,
                  primaryColor := o.primaryColor, highlightColor := o.highlightColor }
              { branch := RenderBranch.singleLine
                ops := background :: lineOps
                state := r1 }

/-! ## Reference definitions, following the wording of the specification -/

/-- Specification: the maximal runs of characters that are not white space, in
order; that is, the pieces of the text between white-space characters, without the
empty pieces. -/
def nonWhitespaceRuns (text : Str) : List Str :=
  (text.splitOnP isWhitespace).filter (fun u => decide (u ≠ []))

/-- Specification: the text without its leading and trailing white space. -/
def trimWhitespace (text : Str) : Str :=
  (text.dropWhile isWhitespace).rdropWhile isWhitespace

/-- Specification: every run of white space replaced by one space (a white-space
character followed by another is dropped, the last of a run becomes a space). -/
def squeezeWhitespace : Str → Str
  | [] => []
  | [c] => [if isWhitespace c then 32 else c]
  | c :: d :: rest =>
    if isWhitespace c then
      if isWhitespace d then squeezeWhitespace (d :: rest)
      else 32 :: squeezeWhitespace (d :: rest)
    else c :: squeezeWhitespace (d :: rest)

/-- Specification: the text modulo white-space collapsing. -/
def collapseWhitespace (text : Str) : Str := squeezeWhitespace (trimWhitespace text)

/-- Specification: one unit painted on the animated path, with the x coordinate it
is painted at and the calls that paint the space after it (none, or one). -/
structure PaintedUnit where
  word : Str
  x : ℚ
  spaceOps : List DrawOp

/-- Specification: the colour rule for the unit of index `i`. Before the current
word it is painted whole in the highlight colour, after it whole in the primary
colour, and the current word is handed to the gradient routine `gradient`. -/
def unitColourRule (gradient : Str → ℚ → List DrawOp) (ctx : Ctx) (wordIndex : Int)
    (primaryColor highlightColor : Str) (y : ℚ) (i : Nat) (word : Str) (x : ℚ) : List DrawOp :=
  if (i : Int) < wordIndex then
    [DrawOp.fillText { ctx with fillStyle := highlightColor } word x y]
  else if (i : Int) = wordIndex then gradient word x
  else [DrawOp.fillText { ctx with fillStyle := primaryColor } word x y]

/-- Specification: a frame fragment that paints the units `painted`, numbered from
`i`, each by the colour rule and followed by its space, and then `tail`. -/
def paintedByRule (gradient : Str → ℚ → List DrawOp) (ctx : Ctx) (wordIndex : Int)
    (primaryColor highlightColor : Str) (y : ℚ) (i : Nat) (painted : List PaintedUnit)
    (tail : List DrawOp) : List DrawOp :=
  (List.enumFrom i painted).flatMap (fun p =>
    unitColourRule gradient ctx wordIndex primaryColor highlightColor y p.1 p.2.word p.2.x
      ++ p.2.spaceOps) ++ tail

/-- Specification: `ops` is empty or one `fillText` of a single space. -/
def isSpaceOps (y : ℚ) (ops : List DrawOp) : Prop :=
  ops = [] ∨ ∃ (c : Ctx) (x : ℚ), ops = [DrawOp.fillText c SPACE x y]

/-- Specification: `ops` paints a prefix of `words`, numbered from 0, each unit by
the colour rule and followed by at most one space, and ends with nothing more or
(where `ellipsis` allows it) with one ellipsis in the primary colour. -/
def paintsUnitsByRule (gradient : Str → ℚ → List DrawOp) (ctx : Ctx) (wordIndex : Int)
    (primaryColor highlightColor : Str) (y : ℚ) (words : List Str) (ellipsis : Bool)
    (ops : List DrawOp) : Prop :=
  ∃ (painted : List PaintedUnit) (tail : List DrawOp),
    ops = paintedByRule gradient ctx wordIndex primaryColor highlightColor y 0 painted tail
    ∧ painted.map (fun u => u.word) <+: words
    ∧ (∀ u ∈ painted, isSpaceOps y u.spaceOps)
    ∧ (tail = [] ∨ (ellipsis = true ∧
        ∃ x, tail = [DrawOp.fillText { ctx with fillStyle := primaryColor } ELLIPSIS x y]))

/-- The context in force while `renderCurrentLine` paints. -/
def lineCtx (config : LineConfig) : Ctx :=
  { fillStyle := config.highlightColor, font := { bold := true, size := config.fontSize },
    textAlign := ALIGN_START, textBaseline := BASELINE_ALPHABETIC }

/-- The context in force while `renderCurrentLineCentered` paints words. -/
def centeredCtx (config : CenteredConfig) : Ctx :=
  { fillStyle := config.highlightColor, font := { bold := true, size := config.fontSize },
    textAlign := ALIGN_START, textBaseline := BASELINE_MIDDLE }

/-- The pair returned by the `updateGradientState` call of the animated path, for
the line text `text` and the word index `wi`. -/
def animatedUpdate (r : LyricRenderer) (now lineIndex wi : Int) (text : Str) :
    LyricRenderer × Int :=
  updateGradientState r now lineIndex wi (currentWordOf (splitLyricToWords text) wi).length

/-- Specification (S0): the position is absent, its `lineIndex` is undefined or
negative, or the line or its original text is missing. -/
def positionMissing : Option LyricPosition → Bool
  | none => true
  | some cl =>
    (match cl.lineIndex with
      | none => true
      | some lineIndex => decide (lineIndex < 0)) ||
    (match cl.line with
      | none => true
      | some line => !truthy line.originalLyric)

/-- Specification (S1): `showTranslation` is on and the line has a translation, or
the next line has original text. -/
def secondaryAvailable (o : RenderOptions) : Option LyricPosition → Bool
  | none => false
  | some cl =>
    (o.showTranslation &&
      (match cl.line with
        | none => false
        | some line => truthy line.translatedLyric)) ||
    (match cl.nextLine with
      | none => false
      | some nextLine => truthy nextLine.originalLyric)

/-- Specification: the song or its name is missing. -/
def songMissing : Option Song → Bool
  | none => true
  | some song => !truthy song.songName

/-- The call that paints the idle placeholder. -/
def idlePlaceholder (o : RenderOptions) (width height : ℚ) : DrawOp :=
  DrawOp.fillText
    { fillStyle := o.secondaryColor, font := { bold := false, size := 16 },
      textAlign := utf16 "center", textBaseline := BASELINE_MIDDLE }
    WAITING_TEXT (width / 2) (height / 2)

/-- The `config` that `render` hands to `renderCurrentLine`. -/
def primaryConfig (o : RenderOptions) (width : ℚ) : LineConfig :=
  { x := o.paddingHorizontal, y := o.primaryPaddingTop,
    maxWidth := width - o.paddingHorizontal * 2, fontSize := o.primaryFontSize,
    align := o.primaryAlign, primaryColor := o.primaryColor,
    highlightColor := o.highlightColor }

/-- The `config` that `render` hands to `renderCurrentLineCentered`. -/
def singleConfig (o : RenderOptions) (width height : ℚ) : CenteredConfig :=
  { padding := o.paddingHorizontal, centerY := height / 2,
    maxWidth := width - o.paddingHorizontal * 2, fontSize := o.primaryFontSize + 2,
    align := o.primaryAlign, primaryColor := o.primaryColor,
    highlightColor := o.highlightColor }

/-- Specification: the secondary text of dual-line mode, the translation when it
exists and `showTranslation` is on, the original text of the next line otherwise. -/
def secondaryTextOf (o : RenderOptions) (cl : LyricPosition) (line : LyricLine) : Str :=
  if o.showTranslation = true ∧ truthy line.translatedLyric = true then
    orEmpty line.translatedLyric
  else
    match cl.nextLine with
    | some nextLine => orEmpty nextLine.originalLyric
    | none => []

/-- The call that paints the secondary line with text `text`. -/
def secondaryOp (measure : Font → Str → ℚ) (o : RenderOptions) (width : ℚ) (text : Str) :
    DrawOp :=
  DrawOp.fillText
    { fillStyle := o.secondaryColor, font := { bold := false, size := o.secondaryFontSize },
      textAlign := ALIGN_START, textBaseline := BASELINE_ALPHABETIC }
    (truncateText (measure ⟨false, o.secondaryFontSize⟩) text (width - o.paddingHorizontal * 2))
    (getAlignedX o.secondaryAlign o.paddingHorizontal (width - o.paddingHorizontal * 2)
      (measure ⟨false, o.secondaryFontSize⟩
        (truncateText (measure ⟨false, o.secondaryFontSize⟩) text
          (width - o.paddingHorizontal * 2))))
    (o.secondaryPaddingTop + o.secondaryFontSize)

/-- The line of a position, with its translation removed. -/
def withoutTranslation (cl : LyricPosition) : LyricPosition :=
  { cl with line := cl.line.map (fun line => { line with translatedLyric := none }) }

/-! ## Sample inputs -/

/-- A measure giving 10 pixels to every code unit, in every font. -/
def sampleMeasure : Font → Str → ℚ := fun _ s => 10 * s.length

/-- A measure giving 2 pixels to a full stop and 10 to any other code unit. -/
def dotMeasure : Str → ℚ := fun s => (s.map (fun c => if c = 46 then (2 : ℚ) else 10)).sum

/-- The line of the end-to-end example. -/
def sampleLine : LyricLine := { originalLyric := some (utf16 "I love you"), translatedLyric := none }

def sampleLineConfig : LineConfig :=
  { x := 10, y := 8, maxWidth := 460, fontSize := 18, align := utf16 "left",
    primaryColor := DEFAULT_PRIMARY, highlightColor := DEFAULT_HIGHLIGHT }

def sampleCenteredConfig : CenteredConfig :=
  { padding := 10, centerY := 30, maxWidth := 460, fontSize := 20, align := utf16 "left",
    primaryColor := DEFAULT_PRIMARY, highlightColor := DEFAULT_HIGHLIGHT }

/-- A position whose line has a translation and a next line. -/
def translatedPosition : LyricPosition :=
  { lineIndex := some 3, wordIndex := none,
    line := some { originalLyric := some (utf16 "hello"), translatedLyric := some (utf16 "你好") },
    nextLine := some { originalLyric := some (utf16 "next"), translatedLyric := none } }

/-! ## The sibling renderer (`src/canvas-renderer.js`) -/

/-- The method `truncateText` of `CanvasRenderer`; its text is the same as that of
the method of `LyricRenderer`, loop included. -/
def CanvasRenderer.truncateText (measure : Str → ℚ) (text : Str) (maxWidth : ℚ) : Str :=
  if text = [] then []
  else
    let width := measure text
    if width ≤ maxWidth then text
    else truncateLoop measure maxWidth text.length text width ++ ELLIPSIS

/-- Specification: `t` is the longest strict prefix of `text` that fits in
`maxWidth` once the ellipsis is appended. -/
def IsLongestFittingPrefix (measure : Str → ℚ) (maxWidth : ℚ) (text t : Str) : Prop :=
  t <+: text ∧ t ≠ text ∧ measure (t ++ ELLIPSIS) ≤ maxWidth ∧
    ∀ p, p <+: text → p ≠ text → measure (p ++ ELLIPSIS) ≤ maxWidth → p.length ≤ t.length

/-- A measure under which a longer text can be narrower, as happens when a font
draws two letters as one ligature: `AB...` is 3 wide, `A...` is 5 wide, and any
other text has 10 for each code unit. -/
def ligatureMeasure : Str → ℚ := fun s =>
  if s = utf16 "AB..." then 3 else if s = utf16 "A..." then 5 else 10 * s.length

/-! ## Reference definitions for colours -/

/-- Specification: the code unit `c` writes the hexadecimal digit of value `v`
(`0`-`9`, `A`-`F` or `a`-`f`). -/
def isHexDigitOf (c v : Nat) : Bool :=
  (decide (v < 10) && c == 48 + v) ||
  (decide (10 ≤ v) && decide (v < 16) && (c == 55 + v || c == 87 + v))

/-- Specification: `p` is two hexadecimal digits writing the value `v`. -/
def IsHexPair (p : Str) (v : Nat) : Prop :=
  ∃ c1 c2 v1 v2, p = [c1, c2] ∧ isHexDigitOf c1 v1 = true ∧ isHexDigitOf c2 v2 = true ∧
    v = 16 * v1 + v2

/-- Specification: `s` is a well-formed `#RRGGBB` text with channels `r`, `g`, `b`. -/
def IsHexColour (s : Str) (r g b : Nat) : Prop :=
  ∃ pr pg pb, s = 35 :: (pr ++ pg ++ pb) ∧ IsHexPair pr r ∧ IsHexPair pg g ∧ IsHexPair pb b

/-- Specification: the text `rgb(r, g, b)` for integer channels. -/
def rgbText (r g b : Int) : Str :=
  utf16 "rgb(" ++ numberToStr (JSNum.finite r) ++ utf16 ", " ++ numberToStr (JSNum.finite g)
    ++ utf16 ", " ++ numberToStr (JSNum.finite b) ++ utf16 ")"

/-- Specification: linear interpolation of one channel, `a + (b - a) * t`. -/
def lerpChannel (a b : Nat) (t : ℚ) : ℚ := (a : ℚ) + ((b : ℚ) - (a : ℚ)) * t

/-- Specification: rounding to the nearest integer, halves going up. -/
def roundNearest (x : ℚ) : Int := ⌊x + 1 / 2⌋

/-- Specification: `a + (b - a) * t` as doubles compute it, the fraction `t`, the
product and the sum each rounded to the nearest double. -/
def doubleLerp (a b : Nat) (t : ℚ) : ℚ :=
  roundToDouble ((a : ℚ) + roundToDouble (((b : ℚ) - (a : ℚ)) * roundToDouble t))

/-- The double nearest to one sixth, `0.16666666666666666`; it is below one sixth. -/
def oneSixthDouble : ℚ := 6004799503160661 / 36028797018963968

/-- Specification: no word of the current line is eligible for animation, either
because `highlightWord` is off or because `wordIndex` is undefined or negative. -/
def noWordHighlight (o : RenderOptions) : Option LyricPosition → Bool
  | none => true
  | some cl =>
    !o.highlightWord ||
    (match cl.wordIndex with
      | none => true
      | some wordIndex => decide (wordIndex < 0))

/-! ## Sequences of highlight-clock calls -/

/-- Specification: `Reachable r last` says that the state `r` is reached from the
state built by the constructor by calls of `updateGradientState` whose clock
readings are non-negative and non-decreasing, `last` being the latest reading
(0 before the first call). -/
inductive Reachable : LyricRenderer → Int → Prop where
  | init : Reachable LyricRenderer.new 0
  | step {r : LyricRenderer} {last : Int} (now lineIndex wordIndex : Int) (wordLength : Nat) :
      Reachable r last → last ≤ now →
      Reachable (updateGradientState r now lineIndex wordIndex wordLength).1 now

/-! ## The options built by the plugin (`src/plugin.js`) -/

/-- A JavaScript value as it can stand in the data of a key (numbers other than
`NaN`). -/
inductive JSValue where
  | undefined
  | null
  | bool (b : Bool)
  | number (x : ℚ)
  | string (s : Str)
  deriving DecidableEq, Repr

/-- JavaScript truthiness. -/
def JSValue.truthy : JSValue → Bool
  | JSValue.undefined => false
  | JSValue.null => false
  | JSValue.bool b => b
  | JSValue.number x => decide (x ≠ 0)
  | JSValue.string s => decide (s ≠ [])

/-- The expression `v || d`. -/
def JSValue.orDefault (v d : JSValue) : JSValue := if v.truthy then v else d

/-- The expression `v ?? d`. -/
def JSValue.nullishDefault (v d : JSValue) : JSValue :=
  match v with
  | JSValue.undefined => d
  | JSValue.null => d
  | _ => v

/-- The expression `v !== false`. -/
def JSValue.notFalse (v : JSValue) : Bool := decide (v ≠ JSValue.bool false)

/-- The properties of `key.data` read by `updateLyricKey`; a missing property is
`undefined`. -/
structure KeyData where
  showTranslation : JSValue
  highlightWord : JSValue
  backgroundColor : JSValue
  primaryAlign : JSValue
  primaryFontSize : JSValue
  primaryColor : JSValue
  highlightColor : JSValue
  primaryPaddingTop : JSValue
  secondaryAlign : JSValue
  secondaryFontSize : JSValue
  secondaryColor : JSValue
  secondaryPaddingTop : JSValue
  paddingHorizontal : JSValue
  deriving DecidableEq, Repr

/-- The object `{}`. -/
def KeyData.empty : KeyData :=
  { showTranslation := JSValue.undefined, highlightWord := JSValue.undefined,
    backgroundColor := JSValue.undefined, primaryAlign := JSValue.undefined,
    primaryFontSize := JSValue.undefined, primaryColor := JSValue.undefined,
    highlightColor := JSValue.undefined, primaryPaddingTop := JSValue.undefined,
    secondaryAlign := JSValue.undefined, secondaryFontSize := JSValue.undefined,
    secondaryColor := JSValue.undefined, secondaryPaddingTop := JSValue.undefined,
    paddingHorizontal := JSValue.undefined }

/-- The object `options` that `updateLyricKey` hands to `render`. -/
structure KeyOptions where
  showTranslation : Bool
  highlightWord : Bool
  backgroundColor : JSValue
  primaryAlign : JSValue
  primaryFontSize : JSValue
  primaryColor : JSValue
  highlightColor : JSValue
  primaryPaddingTop : JSValue
  secondaryAlign : JSValue
  secondaryFontSize : JSValue
  secondaryColor : JSValue
  secondaryPaddingTop : JSValue
  paddingHorizontal : JSValue
  deriving DecidableEq, Repr

/-- The options built at the start of `updateLyricKey`; `data` is `key.data`, `none`
when it is missing. -/
def updateLyricKeyOptions (data : Option KeyData) : KeyOptions :=
  let d := data.getD KeyData.empty
  { showTranslation := d.showTranslation.notFalse
    highlightWord := d.highlightWord.notFalse
    backgroundColor := d.backgroundColor.orDefault (JSValue.string (utf16 "#1a1a1a"))
    primaryAlign := d.primaryAlign.orDefault (JSValue.string (utf16 "left"))
    primaryFontSize := d.primaryFontSize.orDefault (JSValue.number 18)
    primaryColor := d.primaryColor.orDefault (JSValue.string (utf16 "#FFFFFF"))
    highlightColor := d.highlightColor.orDefault (JSValue.string (utf16 "#E60026"))
    primaryPaddingTop := d.primaryPaddingTop.nullishDefault (JSValue.number 5)
    secondaryAlign := d.secondaryAlign.orDefault (JSValue.string (utf16 "left"))
    secondaryFontSize := d.secondaryFontSize.orDefault (JSValue.number 13)
    secondaryColor := d.secondaryColor.orDefault (JSValue.string (utf16 "#888888"))
    secondaryPaddingTop := d.secondaryPaddingTop.nullishDefault (JSValue.number 28)
    paddingHorizontal := d.paddingHorizontal.orDefault (JSValue.number 10) }

/-- Specification: a valid alignment, one of `left`, `center`, `right`. -/
def validAlign (v : JSValue) : Bool :=
  decide (v = JSValue.string (utf16 "left") ∨ v = JSValue.string (utf16 "center") ∨
    v = JSValue.string (utf16 "right"))

/-- Specification: a valid colour, `#` followed by six hexadecimal digits. -/
def validColour : JSValue → Bool
  | JSValue.string (35 :: digits) =>
    decide (digits.length = 6) && digits.all (fun c => (hexDigit c).isSome)
  | _ => false

/-- Specification: a valid font size or padding, a positive number. -/
def validSize : JSValue → Bool
  | JSValue.number x => decide (0 < x)
  | _ => false

/-- Key data that sets nothing but `primaryAlign`. -/
def alignOnlyData (align : JSValue) : KeyData := { KeyData.empty with primaryAlign := align }

/-- The test that a value is neither `undefined` nor `null`. -/
def JSValue.defined : JSValue → Bool
  | JSValue.undefined => false
  | JSValue.null => false
  | _ => true

/-- Specification: `result` is the supplied value when that one is present, and
the default otherwise. -/
def PassesOrDefault (present : JSValue → Bool) (supplied result dflt : JSValue) : Prop :=
  (present supplied = true → result = supplied) ∧ (present supplied = false → result = dflt)

/-- Specification, as the claim has it: `result` is the supplied value and that one
is valid, or it is the default. -/
def ValidOrDefault (valid : JSValue → Bool) (supplied result dflt : JSValue) : Prop :=
  (valid supplied = true ∧ result = supplied) ∨ result = dflt

/-! ## Calls that can fail

`render` on arguments as JavaScript hands them over: a property read of `undefined`
raises, `createCanvas` can refuse the dimensions, and `parseColor` calls
`color.startsWith`, which raises when the colour is not a string. The four colour
options are values here; the other options keep the types `render` works with, and
no operation on them can raise. -/

/-- An error raised during `render`: a `TypeError` of the language, or the error
with which `createCanvas` refuses its dimensions. -/
inductive JSError where
  | typeError
  | canvasError
  deriving DecidableEq, Repr

deriving instance DecidableEq for Except

/-- Reading the property `f` of `obj`, which raises a `TypeError` when `obj` is
`undefined`. -/
def readProp {α β : Type} (obj : Option α) (f : α → β) : Except JSError β :=
  match obj with
  | some o => Except.ok (f o)
  | none => Except.error JSError.typeError

/-- The method `parseColor` on a value that need not be a string: `startsWith` is a
method of strings only, so that reading it from `null` or `undefined` raises, and
calling it on a number or a boolean, where the property is `undefined`, raises. -/
def parseColorValue : JSValue → Except JSError RGB
  | JSValue.string s => Except.ok (parseColor s)
  | _ => Except.error JSError.typeError

/-- The method `interpolateColor` on values that need not be strings. -/
def interpolateColorValue (color1 color2 : JSValue) (progress : ℚ) : Except JSError Str := do
  let c1 ← parseColorValue color1
  let c2 ← parseColorValue color2
  let p := toDouble progress
  let r := interpolateChannel c1.r c2.r p
  let g := interpolateChannel c1.g c2.g p
  let b := interpolateChannel c1.b c2.b p
  Except.ok (rgbToColor r g b)

/-- The text recorded for a value assigned to `ctx.fillStyle`: a string as it is,
any other value through `other`, the conversion made by the canvas. -/
def styleText (other : JSValue → Str) : JSValue → Str
  | JSValue.string s => s
  | v => other v

/-- The options of `render` after destructuring, with the four colours as the
values found in the options object. -/
structure RawOptions where
  showTranslation : Bool
  highlightWord : Bool
  backgroundColor : JSValue
  primaryAlign : Str
  primaryFontSize : ℚ
  primaryColor : JSValue
  highlightColor : JSValue
  primaryPaddingTop : ℚ
  secondaryAlign : Str
  secondaryFontSize : ℚ
  secondaryColor : JSValue
  secondaryPaddingTop : ℚ
  paddingHorizontal : ℚ
  deriving DecidableEq, Repr

/-- The options with each colour replaced by the text recorded for it. -/
def RawOptions.texts (other : JSValue → Str) (o : RawOptions) : RenderOptions :=
  { showTranslation := o.showTranslation
    highlightWord := o.highlightWord
    backgroundColor := styleText other o.backgroundColor
    primaryAlign := o.primaryAlign
    primaryFontSize := o.primaryFontSize
    primaryColor := styleText other o.primaryColor
    highlightColor := styleText other o.highlightColor
    primaryPaddingTop := o.primaryPaddingTop
    secondaryAlign := o.secondaryAlign
    secondaryFontSize := o.secondaryFontSize
    secondaryColor := styleText other o.secondaryColor
    secondaryPaddingTop := o.secondaryPaddingTop
    paddingHorizontal := o.paddingHorizontal }

/-- Typed options as an options object: every colour is a string. -/
def RenderOptions.raw (o : RenderOptions) : RawOptions :=
  { showTranslation := o.showTranslation
    highlightWord := o.highlightWord
    backgroundColor := JSValue.string o.backgroundColor
    primaryAlign := o.primaryAlign
    primaryFontSize := o.primaryFontSize
    primaryColor := JSValue.string o.primaryColor
    highlightColor := JSValue.string o.highlightColor
    primaryPaddingTop := o.primaryPaddingTop
    secondaryAlign := o.secondaryAlign
    secondaryFontSize := o.secondaryFontSize
    secondaryColor := JSValue.string o.secondaryColor
    secondaryPaddingTop := o.secondaryPaddingTop
    paddingHorizontal := o.paddingHorizontal }

/-- The loop of `renderWordWithGradient` as `gradientLoop`, with the call
`this.interpolateColor(primaryColor, highlightColor, progress)` given as `blend`,
which can raise; `primaryColor` and `highlightColor` are the texts recorded when the
colours are assigned to `ctx.fillStyle`. -/
def gradientLoopChecked (measure : Str → ℚ) (r : LyricRenderer) (nowPaint : Int) (ctx : Ctx)
    (y : ℚ) (highlightedChars : Int) (primaryColor highlightColor : Str)
    (blend : ℚ → Except JSError Str) : Nat → List Str → ℚ → Except JSError (List DrawOp)
  | _, [], _ => Except.ok []
  | i, char :: rest, currentX => do
    let charWidth := measure char
    let fillStyle ←
      (if (i : Int) < highlightedChars then Except.ok highlightColor
       else if (i : Int) = highlightedChars then blend (gradientProgress r nowPaint)
       else Except.ok primaryColor)
    let later ← gradientLoopChecked measure r nowPaint ctx y highlightedChars primaryColor
      highlightColor blend (i + 1) rest (currentX + charWidth)
    Except.ok (DrawOp.fillText { ctx with fillStyle := fillStyle } char currentX y :: later)

/-- The painting loop of `renderCurrentLine` as `lineLoop`, with the blend call
given as `blend`. -/
def lineLoopChecked (measure : Str → ℚ) (r : LyricRenderer) (nowPaint : Int) (ctx : Ctx)
    (isCJK : Bool) (n : Nat) (wordIndex highlightedChars : Int) (limit lineY : ℚ)
    (primaryColor highlightColor : Str) (blend : ℚ → Except JSError Str) :
    Nat → List Str → ℚ → Except JSError (List DrawOp)
  | _, [], _ => Except.ok []
  | i, word :: rest, currentX =>
    let wordWidth := measure word
    if currentX + wordWidth > limit then
      Except.ok [DrawOp.fillText { ctx with fillStyle := primaryColor } ELLIPSIS currentX lineY]
    else do
      let wordOps ←
        (if (i : Int) < wordIndex then
          Except.ok [DrawOp.fillText { ctx with fillStyle := highlightColor } word currentX lineY]
        else if (i : Int) = wordIndex then
          gradientLoopChecked measure r nowPaint ctx lineY highlightedChars primaryColor
            highlightColor blend 0 (arrayFrom word) currentX
        else
          Except.ok [DrawOp.fillText { ctx with fillStyle := primaryColor } word currentX lineY])
      let currentX1 := currentX + wordWidth
      if !isCJK ∧ (i : Int) < (n : Int) - 1 then do
        let spaceWidth := measure SPACE
        let spaceStyle := if (i : Int) < wordIndex then highlightColor else primaryColor
        let later ← lineLoopChecked measure r nowPaint ctx isCJK n wordIndex highlightedChars
          limit lineY primaryColor highlightColor blend (i + 1) rest (currentX1 + spaceWidth)
        Except.ok (wordOps ++
          DrawOp.fillText { ctx with fillStyle := spaceStyle } SPACE currentX1 lineY :: later)
      else do
        let later ← lineLoopChecked measure r nowPaint ctx isCJK n wordIndex highlightedChars
          limit lineY primaryColor highlightColor blend (i + 1) rest currentX1
        Except.ok (wordOps ++ later)

/-- The method `renderCurrentLine` with the blend call given as `blend`; the colours
of `config` are the texts recorded for them. -/
def renderCurrentLineChecked (measure : Font → Str → ℚ) (r : LyricRenderer)
    (now nowPaint : Int) (line : Option LyricLine) (lineIndex : Int) (wordIndex : Option Int)
    (highlightWord : Bool) (config : LineConfig) (blend : ℚ → Except JSError Str) :
    Except JSError (List DrawOp × LyricRenderer) :=
  match line with
  | none => Except.ok ([], r)
  | some line =>
    if !truthy line.originalLyric then Except.ok ([], r)
    else
      let font : Font := { bold := true, size := config.fontSize }
      let ctx : Ctx :=
        { fillStyle := config.highlightColor, font := font, textAlign := ALIGN_START,
          textBaseline := BASELINE_ALPHABETIC }
      let lineY := config.y + config.fontSize
      let originalText := orEmpty line.originalLyric
      let words := splitLyricToWords originalText
      let isCJK := hasCJK originalText
      match validWordIndex highlightWord wordIndex with
      | some wi =>
        if words.length > 0 then
          let currentWord := currentWordOf words wi
          let (r1, highlightedChars) := updateGradientState r now lineIndex wi currentWord.length
          let totalWidth := totalWidthLoop (measure font) isCJK words.length 0 words 0
          let currentX := getAlignedX config.align config.x config.maxWidth
            (min totalWidth config.maxWidth)
          do
            let ops ← lineLoopChecked (measure font) r1 nowPaint ctx isCJK words.length wi
              highlightedChars (config.x + config.maxWidth) lineY config.primaryColor
              config.highlightColor blend 0 words currentX
            Except.ok (ops, r1)
        else
          let text := truncateText (measure font) originalText config.maxWidth
          let textWidth := measure font text
          let textX := getAlignedX config.align config.x config.maxWidth textWidth
          Except.ok ([DrawOp.fillText ctx text textX lineY], r)
      | none =>
        let text := truncateText (measure font) originalText config.maxWidth
        let textWidth := measure font text
        let textX := getAlignedX config.align config.x config.maxWidth textWidth
        Except.ok ([DrawOp.fillText ctx text textX lineY], r)

/-- The painting loop of `renderCurrentLineCentered` as `centeredLoop`, with the
blend call given as `blend`. -/
def centeredLoopChecked (measure : Str → ℚ) (r : LyricRenderer) (nowPaint : Int) (ctx : Ctx)
    (isCJK : Bool) (n : Nat) (wordIndex highlightedChars : Int) (limit centerY : ℚ)
    (primaryColor highlightColor : Str) (blend : ℚ → Except JSError Str) :
    Nat → List Str → ℚ → Except JSError (List DrawOp)
  | _, [], _ => Except.ok []
  | i, word :: rest, currentX =>
    let wordWidth := measure word
    if currentX + wordWidth > limit then Except.ok []
    else do
      let wordOps ←
        (if (i : Int) < wordIndex then
          Except.ok [DrawOp.fillText { ctx with fillStyle := highlightColor } word currentX centerY]
        else if (i : Int) = wordIndex then
          gradientLoopChecked measure r nowPaint ctx centerY highlightedChars primaryColor
            highlightColor blend 0 (arrayFrom word) currentX
        else
          Except.ok [DrawOp.fillText { ctx with fillStyle := primaryColor } word currentX centerY])
      let currentX1 := currentX + wordWidth
      if !isCJK ∧ (i : Int) < (n : Int) - 1 then do
        let spaceWidth := measure SPACE
        let spaceStyle := if (i : Int) < wordIndex then highlightColor else primaryColor
        let later ← centeredLoopChecked measure r nowPaint ctx isCJK n wordIndex
          highlightedChars limit centerY primaryColor highlightColor blend (i + 1) rest
          (currentX1 + spaceWidth)
        Except.ok (wordOps ++
          DrawOp.fillText { ctx with fillStyle := spaceStyle } SPACE currentX1 centerY :: later)
      else do
        let later ← centeredLoopChecked measure r nowPaint ctx isCJK n wordIndex
          highlightedChars limit centerY primaryColor highlightColor blend (i + 1) rest currentX1
        Except.ok (wordOps ++ later)

/-- The method `renderCurrentLineCentered` with the blend call given as `blend`. -/
def renderCurrentLineCenteredChecked (measure : Font → Str → ℚ) (r : LyricRenderer)
    (now nowPaint : Int) (line : Option LyricLine) (lineIndex : Int) (wordIndex : Option Int)
    (highlightWord : Bool) (config : CenteredConfig) (blend : ℚ → Except JSError Str) :
    Except JSError (List DrawOp × LyricRenderer) :=
  match line with
  | none => Except.ok ([], r)
  | some line =>
    if !truthy line.originalLyric then Except.ok ([], r)
    else
      let font : Font := { bold := true, size := config.fontSize }
      let ctx : Ctx :=
        { fillStyle := config.highlightColor, font := font, textAlign := ALIGN_START,
          textBaseline := BASELINE_MIDDLE }
      let originalText := orEmpty line.originalLyric
      let words := splitLyricToWords originalText
      let isCJK := hasCJK originalText
      match validWordIndex highlightWord wordIndex with
      | some wi =>
        if words.length > 0 then
          let currentWord := currentWordOf words wi
          let (r1, highlightedChars) := updateGradientState r now lineIndex wi currentWord.length
          let totalWidth := totalWidthLoop (measure font) isCJK words.length 0 words 0
          let currentX := getAlignedX config.align config.padding config.maxWidth
            (min totalWidth config.maxWidth)
          do
            let ops ← centeredLoopChecked (measure font) r1 nowPaint ctx isCJK words.length wi
              highlightedChars (config.padding + config.maxWidth) config.centerY
              config.primaryColor config.highlightColor blend 0 words currentX
            Except.ok (ops, r1)
        else Except.ok (centeredStatic (measure font) ctx originalText config, r)
      | none => Except.ok (centeredStatic (measure font) ctx originalText config, r)

/-- The method `render` on an options object whose colours are values, with the
calls that can fail: `createCanvas`, which accepts the dimensions or raises
(`canvasAccepts`); every property read of `currentLyric`, `line` and `nextLine`,
made through `readProp` in the order of the source and with the short-circuit
evaluation of `||`, `&&` and `? :`; and the blend of the character being
highlighted, which parses `primaryColor` and `highlightColor`. An error ends the
call without a frame. -/
def renderChecked (other : JSValue → Str) (canvasAccepts : ℚ → ℚ → Bool)
    (measure : Font → Str → ℚ) (r : LyricRenderer) (now nowPaint : Int)
    (currentLyric : Option LyricPosition) (song : Option Song) (options : RawOptions)
    (width height : ℚ) : Except JSError RenderResult :=
  let r0 := ensureFonts r
  let o := options.texts other
  let blend := interpolateColorValue options.primaryColor options.highlightColor
  if !canvasAccepts width height then Except.error JSError.canvasError
  else
  let background := DrawOp.fillRect o.backgroundColor 0 0 width height
  let songInfo : RenderResult :=
    { branch := RenderBranch.songInfo
      ops := background :: renderSongInfo measure width height song o
      state := r0 }
  if currentLyric.isNone then Except.ok songInfo
  else do
    let lineIndex1 ← readProp currentLyric (fun cl => cl.lineIndex)
    match lineIndex1 with
    | none => Except.ok songInfo
    | some li1 =>
      let _ ← readProp currentLyric (fun cl => cl.lineIndex)
      if li1 < 0 then Except.ok songInfo
      else do
        let line ← readProp currentLyric (fun cl => cl.line)
        let nextLine ← readProp currentLyric (fun cl => cl.nextLine)
        let wordIndex ← readProp currentLyric (fun cl => cl.wordIndex)
        let lineIndex ← readProp currentLyric (fun cl => cl.lineIndex)
        let noText ← (if line.isNone then Except.ok true
          else do
            let original ← readProp line (fun l => l.originalLyric)
            Except.ok (!truthy original))
        if noText then Except.ok songInfo
        else do
          let maxWidth := width - o.paddingHorizontal * 2
          let hasTranslation ← (if o.showTranslation then do
              let translated ← readProp line (fun l => l.translatedLyric)
              Except.ok (truthy translated)
            else Except.ok false)
          let hasNextLine ← (if nextLine.isNone then Except.ok false
            else do
              let original ← readProp nextLine (fun l => l.originalLyric)
              Except.ok (truthy original))
          if hasTranslation ∨ hasNextLine then do
            let (lineOps, r1) ← renderCurrentLineChecked measure r0 now nowPaint line
              (lineIndex.getD 0) wordIndex o.highlightWord
              { x := o.paddingHorizontal, y := o.primaryPaddingTop, maxWidth := maxWidth,
                fontSize := o.primaryFontSize, align := o.primaryAlign,
                primaryColor := o.primaryColor, highlightColor := o.highlightColor } blend
            let secondaryFont : Font := { bold := false, size := o.secondaryFontSize }
            let secondaryValue ← (if hasTranslation then readProp line (fun l => l.translatedLyric)
              else readProp nextLine (fun l => l.originalLyric))
            let secondaryText := orEmpty secondaryValue
            let truncatedText := truncateText (measure secondaryFont) secondaryText maxWidth
            let textWidth := measure secondaryFont truncatedText
            let textX := getAlignedX o.secondaryAlign o.paddingHorizontal maxWidth textWidth
            Except.ok
              { branch := RenderBranch.dualLine
                ops := background :: (lineOps ++
                  [DrawOp.fillText
                    { fillStyle := o.secondaryColor, font := secondaryFont,
                      textAlign := ALIGN_START, textBaseline := BASELINE_ALPHABETIC }
                    truncatedText textX (o.secondaryPaddingTop + o.secondaryFontSize)])
                state := r1 }
          else do
            let centerY := height / 2
            let (lineOps, r1) ← renderCurrentLineCenteredChecked measure r0 now nowPaint line
              (lineIndex.getD 0) wordIndex o.highlightWord
              { padding := o.paddingHorizontal, centerY := centerY, maxWidth := maxWidth,
                fontSize := o.primaryFontSize + 2, align := o.primaryAlign,
                primaryColor := o.primaryColor, highlightColor := o.highlightColor } blend
            Except.ok
              { branch := RenderBranch.singleLine
                ops := background :: lineOps
                state := r1 }

/-! ## Reference definitions for the gradient of the current word -/

/-- Specification: the colour of character `i` of the current word, for a count
`highlightedChars` of fully highlighted characters and a blend fraction `f`. -/
def gradientColour (primaryColor highlightColor : Str) (highlightedChars : Int) (f : ℚ)
    (i : Nat) : Str :=
  if (i : Int) < highlightedChars then highlightColor
  else if (i : Int) > highlightedChars then primaryColor
  else interpolateColor primaryColor highlightColor f

/-- Specification: the x coordinate of character `i`, the start plus the widths of
the characters before it. -/
def charX (measure : Str → ℚ) (chars : List Str) (x : ℚ) (i : Nat) : ℚ :=
  x + ((chars.take i).map measure).sum

/-! ## Reference definitions for the spaces between units -/

/-- Specification: the calls that paint the space after the painted unit `u` of
index `i`, in a line of `n` units: none for CJK text and none after the last unit
of the line; otherwise one space right after the unit, in the highlight colour
after a completed unit and in the primary colour after the current word or a unit
not yet started. -/
def spaceRule (measure : Str → ℚ) (ctx : Ctx) (isCJK : Bool) (n : Nat) (wordIndex : Int)
    (primaryColor highlightColor : Str) (y : ℚ) (i : Nat) (u : PaintedUnit) : List DrawOp :=
  if isCJK = false ∧ (i : Int) + 1 < (n : Int) then
    [DrawOp.fillText
      { ctx with fillStyle := (if (i : Int) < wordIndex then highlightColor else primaryColor) }
      SPACE (u.x + measure u.word) y]
  else []

/-- Specification: `ops` paints a prefix of `words` by the colour rule, each unit
followed by the spaces that `spaceRule` gives it, and then at most an ellipsis. -/
def paintsSpacesByRule (measure : Str → ℚ) (gradient : Str → ℚ → List DrawOp) (ctx : Ctx)
    (isCJK : Bool) (wordIndex : Int) (primaryColor highlightColor : Str) (y : ℚ)
    (words : List Str) (ops : List DrawOp) : Prop :=
  ∃ (painted : List PaintedUnit) (tail : List DrawOp),
    ops = paintedByRule gradient ctx wordIndex primaryColor highlightColor y 0 painted tail
    ∧ painted.map (fun u => u.word) <+: words
    ∧ (∀ p ∈ List.enumFrom 0 painted,
        p.2.spaceOps = spaceRule measure ctx isCJK words.length wordIndex primaryColor
          highlightColor y p.1 p.2)
    ∧ (tail = [] ∨
        ∃ x, tail = [DrawOp.fillText { ctx with fillStyle := primaryColor } ELLIPSIS x y])

/-- Specification, as the claim has it: every space is painted in the colour of the
call just before it, the last call of the unit to its left. -/
def spacesFollowLeftColour (ops : List DrawOp) : Prop :=
  ∀ (k : Nat) (c1 c2 : Ctx) (text : Str) (x1 y1 x2 y2 : ℚ),
    ops[k]? = some (DrawOp.fillText c1 text x1 y1) →
    ops[k + 1]? = some (DrawOp.fillText c2 SPACE x2 y2) →
    c2.fillStyle = c1.fillStyle

/-- A renderer on word 1 of line 0 since time 0. -/
def sampleRenderer : LyricRenderer :=
  { fontsRegistered := true, lastWordIndex := 1, lastLineIndex := 0, wordStartTime := 0,
    currentWordLength := 4 }

/-- A narrow box for the sample line. -/
def narrowLineConfig : LineConfig := { sampleLineConfig with maxWidth := 50 }

/-- A narrow box for the sample line, centred painter. -/
def narrowCenteredConfig : CenteredConfig := { sampleCenteredConfig with maxWidth := 50 }

/-! ## A typed view of the options built by the plugin -/

/-- The number held by a value, if it is a number. -/
def JSValue.asNumber : JSValue → Option ℚ
  | JSValue.number x => some x
  | _ => none

/-- The string held by a value, if it is a string. -/
def JSValue.asString : JSValue → Option Str
  | JSValue.string s => some s
  | _ => none

/-- The options as `render` destructures them, when every value handed over by
`updateLyricKey` has the type `render` works with. -/
def KeyOptions.toRenderOptions (k : KeyOptions) : Option RenderOptions := do
  let backgroundColor ← k.backgroundColor.asString
  let primaryAlign ← k.primaryAlign.asString
  let primaryFontSize ← k.primaryFontSize.asNumber
  let primaryColor ← k.primaryColor.asString
  let highlightColor ← k.highlightColor.asString
  let primaryPaddingTop ← k.primaryPaddingTop.asNumber
  let secondaryAlign ← k.secondaryAlign.asString
  let secondaryFontSize ← k.secondaryFontSize.asNumber
  let secondaryColor ← k.secondaryColor.asString
  let secondaryPaddingTop ← k.secondaryPaddingTop.asNumber
  let paddingHorizontal ← k.paddingHorizontal.asNumber
  pure
    { showTranslation := k.showTranslation
      highlightWord := k.highlightWord
      backgroundColor := backgroundColor
      primaryAlign := primaryAlign
      primaryFontSize := primaryFontSize
      primaryColor := primaryColor
      highlightColor := highlightColor
      primaryPaddingTop := primaryPaddingTop
      secondaryAlign := secondaryAlign
      secondaryFontSize := secondaryFontSize
      secondaryColor := secondaryColor
      secondaryPaddingTop := secondaryPaddingTop
      paddingHorizontal := paddingHorizontal }

/-- The options that `updateLyricKey` hands over when the key data sets nothing. -/
def pluginDefaultOptions : RenderOptions :=
  { RenderOptions.default with primaryPaddingTop := 5, secondaryPaddingTop := 28 }

/-- The baseline of the primary line in dual-line mode. -/
def primaryBaseline (o : RenderOptions) : ℚ := o.primaryPaddingTop + o.primaryFontSize

/-- The baseline of the secondary line in dual-line mode. -/
def secondaryBaseline (o : RenderOptions) : ℚ := o.secondaryPaddingTop + o.secondaryFontSize

/-- A position whose line has a translation and no word index. -/
def dualPosition : LyricPosition :=
  { lineIndex := some 3, wordIndex := none,
    line := some { originalLyric := some (utf16 "hello"), translatedLyric := some (utf16 "hola") },
    nextLine := none }

/-! ## Samples for the calls that can fail -/

/-- A position on the first word of the sample line, with nothing to show under it. -/
def animatedPosition : LyricPosition :=
  { lineIndex := some 0, wordIndex := some 0, line := some sampleLine, nextLine := none }

/-- Key data that sets nothing but `primaryColor`, to the number 123. -/
def numericColourData : KeyData := { KeyData.empty with primaryColor := JSValue.number 123 }

/-- The options that `updateLyricKey` builds from `numericColourData`: its defaults,
with the number 123 as `primaryColor`. -/
def numericColourOptions : RawOptions :=
  { pluginDefaultOptions.raw with primaryColor := JSValue.number 123 }

/-- A canvas that accepts every pair of dimensions. -/
def anyCanvas : ℚ → ℚ → Bool := fun _ _ => true

/-- A canvas that records the empty text for a style that is not a string. -/
def noStyle : JSValue → Str := fun _ => []


/-! ## The highlight clock -/
theorem floor_div_interval (e : Int) : ⌊(e : ℚ) / (CHAR_INTERVAL_MS : ℚ)⌋ = e / 35 := by
  have := Rat.floor_intCast_div_natCast e 35
  simpa [CHAR_INTERVAL_MS] using this

theorem floor_div_35 (e : Int) : ⌊(e : ℚ) / 35⌋ = e / 35 := by
  have := Rat.floor_intCast_div_natCast e 35
  simpa using this

theorem updateGradientState_same (r : LyricRenderer) (now : Int) (wordLength : Nat) :
    updateGradientState r now r.lastLineIndex r.lastWordIndex wordLength
      = (r, min ((now - r.wordStartTime) / 35) (wordLength : Int)) := by
  simp only [updateGradientState, floor_div_interval]
  simp

/-- Claim C1 as stated fails: with the stored pair unchanged and a clock reading
before `wordStartTime`, `updateGradientState` returns a negative count, not the
clamped one. -/
theorem updateGradientState_same_pair_counterexample :
    ¬ (∀ (r : LyricRenderer) (now : Int) (wordLength : Nat),
        (updateGradientState r now r.lastLineIndex r.lastWordIndex wordLength).2
          = clamp ⌊((now - r.wordStartTime : Int) : ℚ) / 35⌋ 0 wordLength) := by
  intro h
  have h1 := h ⟨true, 1, 2, 1000, 5⟩ 930 5
  revert h1
  with_unfolding_all decide

/-- Claim C1, amended. Called with the stored pair at a clock reading `now` not
before `wordStartTime`, `updateGradientState` returns
`clamp(floor((now - wordStartTime) / 35), 0, wordLength)` and leaves the state
unchanged; after a transition at `t0` into line 2, word 1 of length 5, a query
at `t0 + 90` returns 2 and one at `t0 + 175` returns 5. -/
theorem updateGradientState_same_pair (r : LyricRenderer) (now : Int) (wordLength : Nat)
    (h : r.wordStartTime ≤ now) :
    updateGradientState r now r.lastLineIndex r.lastWordIndex wordLength
        = (r, clamp ⌊((now - r.wordStartTime : Int) : ℚ) / 35⌋ 0 wordLength)
      ∧ ∀ (r0 : LyricRenderer) (t0 : Int), (r0.lastLineIndex ≠ 2 ∨ r0.lastWordIndex ≠ 1) →
          (updateGradientState (updateGradientState r0 t0 2 1 5).1 (t0 + 90) 2 1 5).2 = 2
          ∧ (updateGradientState (updateGradientState r0 t0 2 1 5).1 (t0 + 175) 2 1 5).2 = 5 := by
  constructor
  · rw [updateGradientState_same]
    rw [floor_div_35]
    simp only [clamp]
    congr 1
    omega
  · intro r0 t0 h0
    have e : (updateGradientState r0 t0 2 1 5).1
        = { r0 with lastLineIndex := 2, lastWordIndex := 1, wordStartTime := t0, currentWordLength := 5 } := by
      simp only [updateGradientState]
      rcases h0 with h0 | h0
      · simp [Ne.symm h0]
      · simp [Ne.symm h0]
    rw [e]
    constructor
    · have := updateGradientState_same { r0 with lastLineIndex := 2, lastWordIndex := 1, wordStartTime := t0, currentWordLength := 5 } (t0 + 90) 5
      simp only at this
      rw [this]
      simp only
      omega
    · have := updateGradientState_same { r0 with lastLineIndex := 2, lastWordIndex := 1, wordStartTime := t0, currentWordLength := 5 } (t0 + 175) 5
      simp only at this
      rw [this]
      simp only
      omega

theorem updateGradientState_same_pair_witness :
    (1000 : Int) ≤ 1090 ∧
    updateGradientState ⟨true, 1, 2, 1000, 5⟩ 1090 2 1 7
        = (⟨true, 1, 2, 1000, 5⟩, clamp ⌊(((1090 : Int) - 1000 : Int) : ℚ) / 35⌋ 0 (7 : Nat)) :=
  ⟨by decide, (updateGradientState_same_pair ⟨true, 1, 2, 1000, 5⟩ 1090 7 (by decide)).1⟩

/-- Claim C2. Called with a pair that differs from the stored one in either
component, `updateGradientState` sets `wordStartTime` to the clock reading, stores
the incoming pair and word length, and returns 0. -/
theorem updateGradientState_new_pair (r : LyricRenderer) (now lineIndex wordIndex : Int)
    (wordLength : Nat) (h : lineIndex ≠ r.lastLineIndex ∨ wordIndex ≠ r.lastWordIndex) :
    updateGradientState r now lineIndex wordIndex wordLength
      = ({ r with lastLineIndex := lineIndex, lastWordIndex := wordIndex,
                  wordStartTime := now, currentWordLength := wordLength }, 0) := by
  simp only [updateGradientState, floor_div_interval]
  rw [if_pos h]
  simp

theorem updateGradientState_new_pair_witness :
    updateGradientState ⟨true, 1, 2, 1000, 5⟩ 5000 2 3 4 = (⟨true, 3, 2, 5000, 4⟩, 0) :=
  updateGradientState_new_pair ⟨true, 1, 2, 1000, 5⟩ 5000 2 3 4 (by decide)

/-! ## Segmentation -/

theorem encodeCodePoint_cases (c : Char) :
    (encodeCodePoint c = [c.toNat] ∧ ¬ (0xD800 ≤ c.toNat ∧ c.toNat ≤ 0xDFFF)) ∨
    (∃ hi lo, encodeCodePoint c = [hi, lo] ∧ (0xD800 ≤ hi ∧ hi ≤ 0xDBFF) ∧
      (0xDC00 ≤ lo ∧ lo ≤ 0xDFFF)) := by
  have hv := c.valid
  have hv2 : c.val.toNat < 0xD800 ∨ (0xDFFF < c.val.toNat ∧ c.val.toNat < 0x110000) := hv
  have e : c.toNat = c.val.toNat := rfl
  unfold encodeCodePoint
  by_cases h : c.toNat < 0x10000
  · left
    rw [if_pos h]
    refine ⟨rfl, ?_⟩
    omega
  · right
    rw [if_neg h]
    refine ⟨_, _, rfl, ?_, ?_⟩ <;> omega

theorem arrayFrom_encode (cs : List Char) :
    arrayFrom (encodeCodePoints cs) = cs.map encodeCodePoint := by
  induction cs with
  | nil => rfl
  | cons c cs ih =>
    have hcons : encodeCodePoints (c :: cs) = encodeCodePoint c ++ encodeCodePoints cs := by
      simp [encodeCodePoints]
    rw [hcons, List.map_cons, ← ih]
    rcases encodeCodePoint_cases c with ⟨e, hs⟩ | ⟨hi, lo, e, hhi, hlo⟩
    · rw [e]
      cases h : encodeCodePoints cs with
      | nil => simp [arrayFrom]
      | cons b rest =>
        simp only [List.singleton_append, arrayFrom]
        rw [if_neg]
        omega
    · rw [e]
      simp only [List.cons_append, List.nil_append, arrayFrom]
      rw [if_pos ⟨hhi, hlo⟩]
      rfl

theorem encodeCodePoint_ne_nil (c : Char) : encodeCodePoint c ≠ [] := by
  unfold encodeCodePoint
  split <;> simp

/-- Claim C3. For text containing at least one code point of the CJK ideograph,
hiragana, katakana or hangul ranges, `splitLyricToWords` returns one unit per
Unicode code point, in order, each unit being the UTF-16 form of its code point
(so a surrogate pair is one unit, and spaces and Latin letters are units too). -/
theorem splitLyricToWords_cjk (cs : List Char)
    (h : ∃ c ∈ cs, (0x4E00 ≤ c.toNat ∧ c.toNat ≤ 0x9FFF) ∨ (0x3040 ≤ c.toNat ∧ c.toNat ≤ 0x309F) ∨
      (0x30A0 ≤ c.toNat ∧ c.toNat ≤ 0x30FF) ∨ (0xAC00 ≤ c.toNat ∧ c.toNat ≤ 0xD7AF)) :
    splitLyricToWords (encodeCodePoints cs) = cs.map encodeCodePoint
      ∧ (splitLyricToWords (encodeCodePoints cs)).length = cs.length := by
  obtain ⟨c, hc, hr⟩ := h
  have hmem : c.toNat ∈ encodeCodePoints cs := by
    have e : encodeCodePoint c = [c.toNat] := by
      unfold encodeCodePoint
      rw [if_pos (by omega)]
    simp only [encodeCodePoints, List.mem_flatMap]
    exact ⟨c, hc, by simp [e]⟩
  have hne : encodeCodePoints cs ≠ [] := List.ne_nil_of_mem hmem
  have hcjk : hasCJK (encodeCodePoints cs) = true := by
    simp only [hasCJK, List.any_eq_true]
    refine ⟨c.toNat, hmem, ?_⟩
    simp only [isCJKUnit, Bool.or_eq_true, Bool.and_eq_true, decide_eq_true_eq]
    omega
  have key : splitLyricToWords (encodeCodePoints cs) = cs.map encodeCodePoint := by
    unfold splitLyricToWords
    rw [if_neg hne, if_pos hcjk, List.map_id', arrayFrom_encode]
  exact ⟨key, by rw [key, List.length_map]⟩

theorem splitLyricToWords_cjk_witness :
    splitLyricToWords (utf16 "你好") = [utf16 "你", utf16 "好"]
    ∧ (splitLyricToWords (utf16 "你好 world")).length = 8
    ∧ splitLyricToWords (utf16 "好😀 a") = [utf16 "好", utf16 "😀", utf16 " ", utf16 "a"] := by
  refine ⟨?_, ?_, ?_⟩
  · exact (splitLyricToWords_cjk "你好".toList ⟨'你', by decide, by decide⟩).1
  · exact (splitLyricToWords_cjk "你好 world".toList ⟨'你', by decide, by decide⟩).2
  · exact (splitLyricToWords_cjk "好😀 a".toList ⟨'好', by decide, by decide⟩).1

theorem filter_modifyHead_nil_append (l : List Str) :
    (l.modifyHead (fun u => [] ++ u)).filter (fun u => decide (u ≠ []))
      = l.filter (fun u => decide (u ≠ [])) := by
  cases l <;> simp

theorem splitWhitespace_filter (s : Str) :
    ∀ (inRun : Bool) (pending : Str), (inRun = true → pending = []) →
      (splitWhitespace inRun pending s).filter (fun w => decide (w.length > 0))
        = ((s.splitOnP isWhitespace).modifyHead (fun u => pending ++ u)).filter
            (fun u => decide (u ≠ [])) := by
  have hf : (fun w : Str => decide (w.length > 0)) = (fun u : Str => decide (u ≠ [])) := by
    funext w
    cases w <;> simp
  rw [hf]
  induction s with
  | nil =>
    intro inRun pending _
    simp [splitWhitespace, List.splitOnP_nil]
  | cons c cs ih =>
    intro inRun pending hp
    rw [List.splitOnP_cons]
    by_cases hc : isWhitespace c = true
    · simp only [splitWhitespace, hc, if_true, List.modifyHead_cons, List.append_nil]
      cases inRun with
      | true =>
        have hp0 : pending = [] := hp rfl
        subst hp0
        simp only [if_true]
        rw [ih true [] (fun _ => rfl), filter_modifyHead_nil_append]
        simp
      | false =>
        simp only [Bool.false_eq_true, if_false]
        rw [List.filter_cons, List.filter_cons, ih true [] (fun _ => rfl),
          filter_modifyHead_nil_append]
    · simp only [splitWhitespace, hc, if_false, Bool.false_eq_true]
      rw [ih false (pending ++ [c]) (by simp), List.modifyHead_modifyHead]
      congr 2
      funext u
      simp

theorem splitLyricToWords_eq_runs (text : Str) (h : hasCJK text = false) :
    splitLyricToWords text = nonWhitespaceRuns text := by
  unfold splitLyricToWords nonWhitespaceRuns
  by_cases ht : text = []
  · subst ht
    simp [List.splitOnP_nil]
  · rw [if_neg ht, h]
    simp only [Bool.false_eq_true, if_false]
    rw [splitWhitespace_filter text false [] (by simp), filter_modifyHead_nil_append]

theorem splitOnP_no_sep (p : Nat → Bool) (l : Str) :
    ∀ u ∈ l.splitOnP p, ∀ c ∈ u, p c = false := by
  induction l with
  | nil => simp [List.splitOnP_nil]
  | cons x xs ih =>
    rw [List.splitOnP_cons]
    by_cases hx : p x = true
    · simp only [hx, if_true]
      intro u hu
      rcases List.mem_cons.1 hu with e | e
      · subst e; simp
      · exact ih u e
    · simp only [hx, if_false, Bool.false_eq_true]
      cases hs : xs.splitOnP p with
      | nil => simp
      | cons a as =>
        rw [hs] at ih
        intro u hu
        simp only [List.modifyHead_cons, List.mem_cons] at hu
        rcases hu with e | e
        · subst e
          intro c hc
          rcases List.mem_cons.1 hc with e2 | e2
          · subst e2; simpa using hx
          · exact ih a (by simp) c e2
        · exact ih u (by simp [e])

theorem splitOnP_all_sep (p : Nat → Bool) (l : Str) (h : ∀ c ∈ l, p c = true) :
    ∀ u ∈ l.splitOnP p, u = [] := by
  induction l with
  | nil => simp [List.splitOnP_nil]
  | cons x xs ih =>
    rw [List.splitOnP_cons, if_pos (h x (by simp))]
    intro u hu
    rcases List.mem_cons.1 hu with e | e
    · exact e
    · exact ih (fun c hc => h c (by simp [hc])) u e

theorem hasCJK_false_of_ranges (text : Str)
    (h : ∀ c ∈ text, ¬ ((0x4E00 ≤ c ∧ c ≤ 0x9FFF) ∨ (0x3040 ≤ c ∧ c ≤ 0x309F) ∨
      (0x30A0 ≤ c ∧ c ≤ 0x30FF) ∨ (0xAC00 ≤ c ∧ c ≤ 0xD7AF))) :
    hasCJK text = false := by
  rw [Bool.eq_false_iff]
  intro hc
  simp only [hasCJK, List.any_eq_true] at hc
  obtain ⟨c, hm, hr⟩ := hc
  apply h c hm
  simp only [isCJKUnit, Bool.or_eq_true, Bool.and_eq_true, decide_eq_true_eq] at hr
  omega

/-- Claim C4. For text with no code unit in the CJK ideograph, hiragana, katakana
or hangul ranges, `splitLyricToWords` returns the maximal runs of characters that
are not white space, in order; no unit is empty, no unit contains white space, and
empty or all-white-space text gives the empty sequence. -/
theorem splitLyricToWords_latin (text : Str)
    (h : ∀ c ∈ text, ¬ ((0x4E00 ≤ c ∧ c ≤ 0x9FFF) ∨ (0x3040 ≤ c ∧ c ≤ 0x309F) ∨
      (0x30A0 ≤ c ∧ c ≤ 0x30FF) ∨ (0xAC00 ≤ c ∧ c ≤ 0xD7AF))) :
    splitLyricToWords text = nonWhitespaceRuns text
      ∧ (∀ u ∈ splitLyricToWords text, u ≠ [] ∧ ∀ c ∈ u, isWhitespace c = false)
      ∧ ((∀ c ∈ text, isWhitespace c = true) → splitLyricToWords text = []) := by
  have e := splitLyricToWords_eq_runs text (hasCJK_false_of_ranges text h)
  refine ⟨e, ?_, ?_⟩
  · intro u hu
    rw [e] at hu
    simp only [nonWhitespaceRuns, List.mem_filter, decide_eq_true_eq] at hu
    exact ⟨hu.2, splitOnP_no_sep isWhitespace text u hu.1⟩
  · intro hall
    rw [e]
    simp only [nonWhitespaceRuns, List.filter_eq_nil_iff, decide_eq_true_eq, not_not]
    exact splitOnP_all_sep isWhitespace text hall

theorem splitLyricToWords_latin_witness :
    splitLyricToWords (utf16 "hello world") = [utf16 "hello", utf16 "world"]
    ∧ splitLyricToWords (utf16 "  I  love   you ") = [utf16 "I", utf16 "love", utf16 "you"]
    ∧ splitLyricToWords (utf16 "   ") = [] := by
  refine ⟨?_, ?_, ?_⟩
  · rw [(splitLyricToWords_latin (utf16 "hello world") (by decide)).1]
    decide
  · rw [(splitLyricToWords_latin (utf16 "  I  love   you ") (by decide)).1]
    decide
  · exact (splitLyricToWords_latin (utf16 "   ") (by decide)).2.2 (by decide)

theorem arrayFrom_flatten (text : Str) : (arrayFrom text).flatten = text := by
  induction text using arrayFrom.induct with
  | case1 => rfl
  | case2 a => rfl
  | case3 a b rest h ih =>
    rw [arrayFrom, if_pos h, List.flatten_cons, ih]
    rfl
  | case4 a b rest h ih =>
    rw [arrayFrom, if_neg h, List.flatten_cons, ih]
    rfl

theorem rdropWhile_cons_all (p : Nat → Bool) (c : Nat) (cs : Str) (h : ∀ x ∈ c :: cs, p x = true) :
    (c :: cs).rdropWhile p = [] :=
  List.rdropWhile_eq_nil_iff.2 h

theorem rdropWhile_cons_not_all (p : Nat → Bool) (c : Nat) (cs : Str)
    (h : ¬ ∀ x ∈ c :: cs, p x = true) :
    (c :: cs).rdropWhile p = c :: cs.rdropWhile p := by
  induction cs using List.reverseRecOn with
  | nil =>
    have hc : ¬ p c = true := by
      intro hc
      exact h (by simpa using hc)
    simp [List.rdropWhile_singleton, hc]
  | append_singleton l x ih =>
    rw [← List.cons_append, List.rdropWhile_concat, List.rdropWhile_concat]
    by_cases hx : p x = true
    · rw [if_pos hx, if_pos hx]
      apply ih
      intro hall
      apply h
      intro y hy
      rcases List.mem_cons.1 hy with e | e
      · exact hall y (by simp [e])
      · rcases List.mem_append.1 e with e2 | e2
        · exact hall y (by simp [e2])
        · simp only [List.mem_singleton] at e2
          rw [e2]; exact hx
    · rw [if_neg hx, if_neg hx]
      rfl

theorem squeeze_cons_nonws (c : Nat) (t : Str) (hc : isWhitespace c = false) :
    squeezeWhitespace (c :: t) = c :: squeezeWhitespace t := by
  cases t with
  | nil => simp [squeezeWhitespace, hc]
  | cons d rest => simp [squeezeWhitespace, hc]

theorem squeezeTrail_nonws (c : Nat) (cs : Str) (hc : isWhitespace c = false) :
    squeezeWhitespace ((c :: cs).rdropWhile isWhitespace)
      = c :: squeezeWhitespace (cs.rdropWhile isWhitespace) := by
  rw [rdropWhile_cons_not_all, squeeze_cons_nonws c _ hc]
  intro hall
  have := hall c (by simp)
  rw [hc] at this
  exact Bool.noConfusion this

theorem collapse_cons_ws (c : Nat) (cs : Str) (hc : isWhitespace c = true) :
    collapseWhitespace (c :: cs) = collapseWhitespace cs := by
  simp [collapseWhitespace, trimWhitespace, List.dropWhile_cons, hc]

theorem collapse_cons_nonws (c : Nat) (cs : Str) (hc : isWhitespace c = false) :
    collapseWhitespace (c :: cs) = c :: squeezeWhitespace (cs.rdropWhile isWhitespace) := by
  simp only [collapseWhitespace, trimWhitespace, List.dropWhile_cons, hc]
  exact squeezeTrail_nonws c cs hc

theorem squeezeTrail_ws (c : Nat) (cs : Str) (hc : isWhitespace c = true) :
    squeezeWhitespace ((c :: cs).rdropWhile isWhitespace)
      = if collapseWhitespace cs = [] then [] else 32 :: collapseWhitespace cs := by
  induction cs generalizing c with
  | nil =>
    rw [rdropWhile_cons_all isWhitespace c [] (by simpa using hc)]
    simp [collapseWhitespace, trimWhitespace, squeezeWhitespace]
  | cons d ds ih =>
    by_cases hd : isWhitespace d = true
    · have step : squeezeWhitespace ((c :: d :: ds).rdropWhile isWhitespace)
          = squeezeWhitespace ((d :: ds).rdropWhile isWhitespace) := by
        by_cases hall : ∀ x ∈ d :: ds, isWhitespace x = true
        · rw [rdropWhile_cons_all isWhitespace d ds hall,
            rdropWhile_cons_all isWhitespace c (d :: ds)]
          intro x hx
          rcases List.mem_cons.1 hx with e | e
          · rw [e]; exact hc
          · exact hall x e
        · rw [rdropWhile_cons_not_all isWhitespace c (d :: ds),
            rdropWhile_cons_not_all isWhitespace d ds hall]
          · simp [squeezeWhitespace, hc, hd]
          · intro hall2
            exact hall (fun x hx => hall2 x (by simp [hx]))
      rw [step, ih d hd, collapse_cons_ws d ds hd]
    · have hd2 : isWhitespace d = false := by simpa using hd
      have hnot : ¬ ∀ x ∈ d :: ds, isWhitespace x = true := by
        intro hall
        exact hd (hall d (by simp))
      rw [rdropWhile_cons_not_all isWhitespace c (d :: ds), collapse_cons_nonws d ds hd2,
        rdropWhile_cons_not_all isWhitespace d ds hnot]
      · simp [squeezeWhitespace, hc, hd2, squeeze_cons_nonws d _ hd2]
      · intro hall2
        exact hnot (fun x hx => hall2 x (by simp [hx]))

theorem intercalate_cons_nonempty (sep a : Str) (l : List Str) :
    sep.intercalate (a :: l) = if l = [] then a else a ++ sep ++ sep.intercalate l := by
  cases l with
  | nil => simp [List.intercalate]
  | cons b l => simp [List.intercalate]

theorem intercalate_eq_nil_iff (sep : Str) (l : List Str) (h : ∀ u ∈ l, u ≠ []) :
    sep.intercalate l = [] ↔ l = [] := by
  cases l with
  | nil => simp [List.intercalate]
  | cons a l =>
    rw [intercalate_cons_nonempty]
    have ha : a ≠ [] := h a (by simp)
    split <;> simp [ha]

theorem splitWhitespace_intercalate (s : Str) :
    ∀ (inRun : Bool) (pending : Str), (inRun = true → pending = []) →
      SPACE.intercalate ((splitWhitespace inRun pending s).filter (fun u => decide (u ≠ [])))
        = pending ++ (if pending = [] then collapseWhitespace s
                      else squeezeWhitespace (s.rdropWhile isWhitespace)) := by
  induction s with
  | nil =>
    intro inRun pending _
    by_cases hp : pending = []
    · subst hp
      simp [splitWhitespace, List.intercalate, collapseWhitespace, trimWhitespace,
        squeezeWhitespace]
    · simp [splitWhitespace, hp, List.intercalate, squeezeWhitespace]
  | cons c cs ih =>
    intro inRun pending hp
    by_cases hc : isWhitespace c = true
    · have hW := ih true [] (fun _ => rfl)
      simp only [if_true, List.nil_append] at hW
      by_cases hp0 : pending = []
      · subst hp0
        have e : (splitWhitespace inRun [] (c :: cs)).filter (fun u => decide (u ≠ []))
            = (splitWhitespace true [] cs).filter (fun u => decide (u ≠ [])) := by
          cases inRun <;> simp [splitWhitespace, hc]
        rw [e, hW]
        simp [collapse_cons_ws c cs hc]
      · have hin : inRun = false := by
          cases inRun with
          | false => rfl
          | true => exact absurd (hp rfl) hp0
        subst hin
        have e : (splitWhitespace false pending (c :: cs)).filter (fun u => decide (u ≠ []))
            = pending :: (splitWhitespace true [] cs).filter (fun u => decide (u ≠ [])) := by
          simp [splitWhitespace, hc, hp0]
        rw [e, intercalate_cons_nonempty, if_neg hp0, squeezeTrail_ws c cs hc, ← hW]
        have hiff := intercalate_eq_nil_iff SPACE
          ((splitWhitespace true [] cs).filter (fun u => decide (u ≠ [])))
          (by intro u hu; simpa using (List.mem_filter.1 hu).2)
        by_cases hnil : (splitWhitespace true [] cs).filter (fun u => decide (u ≠ [])) = []
        · rw [if_pos hnil, if_pos (hiff.2 hnil)]
          simp
        · rw [if_neg hnil, if_neg (fun h => hnil (hiff.1 h))]
          simp [SPACE]
    · have hc2 : isWhitespace c = false := by simpa using hc
      have e : splitWhitespace inRun pending (c :: cs) = splitWhitespace false (pending ++ [c]) cs := by
        simp [splitWhitespace, hc2]
      rw [e, ih false (pending ++ [c]) (by simp)]
      have hne : pending ++ [c] ≠ [] := by simp
      rw [if_neg hne]
      by_cases hp0 : pending = []
      · subst hp0
        simp [collapse_cons_nonws c cs hc2]
      · rw [if_neg hp0, squeezeTrail_nonws c cs hc2]
        simp

/-- Claim C5. The units of `splitLyricToWords` reconstruct the text modulo
white-space collapsing: for text with a CJK code unit their concatenation is the
text; for any other text the units joined by single spaces are the text with
leading and trailing white space removed and every white-space run replaced by
one space. -/
theorem splitLyricToWords_reconstruct (text : Str) :
    if hasCJK text = true then (splitLyricToWords text).flatten = text
    else SPACE.intercalate (splitLyricToWords text) = collapseWhitespace text := by
  by_cases h : hasCJK text = true
  · rw [if_pos h]
    have hne : text ≠ [] := by
      intro e
      subst e
      simp [hasCJK] at h
    unfold splitLyricToWords
    rw [if_neg hne, if_pos h, List.map_id', arrayFrom_flatten]
  · rw [if_neg h]
    unfold splitLyricToWords
    by_cases hne : text = []
    · subst hne
      simp [List.intercalate, collapseWhitespace, trimWhitespace, squeezeWhitespace]
    · rw [if_neg hne, if_neg h]
      have hf : (fun w : Str => decide (w.length > 0)) = (fun u : Str => decide (u ≠ [])) := by
        funext w
        cases w <;> simp
      rw [hf, splitWhitespace_intercalate text false [] (by simp)]
      simp

/-! ## The animated path -/

theorem lineLoop_painted (measure : Str → ℚ) (r : LyricRenderer) (nowPaint : Int) (ctx : Ctx)
    (isCJK : Bool) (n : Nat) (wordIndex highlightedChars : Int) (limit lineY : ℚ)
    (primaryColor highlightColor : Str) (rest : List Str) :
    ∀ (i : Nat) (currentX : ℚ), ∃ (painted : List PaintedUnit) (tail : List DrawOp),
      lineLoop measure r nowPaint ctx isCJK n wordIndex highlightedChars limit lineY
          primaryColor highlightColor i rest currentX
        = paintedByRule (fun w x => renderWordWithGradient measure r nowPaint ctx w x lineY
            highlightedChars primaryColor highlightColor) ctx wordIndex primaryColor
            highlightColor lineY i painted tail
      ∧ painted.map (fun u => u.word) <+: rest
      ∧ (∀ u ∈ painted, isSpaceOps lineY u.spaceOps)
      ∧ (tail = [] ∨ ∃ x, tail = [DrawOp.fillText { ctx with fillStyle := primaryColor }
            ELLIPSIS x lineY]) := by
  induction rest with
  | nil =>
    intro i currentX
    exact ⟨[], [], by simp [lineLoop, paintedByRule], by simp, by simp, Or.inl rfl⟩
  | cons word rest ih =>
    intro i currentX
    by_cases hov : currentX + measure word > limit
    · refine ⟨[], _, ?_, by simp, by simp, Or.inr ⟨currentX, rfl⟩⟩
      simp [lineLoop, hov, paintedByRule]
    · by_cases hsp : (!isCJK) = true ∧ (i : Int) < (n : Int) - 1
      · obtain ⟨painted, tail, he, hpre, hspace, htail⟩ :=
          ih (i + 1) (currentX + measure word + measure SPACE)
        refine ⟨⟨word, currentX, [DrawOp.fillText
            { ctx with fillStyle := if (i : Int) < wordIndex then highlightColor else primaryColor }
            SPACE (currentX + measure word) lineY]⟩ :: painted, tail, ?_, ?_, ?_, htail⟩
        · simp only [lineLoop, hov, if_false, hsp, and_self, if_true]
          rw [he]
          simp [paintedByRule, unitColourRule, List.enumFrom_cons]
        · simpa using hpre
        · intro u hu
          rcases List.mem_cons.1 hu with e | e
          · subst e
            exact Or.inr ⟨_, _, rfl⟩
          · exact hspace u e
      · obtain ⟨painted, tail, he, hpre, hspace, htail⟩ := ih (i + 1) (currentX + measure word)
        refine ⟨⟨word, currentX, []⟩ :: painted, tail, ?_, ?_, ?_, htail⟩
        · simp only [lineLoop, hov, if_false, hsp]
          rw [he]
          simp [paintedByRule, unitColourRule, List.enumFrom_cons]
        · simpa using hpre
        · intro u hu
          rcases List.mem_cons.1 hu with e | e
          · subst e
            exact Or.inl rfl
          · exact hspace u e

theorem centeredLoop_painted (measure : Str → ℚ) (r : LyricRenderer) (nowPaint : Int) (ctx : Ctx)
    (isCJK : Bool) (n : Nat) (wordIndex highlightedChars : Int) (limit centerY : ℚ)
    (primaryColor highlightColor : Str) (rest : List Str) :
    ∀ (i : Nat) (currentX : ℚ), ∃ (painted : List PaintedUnit),
      centeredLoop measure r nowPaint ctx isCJK n wordIndex highlightedChars limit centerY
          primaryColor highlightColor i rest currentX
        = paintedByRule (fun w x => renderWordWithGradientCentered measure r nowPaint ctx w x
            centerY highlightedChars primaryColor highlightColor) ctx wordIndex primaryColor
            highlightColor centerY i painted []
      ∧ painted.map (fun u => u.word) <+: rest
      ∧ (∀ u ∈ painted, isSpaceOps centerY u.spaceOps) := by
  induction rest with
  | nil =>
    intro i currentX
    exact ⟨[], by simp [centeredLoop, paintedByRule], by simp, by simp⟩
  | cons word rest ih =>
    intro i currentX
    by_cases hov : currentX + measure word > limit
    · refine ⟨[], ?_, by simp, by simp⟩
      simp [centeredLoop, hov, paintedByRule]
    · by_cases hsp : (!isCJK) = true ∧ (i : Int) < (n : Int) - 1
      · obtain ⟨painted, he, hpre, hspace⟩ :=
          ih (i + 1) (currentX + measure word + measure SPACE)
        refine ⟨⟨word, currentX, [DrawOp.fillText
            { ctx with fillStyle := if (i : Int) < wordIndex then highlightColor else primaryColor }
            SPACE (currentX + measure word) centerY]⟩ :: painted, ?_, ?_, ?_⟩
        · simp only [centeredLoop, hov, if_false, hsp, and_self, if_true]
          rw [he]
          simp [paintedByRule, unitColourRule, List.enumFrom_cons]
        · simpa using hpre
        · intro u hu
          rcases List.mem_cons.1 hu with e | e
          · subst e
            exact Or.inr ⟨_, _, rfl⟩
          · exact hspace u e
      · obtain ⟨painted, he, hpre, hspace⟩ := ih (i + 1) (currentX + measure word)
        refine ⟨⟨word, currentX, []⟩ :: painted, ?_, ?_, ?_⟩
        · simp only [centeredLoop, hov, if_false, hsp]
          rw [he]
          simp [paintedByRule, unitColourRule, List.enumFrom_cons]
        · simpa using hpre
        · intro u hu
          rcases List.mem_cons.1 hu with e | e
          · subst e
            exact Or.inl rfl
          · exact hspace u e

/-- Claim C6. On the animated path of `renderCurrentLine` and of
`renderCurrentLineCentered` the frame is made of the painted units, a prefix of
the units of the line, numbered from 0: a unit of index below `wordIndex` is one
`fillText` in `highlightColor`, the unit of index `wordIndex` is painted by the
gradient routine, a unit of higher index is one `fillText` in `primaryColor`; each
is followed by at most one space, and the whole by at most an ellipsis. -/
theorem animated_units_colour_rule (measure : Font → Str → ℚ) (r : LyricRenderer)
    (now nowPaint : Int) (line : LyricLine) (lineIndex wi : Int) (config : LineConfig)
    (cconfig : CenteredConfig)
    (htext : truthy line.originalLyric = true) (hwi : 0 ≤ wi)
    (hwords : (splitLyricToWords (orEmpty line.originalLyric)).length > 0) :
    paintsUnitsByRule
        (fun w x => renderWordWithGradient (measure ⟨true, config.fontSize⟩)
          (animatedUpdate r now lineIndex wi (orEmpty line.originalLyric)).1 nowPaint
          (lineCtx config) w x (config.y + config.fontSize)
          (animatedUpdate r now lineIndex wi (orEmpty line.originalLyric)).2
          config.primaryColor config.highlightColor)
        (lineCtx config) wi config.primaryColor config.highlightColor
        (config.y + config.fontSize) (splitLyricToWords (orEmpty line.originalLyric)) true
        (renderCurrentLine measure r now nowPaint (some line) lineIndex (some wi) true config).1
    ∧ paintsUnitsByRule
        (fun w x => renderWordWithGradientCentered (measure ⟨true, cconfig.fontSize⟩)
          (animatedUpdate r now lineIndex wi (orEmpty line.originalLyric)).1 nowPaint
          (centeredCtx cconfig) w x cconfig.centerY
          (animatedUpdate r now lineIndex wi (orEmpty line.originalLyric)).2
          cconfig.primaryColor cconfig.highlightColor)
        (centeredCtx cconfig) wi cconfig.primaryColor cconfig.highlightColor
        cconfig.centerY (splitLyricToWords (orEmpty line.originalLyric)) false
        (renderCurrentLineCentered measure r now nowPaint (some line) lineIndex (some wi) true
          cconfig).1 := by
  have hv : validWordIndex true (some wi) = some wi := by
    simp [validWordIndex, hwi]
  constructor
  · obtain ⟨painted, tail, he, hpre, hspace, htail⟩ :=
      lineLoop_painted (measure ⟨true, config.fontSize⟩)
        (animatedUpdate r now lineIndex wi (orEmpty line.originalLyric)).1
        nowPaint (lineCtx config) (hasCJK (orEmpty line.originalLyric))
        (splitLyricToWords (orEmpty line.originalLyric)).length wi
        (animatedUpdate r now lineIndex wi (orEmpty line.originalLyric)).2
        (config.x + config.maxWidth) (config.y + config.fontSize) config.primaryColor
        config.highlightColor (splitLyricToWords (orEmpty line.originalLyric)) 0
        (getAlignedX config.align config.x config.maxWidth
          (min (totalWidthLoop (measure ⟨true, config.fontSize⟩)
            (hasCJK (orEmpty line.originalLyric))
            (splitLyricToWords (orEmpty line.originalLyric)).length 0
            (splitLyricToWords (orEmpty line.originalLyric)) 0) config.maxWidth))
    refine ⟨painted, tail, ?_, hpre, hspace, ?_⟩
    · rw [← he]
      simp only [renderCurrentLine, htext, hv, hwords, Bool.not_true, Bool.false_eq_true,
        if_false, if_true, animatedUpdate, lineCtx]
    · rcases htail with h | ⟨x, h⟩
      · exact Or.inl h
      · exact Or.inr ⟨rfl, x, h⟩
  · obtain ⟨painted, he, hpre, hspace⟩ :=
      centeredLoop_painted (measure ⟨true, cconfig.fontSize⟩)
        (animatedUpdate r now lineIndex wi (orEmpty line.originalLyric)).1
        nowPaint (centeredCtx cconfig) (hasCJK (orEmpty line.originalLyric))
        (splitLyricToWords (orEmpty line.originalLyric)).length wi
        (animatedUpdate r now lineIndex wi (orEmpty line.originalLyric)).2
        (cconfig.padding + cconfig.maxWidth) cconfig.centerY cconfig.primaryColor
        cconfig.highlightColor (splitLyricToWords (orEmpty line.originalLyric)) 0
        (getAlignedX cconfig.align cconfig.padding cconfig.maxWidth
          (min (totalWidthLoop (measure ⟨true, cconfig.fontSize⟩)
            (hasCJK (orEmpty line.originalLyric))
            (splitLyricToWords (orEmpty line.originalLyric)).length 0
            (splitLyricToWords (orEmpty line.originalLyric)) 0) cconfig.maxWidth))
    refine ⟨painted, [], ?_, hpre, hspace, Or.inl rfl⟩
    rw [← he]
    simp only [renderCurrentLineCentered, htext, hv, hwords, Bool.not_true, Bool.false_eq_true,
      if_false, if_true, animatedUpdate, centeredCtx]


theorem animated_units_colour_rule_witness :
    paintsUnitsByRule
        (fun w x => renderWordWithGradient (sampleMeasure ⟨true, sampleLineConfig.fontSize⟩)
          (animatedUpdate LyricRenderer.new 1000 0 2 (orEmpty sampleLine.originalLyric)).1 1040
          (lineCtx sampleLineConfig) w x (sampleLineConfig.y + sampleLineConfig.fontSize)
          (animatedUpdate LyricRenderer.new 1000 0 2 (orEmpty sampleLine.originalLyric)).2
          sampleLineConfig.primaryColor sampleLineConfig.highlightColor)
        (lineCtx sampleLineConfig) 2 sampleLineConfig.primaryColor
        sampleLineConfig.highlightColor
        (sampleLineConfig.y + sampleLineConfig.fontSize)
        (splitLyricToWords (orEmpty sampleLine.originalLyric)) true
        (renderCurrentLine sampleMeasure LyricRenderer.new 1000 1040 (some sampleLine) 0 (some 2)
          true sampleLineConfig).1
    ∧ (renderCurrentLine sampleMeasure LyricRenderer.new 1000 1040 (some sampleLine) 0 (some 2)
          true sampleLineConfig).1
      = [DrawOp.fillText (lineCtx sampleLineConfig) (utf16 "I") 10 26,
         DrawOp.fillText (lineCtx sampleLineConfig) SPACE 20 26,
         DrawOp.fillText (lineCtx sampleLineConfig) (utf16 "love") 30 26,
         DrawOp.fillText (lineCtx sampleLineConfig) SPACE 70 26,
         DrawOp.fillText { lineCtx sampleLineConfig with fillStyle := utf16 "rgb(251, 219, 224)" }
           (utf16 "y") 80 26,
         DrawOp.fillText { lineCtx sampleLineConfig with fillStyle := DEFAULT_PRIMARY }
           (utf16 "o") 90 26,
         DrawOp.fillText { lineCtx sampleLineConfig with fillStyle := DEFAULT_PRIMARY }
           (utf16 "u") 100 26] :=
  ⟨(animated_units_colour_rule sampleMeasure LyricRenderer.new 1000 1040 sampleLine 0 2
    sampleLineConfig sampleCenteredConfig (by decide) (by decide) (by decide)).1,
   by with_unfolding_all decide⟩

/-! ## Animation eligibility -/

/-- Claim C7 as stated fails: for the line "I love you" with `highlightWord` on and
`wordIndex` 5, which is not the index of an existing unit, the line is still
painted word by word (five calls), not as one truncated text. -/
theorem highlight_gate_counterexample :
    ¬ (∀ (measure : Font → Str → ℚ) (r : LyricRenderer) (now nowPaint : Int) (line : LyricLine)
        (lineIndex : Int) (wordIndex : Option Int) (highlightWord : Bool) (config : LineConfig),
        truthy line.originalLyric = true →
        ¬ (highlightWord = true ∧
            (∃ wi, wordIndex = some wi ∧ 0 ≤ wi ∧
              wi < (splitLyricToWords (orEmpty line.originalLyric)).length) ∧
            (splitLyricToWords (orEmpty line.originalLyric)).length > 0) →
        ∃ (c : Ctx) (x y : ℚ), c.fillStyle = config.highlightColor ∧
          (renderCurrentLine measure r now nowPaint (some line) lineIndex wordIndex highlightWord
              config).1
            = [DrawOp.fillText c
                (truncateText (measure ⟨true, config.fontSize⟩) (orEmpty line.originalLyric)
                  config.maxWidth) x y]) := by
  intro h
  obtain ⟨c, x, y, _, hops⟩ := h sampleMeasure LyricRenderer.new 1000 1040 sampleLine 0 (some 5)
    true sampleLineConfig (by decide) (by
      rintro ⟨_, ⟨wi, hwi, _, hlt⟩, _⟩
      have e : wi = 5 := by
        injection hwi with e
        exact e.symm
      subst e
      revert hlt
      decide)
  have hlen := congrArg List.length hops
  rw [List.length_singleton] at hlen
  revert hlen
  with_unfolding_all decide

/-- Claim C7, amended. For a line with original text, `renderCurrentLine` and
`renderCurrentLineCentered` paint word by word exactly when `highlightWord` is on,
`wordIndex` is defined and not negative, and segmentation yields at least one
unit; in every other case the whole line is painted as one truncated text in
`highlightColor` and the highlight state is left as it was. -/
theorem highlight_gate (measure : Font → Str → ℚ) (r : LyricRenderer) (now nowPaint : Int)
    (line : LyricLine) (lineIndex : Int) (wordIndex : Option Int) (highlightWord : Bool)
    (config : LineConfig) (cconfig : CenteredConfig)
    (htext : truthy line.originalLyric = true) :
    (¬ (highlightWord = true ∧ (∃ wi, wordIndex = some wi ∧ 0 ≤ wi) ∧
          (splitLyricToWords (orEmpty line.originalLyric)).length > 0) →
      (∃ (c : Ctx) (x : ℚ), c.fillStyle = config.highlightColor ∧
        renderCurrentLine measure r now nowPaint (some line) lineIndex wordIndex highlightWord
            config
          = ([DrawOp.fillText c
              (truncateText (measure ⟨true, config.fontSize⟩) (orEmpty line.originalLyric)
                config.maxWidth) x (config.y + config.fontSize)], r))
      ∧ (∃ (c : Ctx) (x : ℚ), c.fillStyle = cconfig.highlightColor ∧
        renderCurrentLineCentered measure r now nowPaint (some line) lineIndex wordIndex
            highlightWord cconfig
          = ([DrawOp.fillText c
              (truncateText (measure ⟨true, cconfig.fontSize⟩) (orEmpty line.originalLyric)
                cconfig.maxWidth) x cconfig.centerY], r)))
    ∧ (∀ wi, highlightWord = true → wordIndex = some wi → 0 ≤ wi →
        (splitLyricToWords (orEmpty line.originalLyric)).length > 0 →
        renderCurrentLine measure r now nowPaint (some line) lineIndex wordIndex highlightWord
            config
          = (lineLoop (measure ⟨true, config.fontSize⟩)
              (animatedUpdate r now lineIndex wi (orEmpty line.originalLyric)).1 nowPaint
              (lineCtx config) (hasCJK (orEmpty line.originalLyric))
              (splitLyricToWords (orEmpty line.originalLyric)).length wi
              (animatedUpdate r now lineIndex wi (orEmpty line.originalLyric)).2
              (config.x + config.maxWidth) (config.y + config.fontSize) config.primaryColor
              config.highlightColor 0 (splitLyricToWords (orEmpty line.originalLyric))
              (getAlignedX config.align config.x config.maxWidth
                (min (totalWidthLoop (measure ⟨true, config.fontSize⟩)
                  (hasCJK (orEmpty line.originalLyric))
                  (splitLyricToWords (orEmpty line.originalLyric)).length 0
                  (splitLyricToWords (orEmpty line.originalLyric)) 0) config.maxWidth)),
             (animatedUpdate r now lineIndex wi (orEmpty line.originalLyric)).1)
        ∧ renderCurrentLineCentered measure r now nowPaint (some line) lineIndex wordIndex
            highlightWord cconfig
          = (centeredLoop (measure ⟨true, cconfig.fontSize⟩)
              (animatedUpdate r now lineIndex wi (orEmpty line.originalLyric)).1 nowPaint
              (centeredCtx cconfig) (hasCJK (orEmpty line.originalLyric))
              (splitLyricToWords (orEmpty line.originalLyric)).length wi
              (animatedUpdate r now lineIndex wi (orEmpty line.originalLyric)).2
              (cconfig.padding + cconfig.maxWidth) cconfig.centerY cconfig.primaryColor
              cconfig.highlightColor 0 (splitLyricToWords (orEmpty line.originalLyric))
              (getAlignedX cconfig.align cconfig.padding cconfig.maxWidth
                (min (totalWidthLoop (measure ⟨true, cconfig.fontSize⟩)
                  (hasCJK (orEmpty line.originalLyric))
                  (splitLyricToWords (orEmpty line.originalLyric)).length 0
                  (splitLyricToWords (orEmpty line.originalLyric)) 0) cconfig.maxWidth)),
             (animatedUpdate r now lineIndex wi (orEmpty line.originalLyric)).1)) := by
  constructor
  · intro hno
    have hcases : validWordIndex highlightWord wordIndex = none ∨
        ¬ (splitLyricToWords (orEmpty line.originalLyric)).length > 0 := by
      by_cases hw : (splitLyricToWords (orEmpty line.originalLyric)).length > 0
      · left
        cases wordIndex with
        | none => rfl
        | some wi =>
          simp only [validWordIndex]
          rw [if_neg]
          rintro ⟨h1, h2⟩
          exact hno ⟨h1, ⟨wi, rfl, h2⟩, hw⟩
      · exact Or.inr hw
    constructor
    · refine ⟨lineCtx config,
        getAlignedX config.align config.x config.maxWidth
          (measure ⟨true, config.fontSize⟩
            (truncateText (measure ⟨true, config.fontSize⟩) (orEmpty line.originalLyric)
              config.maxWidth)), rfl, ?_⟩
      rcases hcases with hv | hw
      · simp only [renderCurrentLine, htext, hv, Bool.not_true, Bool.false_eq_true, if_false,
          lineCtx]
      · cases hv : validWordIndex highlightWord wordIndex with
        | none =>
          simp only [renderCurrentLine, htext, hv, Bool.not_true, Bool.false_eq_true, if_false,
            lineCtx]
        | some wi =>
          simp only [renderCurrentLine, htext, hv, hw, Bool.not_true, Bool.false_eq_true,
            if_false, lineCtx]
    · refine ⟨{ centeredCtx cconfig with
          fillStyle := cconfig.highlightColor,
          textAlign := setTextAlign (centeredCtx cconfig).textAlign cconfig.align },
        (if cconfig.align = utf16 "center" then cconfig.padding + cconfig.maxWidth / 2
         else if cconfig.align = utf16 "right" then cconfig.padding + cconfig.maxWidth
         else cconfig.padding), rfl, ?_⟩
      rcases hcases with hv | hw
      · simp only [renderCurrentLineCentered, htext, hv, Bool.not_true, Bool.false_eq_true,
          if_false, centeredCtx, centeredStatic]
      · cases hv : validWordIndex highlightWord wordIndex with
        | none =>
          simp only [renderCurrentLineCentered, htext, hv, Bool.not_true, Bool.false_eq_true,
            if_false, centeredCtx, centeredStatic]
        | some wi =>
          simp only [renderCurrentLineCentered, htext, hv, hw, Bool.not_true,
            Bool.false_eq_true, if_false, centeredCtx, centeredStatic]
  · intro wi hh hwi h0 hw
    have hv : validWordIndex highlightWord wordIndex = some wi := by
      subst hwi
      simp [validWordIndex, hh, h0]
    constructor
    · simp only [renderCurrentLine, htext, hv, hw, Bool.not_true, Bool.false_eq_true, if_false,
        if_true, animatedUpdate, lineCtx]
    · simp only [renderCurrentLineCentered, htext, hv, hw, Bool.not_true, Bool.false_eq_true,
        if_false, if_true, animatedUpdate, centeredCtx]

theorem highlight_gate_witness :
    ∃ (c : Ctx) (x : ℚ), c.fillStyle = sampleLineConfig.highlightColor ∧
      renderCurrentLine sampleMeasure LyricRenderer.new 1000 1040 (some sampleLine) 0 (some 2)
          false sampleLineConfig
        = ([DrawOp.fillText c
            (truncateText (sampleMeasure ⟨true, sampleLineConfig.fontSize⟩)
              (orEmpty sampleLine.originalLyric) sampleLineConfig.maxWidth) x
            (sampleLineConfig.y + sampleLineConfig.fontSize)], LyricRenderer.new) :=
  ((highlight_gate sampleMeasure LyricRenderer.new 1000 1040 sampleLine 0 (some 2) false
    sampleLineConfig sampleCenteredConfig (by decide)).1 (by decide)).1

/-! ## Render states -/

theorem render_branch_eq (measure : Font → Str → ℚ) (r : LyricRenderer) (now nowPaint : Int)
    (currentLyric : Option LyricPosition) (song : Option Song) (o : RenderOptions)
    (width height : ℚ) :
    (render measure r now nowPaint currentLyric song o width height).branch
      = if positionMissing currentLyric = true then RenderBranch.songInfo
        else if secondaryAvailable o currentLyric = true then RenderBranch.dualLine
        else RenderBranch.singleLine := by
  cases currentLyric with
  | none => simp [render, positionMissing]
  | some cl =>
    obtain ⟨lineIndex, wordIndex, line, nextLine⟩ := cl
    cases lineIndex with
    | none => simp [render, positionMissing]
    | some li =>
      by_cases hli : li < 0
      · simp [render, positionMissing, hli]
      · cases line with
        | none => simp [render, positionMissing, hli]
        | some line =>
          by_cases ht : truthy line.originalLyric = true
          · by_cases hd : hasTranslation o line = true ∨ hasNextLine nextLine = true
            · have hs : secondaryAvailable o (some ⟨some li, wordIndex, some line, nextLine⟩)
                  = true := by
                simp only [secondaryAvailable, Bool.or_eq_true, Bool.and_eq_true]
                rcases hd with h | h
                · left
                  simpa [hasTranslation] using h
                · right
                  cases nextLine with
                  | none => simp [hasNextLine] at h
                  | some nl => simpa [hasNextLine] using h
              simp only [render, positionMissing, hli, ht, hd, hs, Bool.not_true,
                Bool.false_eq_true, if_false, if_true, decide_False, Bool.or_self]
            · have hs : secondaryAvailable o (some ⟨some li, wordIndex, some line, nextLine⟩)
                  = false := by
                rw [Bool.eq_false_iff]
                intro hs
                apply hd
                simp only [secondaryAvailable, Bool.or_eq_true, Bool.and_eq_true] at hs
                rcases hs with h | h
                · left
                  simpa [hasTranslation] using h
                · right
                  cases nextLine with
                  | none => simp at h
                  | some nl => simpa [hasNextLine] using h
              simp only [render, positionMissing, hli, ht, hd, hs, Bool.not_true,
                Bool.false_eq_true, if_false, decide_False, Bool.or_self]
          · simp [render, positionMissing, hli, ht]

theorem render_of_missing (measure : Font → Str → ℚ) (r : LyricRenderer) (now nowPaint : Int)
    (currentLyric : Option LyricPosition) (song : Option Song) (o : RenderOptions)
    (width height : ℚ) (h : positionMissing currentLyric = true) :
    render measure r now nowPaint currentLyric song o width height
      = { branch := RenderBranch.songInfo
          ops := DrawOp.fillRect o.backgroundColor 0 0 width height ::
            renderSongInfo measure width height song o
          state := ensureFonts r } := by
  cases currentLyric with
  | none => simp [render]
  | some cl =>
    obtain ⟨lineIndex, wordIndex, line, nextLine⟩ := cl
    cases lineIndex with
    | none => simp [render]
    | some li =>
      by_cases hli : li < 0
      · simp [render, hli]
      · cases line with
        | none => simp [render, hli]
        | some line =>
          by_cases ht : truthy line.originalLyric = true
          · simp [positionMissing, hli, ht] at h
          · simp [render, hli, ht]

theorem position_present (currentLyric : Option LyricPosition)
    (h : positionMissing currentLyric = false) :
    ∃ (cl : LyricPosition) (line : LyricLine) (li : Int), currentLyric = some cl ∧
      cl.line = some line ∧ cl.lineIndex = some li ∧ 0 ≤ li ∧
      truthy line.originalLyric = true := by
  cases currentLyric with
  | none => simp [positionMissing] at h
  | some cl =>
    obtain ⟨lineIndex, wordIndex, line, nextLine⟩ := cl
    cases lineIndex with
    | none => simp [positionMissing] at h
    | some li =>
      cases line with
      | none => simp [positionMissing] at h
      | some line =>
        simp only [positionMissing, Bool.or_eq_false_iff, decide_eq_false_iff_not, not_lt,
          Bool.not_eq_false'] at h
        exact ⟨_, line, li, rfl, rfl, rfl, h.1, h.2⟩

theorem render_of_present (measure : Font → Str → ℚ) (r : LyricRenderer) (now nowPaint : Int)
    (cl : LyricPosition) (line : LyricLine) (li : Int) (song : Option Song) (o : RenderOptions)
    (width height : ℚ) (h2 : cl.line = some line) (h3 : cl.lineIndex = some li) (h4 : 0 ≤ li)
    (h5 : truthy line.originalLyric = true) :
    render measure r now nowPaint (some cl) song o width height
      = if secondaryAvailable o (some cl) = true then
          { branch := RenderBranch.dualLine
            ops := DrawOp.fillRect o.backgroundColor 0 0 width height ::
              ((renderCurrentLine measure (ensureFonts r) now nowPaint (some line) li cl.wordIndex
                  o.highlightWord (primaryConfig o width)).1 ++
                [secondaryOp measure o width (secondaryTextOf o cl line)])
            state := (renderCurrentLine measure (ensureFonts r) now nowPaint (some line) li
              cl.wordIndex o.highlightWord (primaryConfig o width)).2 }
        else
          { branch := RenderBranch.singleLine
            ops := DrawOp.fillRect o.backgroundColor 0 0 width height ::
              (renderCurrentLineCentered measure (ensureFonts r) now nowPaint (some line) li
                cl.wordIndex o.highlightWord (singleConfig o width height)).1
            state := (renderCurrentLineCentered measure (ensureFonts r) now nowPaint (some line)
              li cl.wordIndex o.highlightWord (singleConfig o width height)).2 } := by
  obtain ⟨lineIndex, wordIndex, line0, nextLine⟩ := cl
  simp only at h2 h3
  subst h2 h3
  have hli : ¬ li < 0 := not_lt.2 h4
  by_cases hd : hasTranslation o line = true ∨ hasNextLine nextLine = true
  · have hs : secondaryAvailable o (some ⟨some li, wordIndex, some line, nextLine⟩) = true := by
      simp only [secondaryAvailable, Bool.or_eq_true, Bool.and_eq_true]
      rcases hd with h | h
      · left
        simpa [hasTranslation] using h
      · right
        cases nextLine with
        | none => simp [hasNextLine] at h
        | some nl => simpa [hasNextLine] using h
    rw [if_pos hs]
    simp only [render, hli, h5, hd, Bool.not_true, Bool.false_eq_true, if_false, if_true,
      primaryConfig, secondaryOp, secondaryTextOf]
    by_cases hT : hasTranslation o line = true
    · have hT2 : o.showTranslation = true ∧ truthy line.translatedLyric = true := by
        simpa [hasTranslation] using hT
      simp [hT, hT2]
    · have hT2 : ¬ (o.showTranslation = true ∧ truthy line.translatedLyric = true) := by
        simpa [hasTranslation] using hT
      simp only [hT, hT2, Bool.false_eq_true, if_false]
      cases nextLine <;> simp [orEmpty]
  · have hs : secondaryAvailable o (some ⟨some li, wordIndex, some line, nextLine⟩) = false := by
      rw [Bool.eq_false_iff]
      intro hs
      apply hd
      simp only [secondaryAvailable, Bool.or_eq_true, Bool.and_eq_true] at hs
      rcases hs with h | h
      · left
        simpa [hasTranslation] using h
      · right
        cases nextLine with
        | none => simp at h
        | some nl => simpa [hasNextLine] using h
    rw [hs]
    simp only [render, hli, h5, hd, Bool.not_true, Bool.false_eq_true, if_false, singleConfig]

theorem renderSongInfo_placeholder (measure : Font → Str → ℚ) (width height : ℚ)
    (song : Option Song) (o : RenderOptions) :
    renderSongInfo measure width height song o = [idlePlaceholder o width height]
      ↔ songMissing song = true := by
  have hb : BASELINE_ALPHABETIC ≠ BASELINE_MIDDLE := by decide
  cases song with
  | none => simp [renderSongInfo, songMissing, idlePlaceholder]
  | some s =>
    by_cases hn : truthy s.songName = true
    · simp only [songMissing, hn, Bool.not_true, Bool.false_eq_true, iff_false]
      intro h
      simp only [renderSongInfo, hn, Bool.not_true, Bool.false_eq_true, if_false,
        idlePlaceholder] at h
      have h1 := (List.cons.inj h).1
      injection h1 with hc
      injection hc with _ _ _ hbase
      exact hb hbase
    · simp [renderSongInfo, songMissing, hn, idlePlaceholder]

/-- Claim C8. `render` takes exactly one of three paths: the song panel iff the
position is absent, its `lineIndex` is undefined or negative, or the line or its
original text is missing; otherwise dual-line iff `showTranslation` is on and the
line has a translation, or the next line has original text; otherwise single-line
centred. On the song-panel path the frame is the background and the song panel,
and it is the idle placeholder iff the song or its name is missing; on the other
two paths the frame is the background and the output of the respective line
painter (followed, in dual-line mode, by the secondary line). -/
theorem render_state_selection (measure : Font → Str → ℚ) (r : LyricRenderer)
    (now nowPaint : Int) (currentLyric : Option LyricPosition) (song : Option Song)
    (o : RenderOptions) (width height : ℚ) :
    ((render measure r now nowPaint currentLyric song o width height).branch
        = RenderBranch.songInfo ↔ positionMissing currentLyric = true)
    ∧ ((render measure r now nowPaint currentLyric song o width height).branch
        = RenderBranch.dualLine ↔
          positionMissing currentLyric = false ∧ secondaryAvailable o currentLyric = true)
    ∧ ((render measure r now nowPaint currentLyric song o width height).branch
        = RenderBranch.singleLine ↔
          positionMissing currentLyric = false ∧ secondaryAvailable o currentLyric = false)
    ∧ (positionMissing currentLyric = true →
        (render measure r now nowPaint currentLyric song o width height).ops
          = DrawOp.fillRect o.backgroundColor 0 0 width height ::
              renderSongInfo measure width height song o
        ∧ ((render measure r now nowPaint currentLyric song o width height).ops
            = [DrawOp.fillRect o.backgroundColor 0 0 width height,
                idlePlaceholder o width height]
          ↔ songMissing song = true))
    ∧ (positionMissing currentLyric = false →
        ∃ (cl : LyricPosition) (line : LyricLine) (li : Int), currentLyric = some cl ∧
          cl.line = some line ∧ cl.lineIndex = some li ∧
          (secondaryAvailable o currentLyric = true →
            (render measure r now nowPaint currentLyric song o width height).ops
              = DrawOp.fillRect o.backgroundColor 0 0 width height ::
                ((renderCurrentLine measure (ensureFonts r) now nowPaint (some line) li
                    cl.wordIndex o.highlightWord (primaryConfig o width)).1 ++
                  [secondaryOp measure o width (secondaryTextOf o cl line)]))
          ∧ (secondaryAvailable o currentLyric = false →
            (render measure r now nowPaint currentLyric song o width height).ops
              = DrawOp.fillRect o.backgroundColor 0 0 width height ::
                (renderCurrentLineCentered measure (ensureFonts r) now nowPaint (some line) li
                  cl.wordIndex o.highlightWord (singleConfig o width height)).1)) := by
  have hb := render_branch_eq measure r now nowPaint currentLyric song o width height
  refine ⟨?_, ?_, ?_, ?_, ?_⟩
  · rw [hb]
    cases positionMissing currentLyric <;> cases secondaryAvailable o currentLyric <;> simp
  · rw [hb]
    cases positionMissing currentLyric <;> cases secondaryAvailable o currentLyric <;> simp
  · rw [hb]
    cases positionMissing currentLyric <;> cases secondaryAvailable o currentLyric <;> simp
  · intro hm
    rw [render_of_missing measure r now nowPaint currentLyric song o width height hm]
    refine ⟨rfl, ?_⟩
    rw [← renderSongInfo_placeholder measure width height song o]
    constructor
    · intro h
      exact (List.cons.inj h).2
    · intro h
      simp only [h]
  · intro hp
    obtain ⟨cl, line, li, h1, h2, h3, h4, h5⟩ := position_present currentLyric hp
    subst h1
    refine ⟨cl, line, li, rfl, h2, h3, ?_, ?_⟩
    · intro hs
      rw [render_of_present measure r now nowPaint cl line li song o width height h2 h3 h4 h5,
        if_pos hs]
    · intro hs
      rw [render_of_present measure r now nowPaint cl line li song o width height h2 h3 h4 h5,
        hs]
      simp

theorem renderCurrentLine_translation (measure : Font → Str → ℚ) (r : LyricRenderer)
    (now nowPaint : Int) (line : LyricLine) (li : Int) (wordIndex : Option Int)
    (highlightWord : Bool) (config : LineConfig) :
    renderCurrentLine measure r now nowPaint (some { line with translatedLyric := none }) li
        wordIndex highlightWord config
      = renderCurrentLine measure r now nowPaint (some line) li wordIndex highlightWord config := by
  simp only [renderCurrentLine]

theorem renderCurrentLineCentered_translation (measure : Font → Str → ℚ) (r : LyricRenderer)
    (now nowPaint : Int) (line : LyricLine) (li : Int) (wordIndex : Option Int)
    (highlightWord : Bool) (config : CenteredConfig) :
    renderCurrentLineCentered measure r now nowPaint (some { line with translatedLyric := none })
        li wordIndex highlightWord config
      = renderCurrentLineCentered measure r now nowPaint (some line) li wordIndex highlightWord
          config := by
  simp only [renderCurrentLineCentered]

/-- Claim C9. In dual-line mode the secondary line, the last call of the frame,
paints the truncated translation when a translation exists and `showTranslation`
is on (whether or not a next line exists), and the truncated original text of the
next line otherwise; with `showTranslation` off the translation has no effect on
what `render` produces. -/
theorem dual_line_secondary_text (measure : Font → Str → ℚ) (r : LyricRenderer)
    (now nowPaint : Int) (cl : LyricPosition) (song : Option Song) (o : RenderOptions)
    (width height : ℚ) :
    ((render measure r now nowPaint (some cl) song o width height).branch
        = RenderBranch.dualLine →
      ∃ line, cl.line = some line ∧
        (render measure r now nowPaint (some cl) song o width height).ops.getLast?
          = some (secondaryOp measure o width
              (if o.showTranslation = true ∧ truthy line.translatedLyric = true then
                orEmpty line.translatedLyric
               else orEmpty (cl.nextLine.bind (fun nextLine => nextLine.originalLyric)))))
    ∧ (o.showTranslation = false →
        render measure r now nowPaint (some cl) song o width height
          = render measure r now nowPaint (some (withoutTranslation cl)) song o width height) := by
  constructor
  · intro hb
    have hsel := render_branch_eq measure r now nowPaint (some cl) song o width height
    rw [hb] at hsel
    have hp : positionMissing (some cl) = false := by
      cases h : positionMissing (some cl) with
      | false => rfl
      | true => simp [h] at hsel
    have hs : secondaryAvailable o (some cl) = true := by
      cases h : secondaryAvailable o (some cl) with
      | true => rfl
      | false => simp [hp, h] at hsel
    obtain ⟨cl0, line, li, h1, h2, h3, h4, h5⟩ := position_present (some cl) hp
    injection h1 with h1
    subst h1
    refine ⟨line, h2, ?_⟩
    rw [render_of_present measure r now nowPaint cl line li song o width height h2 h3 h4 h5,
      if_pos hs]
    have e : secondaryTextOf o cl line
        = (if o.showTranslation = true ∧ truthy line.translatedLyric = true then
            orEmpty line.translatedLyric
           else orEmpty (cl.nextLine.bind (fun nextLine => nextLine.originalLyric))) := by
      unfold secondaryTextOf
      split
      · rfl
      · cases cl.nextLine <;> simp [orEmpty]
    rw [← e]
    simp only
    rw [← List.cons_append, List.getLast?_concat]
  · intro hoff
    obtain ⟨lineIndex, wordIndex, line, nextLine⟩ := cl
    cases line with
    | none => rfl
    | some line =>
      cases lineIndex with
      | none => simp [render, withoutTranslation]
      | some li =>
        have hT1 : hasTranslation o line = false := by simp [hasTranslation, hoff]
        have hT2 : hasTranslation o { line with translatedLyric := none } = false := by
          simp [hasTranslation, hoff]
        simp only [render, withoutTranslation, Option.map_some', hT1, hT2,
          renderCurrentLine_translation, renderCurrentLineCentered_translation,
          Bool.false_eq_true, if_false]

theorem dual_line_secondary_text_witness :
    (render sampleMeasure LyricRenderer.new 1000 1040 (some translatedPosition) none
        RenderOptions.default 480 60).ops.getLast?
      = some (secondaryOp sampleMeasure RenderOptions.default 480 (utf16 "你好"))
    ∧ (render sampleMeasure LyricRenderer.new 1000 1040 (some translatedPosition) none
        { RenderOptions.default with showTranslation := false } 480 60).ops.getLast?
      = some (secondaryOp sampleMeasure { RenderOptions.default with showTranslation := false }
          480 (utf16 "next")) := by
  constructor
  · obtain ⟨line, hl, h⟩ := (dual_line_secondary_text sampleMeasure LyricRenderer.new 1000 1040
      translatedPosition none RenderOptions.default 480 60).1 (by with_unfolding_all decide)
    have e : line = ⟨some (utf16 "hello"), some (utf16 "你好")⟩ := by
      have : translatedPosition.line = some ⟨some (utf16 "hello"), some (utf16 "你好")⟩ := rfl
      rw [this] at hl
      injection hl with hl
      exact hl.symm
    subst e
    rw [h]
    rfl
  · obtain ⟨line, hl, h⟩ := (dual_line_secondary_text sampleMeasure LyricRenderer.new 1000 1040
      translatedPosition none { RenderOptions.default with showTranslation := false }
      480 60).1 (by with_unfolding_all decide)
    have e : line = ⟨some (utf16 "hello"), some (utf16 "你好")⟩ := by
      have : translatedPosition.line = some ⟨some (utf16 "hello"), some (utf16 "你好")⟩ := rfl
      rw [this] at hl
      injection hl with hl
      exact hl.symm
    subst e
    rw [h]
    rfl

/-! ## Truncation -/

theorem prefix_dropLast_of_ne (p t : Str) (h : p <+: t) (hne : p ≠ t) : p <+: t.dropLast := by
  obtain ⟨s, rfl⟩ := h
  have hs : s ≠ [] := by
    intro e
    apply hne
    simp [e]
  rw [List.dropLast_append_of_ne_nil _ hs]
  exact List.prefix_append _ _

theorem truncateLoop_spec (measure : Str → ℚ) (maxWidth : ℚ) :
    ∀ (fuel : Nat) (t : Str), t.length ≤ fuel →
      truncateLoop measure maxWidth fuel t (measure (t ++ ELLIPSIS)) <+: t
      ∧ (measure (truncateLoop measure maxWidth fuel t (measure (t ++ ELLIPSIS)) ++ ELLIPSIS)
            ≤ maxWidth
          ∨ truncateLoop measure maxWidth fuel t (measure (t ++ ELLIPSIS)) = [])
      ∧ ∀ p, p <+: t →
          (truncateLoop measure maxWidth fuel t (measure (t ++ ELLIPSIS))).length < p.length →
          maxWidth < measure (p ++ ELLIPSIS) := by
  intro fuel
  induction fuel with
  | zero =>
    intro t ht
    have e : t = [] := List.length_eq_zero.1 (Nat.le_zero.1 ht)
    subst e
    refine ⟨by simp [truncateLoop], Or.inr (by simp [truncateLoop]), ?_⟩
    intro p hp hlt
    have hle : p.length ≤ 0 := hp.length_le
    have hpos : 0 < p.length := lt_of_le_of_lt (Nat.zero_le _) hlt
    omega
  | succ fuel ih =>
    intro t ht
    by_cases hc : measure (t ++ ELLIPSIS) > maxWidth ∧ t.length > 0
    · have e : truncateLoop measure maxWidth (fuel + 1) t (measure (t ++ ELLIPSIS))
          = truncateLoop measure maxWidth fuel t.dropLast (measure (t.dropLast ++ ELLIPSIS)) := by
        rw [truncateLoop, if_pos hc]
      rw [e]
      have hlen : t.dropLast.length ≤ fuel := by
        rw [List.length_dropLast]
        omega
      obtain ⟨h1, h2, h3⟩ := ih t.dropLast hlen
      refine ⟨h1.trans (List.dropLast_prefix t), h2, ?_⟩
      intro p hp hlt
      by_cases hpt : p = t
      · rw [hpt]
        exact hc.1
      · exact h3 p (prefix_dropLast_of_ne p t hp hpt) hlt
    · have e : truncateLoop measure maxWidth (fuel + 1) t (measure (t ++ ELLIPSIS)) = t := by
        rw [truncateLoop, if_neg hc]
      rw [e]
      refine ⟨List.prefix_refl t, ?_, ?_⟩
      · by_cases hw : measure (t ++ ELLIPSIS) > maxWidth
        · right
          have : ¬ t.length > 0 := fun h => hc ⟨hw, h⟩
          exact List.length_eq_zero.1 (by omega)
        · left
          exact not_lt.1 hw
      · intro p hp hlt
        have := hp.length_le
        omega

/-- Claim C10 as stated fails, on its own example: with a measure that gives every
code unit 10 pixels and `maxWidth = measure("AB")`, truncating "ABCDEF" returns
"..." alone, which is wider than `maxWidth`. -/
theorem truncateText_overflow_counterexample :
    ¬ (∀ (measure : Str → ℚ) (text : Str) (maxWidth : ℚ), measure text > maxWidth →
        ∃ t, truncateText measure text maxWidth = t ++ ELLIPSIS ∧ t <+: text ∧ t ≠ text ∧
          measure (t ++ ELLIPSIS) ≤ maxWidth) := by
  intro h
  obtain ⟨t, ht, _, _, hfit⟩ := h (sampleMeasure ⟨false, 13⟩) (utf16 "ABCDEF")
    (sampleMeasure ⟨false, 13⟩ (utf16 "AB")) (by with_unfolding_all decide)
  have hv : truncateText (sampleMeasure ⟨false, 13⟩) (utf16 "ABCDEF")
      (sampleMeasure ⟨false, 13⟩ (utf16 "AB")) = [] ++ ELLIPSIS := by
    with_unfolding_all decide
  rw [hv] at ht
  have ht0 : t = [] := (List.append_cancel_right ht).symm
  subst ht0
  revert hfit
  with_unfolding_all decide

/-- Claim C10, amended. For non-empty text with `measure(text) > maxWidth`,
`truncateText` returns a strict prefix of the text followed by "..." (three full
stops); that result is no wider than `maxWidth`, unless the prefix is empty and no
strict prefix followed by "..." fits; in particular it fits whenever "..." alone
fits. -/
theorem truncateText_overflow (measure : Str → ℚ) (text : Str) (maxWidth : ℚ)
    (hne : text ≠ []) (hw : measure text > maxWidth) :
    ∃ t, truncateText measure text maxWidth = t ++ ELLIPSIS ∧ t <+: text ∧ t ≠ text ∧
      (measure (t ++ ELLIPSIS) ≤ maxWidth ∨
        (t = [] ∧ ∀ p, p <+: text → p ≠ text → measure (p ++ ELLIPSIS) > maxWidth)) ∧
      (measure ELLIPSIS ≤ maxWidth → measure (t ++ ELLIPSIS) ≤ maxWidth) := by
  obtain ⟨n, hn⟩ : ∃ n, text.length = n + 1 := by
    cases text with
    | nil => exact absurd rfl hne
    | cons a l => exact ⟨l.length, rfl⟩
  have hlen : text.dropLast.length ≤ n := by
    rw [List.length_dropLast]
    omega
  obtain ⟨h1, h2, h3⟩ := truncateLoop_spec measure maxWidth n text.dropLast hlen
  have hval : truncateText measure text maxWidth
      = truncateLoop measure maxWidth n text.dropLast (measure (text.dropLast ++ ELLIPSIS))
          ++ ELLIPSIS := by
    unfold truncateText
    rw [if_neg hne]
    simp only
    rw [if_neg (not_le.2 hw), hn, truncateLoop, if_pos ⟨hw, by omega⟩]
  have hstrict : ∀ p, p <+: text.dropLast → p ≠ text := by
    intro p hp e
    have := hp.length_le
    rw [List.length_dropLast, e] at this
    omega
  have hor : measure (truncateLoop measure maxWidth n text.dropLast
        (measure (text.dropLast ++ ELLIPSIS)) ++ ELLIPSIS) ≤ maxWidth ∨
      (truncateLoop measure maxWidth n text.dropLast (measure (text.dropLast ++ ELLIPSIS)) = [] ∧
        ∀ p, p <+: text → p ≠ text → measure (p ++ ELLIPSIS) > maxWidth) := by
    by_cases hfit : measure (truncateLoop measure maxWidth n text.dropLast
        (measure (text.dropLast ++ ELLIPSIS)) ++ ELLIPSIS) ≤ maxWidth
    · exact Or.inl hfit
    · right
      have hnil : truncateLoop measure maxWidth n text.dropLast
          (measure (text.dropLast ++ ELLIPSIS)) = [] := by
        rcases h2 with h | h
        · exact absurd h hfit
        · exact h
      refine ⟨hnil, ?_⟩
      intro p hp hpt
      by_cases hp0 : p = []
      · rw [hp0]
        rw [hnil] at hfit
        exact not_le.1 hfit
      · apply h3 p (prefix_dropLast_of_ne p text hp hpt)
        rw [hnil]
        exact List.length_pos.2 hp0
  refine ⟨_, hval, h1.trans (List.dropLast_prefix text), hstrict _ h1, hor, ?_⟩
  intro hE
  rcases hor with h | ⟨_, h⟩
  · exact h
  · have := h [] List.nil_prefix (fun e => hne e.symm)
    simp only [List.nil_append] at this
    exact absurd hE (not_le.2 this)

theorem truncateText_overflow_witness :
    (∃ t, truncateText dotMeasure (utf16 "ABCDEF") (dotMeasure (utf16 "AB")) = t ++ ELLIPSIS ∧
      t <+: utf16 "ABCDEF" ∧ t ≠ utf16 "ABCDEF" ∧
      (dotMeasure (t ++ ELLIPSIS) ≤ dotMeasure (utf16 "AB") ∨
        (t = [] ∧ ∀ p, p <+: utf16 "ABCDEF" → p ≠ utf16 "ABCDEF" →
          dotMeasure (p ++ ELLIPSIS) > dotMeasure (utf16 "AB"))) ∧
      (dotMeasure ELLIPSIS ≤ dotMeasure (utf16 "AB") →
        dotMeasure (t ++ ELLIPSIS) ≤ dotMeasure (utf16 "AB")))
    ∧ truncateText dotMeasure (utf16 "ABCDEF") (dotMeasure (utf16 "AB")) = utf16 "A..." :=
  ⟨truncateText_overflow dotMeasure (utf16 "ABCDEF") (dotMeasure (utf16 "AB"))
    (by decide) (by with_unfolding_all decide), by with_unfolding_all decide⟩

/-! ## Truncation against its reference definition -/

theorem truncateLoop_fuel_stable (measure : Str → ℚ) (maxWidth : ℚ) :
    ∀ (fuel : Nat) (t : Str) (w : ℚ), t.length ≤ fuel →
      truncateLoop measure maxWidth fuel t w = truncateLoop measure maxWidth t.length t w := by
  intro fuel
  induction fuel with
  | zero =>
    intro t w ht
    have e : t = [] := List.length_eq_zero.1 (Nat.le_zero.1 ht)
    subst e
    rfl
  | succ fuel ih =>
    intro t w ht
    cases hn : t.length with
    | zero =>
      have e : t = [] := List.length_eq_zero.1 hn
      subst e
      simp [truncateLoop]
    | succ n =>
      have hd : t.dropLast.length = n := by
        rw [List.length_dropLast, hn]
        rfl
      rw [truncateLoop, truncateLoop]
      by_cases hc : w > maxWidth ∧ t.length > 0
      · rw [if_pos hc, if_pos hc, ih t.dropLast _ (by omega), hd]
      · rw [if_neg hc, if_neg hc]

theorem prefix_of_length_le (p t text : Str) (hp : p <+: text) (ht : t <+: text)
    (h : p.length ≤ t.length) : p <+: t :=
  List.prefix_of_prefix_length_le hp ht h

/-- Claim C11 as stated fails: the longest fitting prefix need not be the widest.
With `ligatureMeasure` and `maxWidth = 5` the text `ABC` (30 wide) is truncated to
`AB...`, which is 3 wide, although the strict prefix `A` gives `A...`, which fits
and is 5 wide. -/
theorem truncateText_widest_counterexample :
    (5 : ℚ) < ligatureMeasure (utf16 "ABC")
    ∧ truncateText ligatureMeasure (utf16 "ABC") 5 = utf16 "AB" ++ ELLIPSIS
    ∧ ligatureMeasure (utf16 "AB" ++ ELLIPSIS) = 3
    ∧ utf16 "A" <+: utf16 "ABC" ∧ utf16 "A" ≠ utf16 "ABC"
    ∧ ligatureMeasure (utf16 "A" ++ ELLIPSIS) ≤ 5
    ∧ ligatureMeasure (utf16 "AB" ++ ELLIPSIS) < ligatureMeasure (utf16 "A" ++ ELLIPSIS) := by
  refine ⟨?_, ?_, ?_, ?_, ?_, ?_, ?_⟩
  · with_unfolding_all decide
  · with_unfolding_all decide
  · with_unfolding_all decide
  · exact ⟨utf16 "BC", by decide⟩
  · decide
  · with_unfolding_all decide
  · with_unfolding_all decide

/-- Claim C11, amended. `truncateText` (in both renderers) returns `''` for empty
text and the text unchanged when it fits; otherwise, whenever some strict prefix
followed by the ellipsis fits, it returns the longest such prefix followed by the
ellipsis, which is also the widest one when widths grow with the prefix; and the
loop ends within as many iterations as the text has code units. -/
theorem truncateText_reference (measure : Str → ℚ) (text : Str) (maxWidth : ℚ) :
    (text = [] → truncateText measure text maxWidth = [])
    ∧ (measure text ≤ maxWidth → truncateText measure text maxWidth = text)
    ∧ (maxWidth < measure text →
        (∃ p, p <+: text ∧ p ≠ text ∧ measure (p ++ ELLIPSIS) ≤ maxWidth) →
        ∃ t, IsLongestFittingPrefix measure maxWidth text t
          ∧ truncateText measure text maxWidth = t ++ ELLIPSIS
          ∧ ((∀ p q, p <+: q → q <+: text →
                measure (p ++ ELLIPSIS) ≤ measure (q ++ ELLIPSIS)) →
              ∀ p, p <+: text → p ≠ text → measure (p ++ ELLIPSIS) ≤ maxWidth →
                measure (p ++ ELLIPSIS) ≤ measure (t ++ ELLIPSIS)))
    ∧ (∀ (fuel : Nat) (w : ℚ), text.length ≤ fuel →
        truncateLoop measure maxWidth fuel text w
          = truncateLoop measure maxWidth text.length text w)
    ∧ CanvasRenderer.truncateText measure text maxWidth = truncateText measure text maxWidth := by
  refine ⟨?_, ?_, ?_, ?_, rfl⟩
  · intro h
    simp [truncateText, h]
  · intro h
    unfold truncateText
    by_cases hne : text = []
    · simp [hne]
    · rw [if_neg hne]
      simp only
      rw [if_pos h]
  · intro hw ⟨p0, hp0, hp0ne, hp0fit⟩
    have hne : text ≠ [] := by
      intro e
      subst e
      exact hp0ne (List.prefix_nil.1 hp0)
    obtain ⟨n, hn⟩ : ∃ n, text.length = n + 1 := by
      cases text with
      | nil => exact absurd rfl hne
      | cons a l => exact ⟨l.length, rfl⟩
    have hlen : text.dropLast.length ≤ n := by
      rw [List.length_dropLast]
      omega
    obtain ⟨h1, h2, h3⟩ := truncateLoop_spec measure maxWidth n text.dropLast hlen
    have hval : truncateText measure text maxWidth
        = truncateLoop measure maxWidth n text.dropLast (measure (text.dropLast ++ ELLIPSIS))
            ++ ELLIPSIS := by
      unfold truncateText
      rw [if_neg hne]
      simp only
      rw [if_neg (not_le.2 hw), hn, truncateLoop, if_pos ⟨hw, by omega⟩]
    have hstrict : truncateLoop measure maxWidth n text.dropLast
        (measure (text.dropLast ++ ELLIPSIS)) ≠ text := by
      intro e
      have := h1.length_le
      rw [List.length_dropLast, e] at this
      omega
    have hlongest : ∀ p, p <+: text → p ≠ text → measure (p ++ ELLIPSIS) ≤ maxWidth →
        p.length ≤ (truncateLoop measure maxWidth n text.dropLast
          (measure (text.dropLast ++ ELLIPSIS))).length := by
      intro p hp hpne hfit
      by_contra hlt
      exact absurd hfit (not_le.2 (h3 p (prefix_dropLast_of_ne p text hp hpne) (not_le.1 hlt)))
    have hfit : measure (truncateLoop measure maxWidth n text.dropLast
        (measure (text.dropLast ++ ELLIPSIS)) ++ ELLIPSIS) ≤ maxWidth := by
      rcases h2 with h | h
      · exact h
      · have hl := hlongest p0 hp0 hp0ne hp0fit
        rw [h] at hl
        have e : p0 = [] := List.length_eq_zero.1 (Nat.le_zero.1 hl)
        rw [h, ← e]
        exact hp0fit
    have hpre := h1.trans (List.dropLast_prefix text)
    refine ⟨_, ⟨hpre, hstrict, hfit, hlongest⟩, hval, ?_⟩
    intro hmono p hp hpne hpfit
    exact hmono p _ (prefix_of_length_le p _ text hp hpre (hlongest p hp hpne hpfit)) hpre
  · intro fuel w hf
    exact truncateLoop_fuel_stable measure maxWidth fuel text w hf

/-- Claim C12. `getAlignedX` returns the origin for `left`, the origin plus half the
free width for `center`, the origin plus the free width for `right`, and the
origin for any other value of `align`. -/
theorem getAlignedX_cases (originX boxWidth contentWidth : ℚ) :
    getAlignedX (utf16 "left") originX boxWidth contentWidth = originX
    ∧ getAlignedX (utf16 "center") originX boxWidth contentWidth
        = originX + (boxWidth - contentWidth) / 2
    ∧ getAlignedX (utf16 "right") originX boxWidth contentWidth
        = originX + boxWidth - contentWidth
    ∧ ∀ align : Str, align ≠ utf16 "center" → align ≠ utf16 "right" →
        getAlignedX align originX boxWidth contentWidth
          = getAlignedX (utf16 "left") originX boxWidth contentWidth := by
  have h1 : utf16 "left" ≠ utf16 "center" := by decide
  have h2 : utf16 "left" ≠ utf16 "right" := by decide
  have h3 : utf16 "right" ≠ utf16 "center" := by decide
  refine ⟨?_, ?_, ?_, ?_⟩
  · simp [getAlignedX, h1, h2]
  · simp [getAlignedX]
  · simp [getAlignedX, h3]
  · intro align hc hr
    simp [getAlignedX, h1, h2, hc, hr]

/-! ## Colour interpolation -/

theorem hexDigit_of_isHexDigitOf (c v : Nat) (h : isHexDigitOf c v = true) :
    hexDigit c = some v ∧ v < 16 ∧ 48 ≤ c ∧ c ≤ 102 ∧ c ≠ 88 := by
  simp only [isHexDigitOf, Bool.or_eq_true, Bool.and_eq_true, decide_eq_true_eq,
    beq_iff_eq] at h
  unfold hexDigit
  rcases h with ⟨h1, h2⟩ | ⟨⟨h1, h2⟩, h3 | h3⟩
  · subst h2
    rw [if_pos (by omega)]
    refine ⟨by congr 1; omega, by omega, by omega, by omega, by omega⟩
  · subst h3
    rw [if_neg (by omega), if_pos (by omega)]
    refine ⟨by congr 1; omega, by omega, by omega, by omega, by omega⟩
  · subst h3
    rw [if_neg (by omega), if_neg (by omega), if_pos (by omega)]
    refine ⟨by congr 1; omega, by omega, by omega, by omega, by omega⟩

theorem isWhitespace_false_of_range (c : Nat) (h1 : 48 ≤ c) (h2 : c ≤ 102) :
    isWhitespace c = false := by
  interval_cases c <;> rfl

theorem parseInt16_hexPair (p : Str) (v : Nat) (h : IsHexPair p v) :
    parseInt16 p = some (v : Int) ∧ v ≤ 255 := by
  obtain ⟨c1, c2, v1, v2, rfl, h1, h2, rfl⟩ := h
  obtain ⟨d1, b1, l1, u1, _⟩ := hexDigit_of_isHexDigitOf c1 v1 h1
  obtain ⟨d2, b2, l2, u2, x2⟩ := hexDigit_of_isHexDigitOf c2 v2 h2
  refine ⟨?_, by omega⟩
  have w1 := isWhitespace_false_of_range c1 l1 u1
  have hdrop : List.dropWhile isWhitespace [c1, c2] = [c1, c2] := by
    simp [List.dropWhile, w1]
  have hlead : leadingHexDigits [c1, c2] = [v1, v2] := by
    simp [leadingHexDigits, d1, d2]
  have hx : c2 ≠ 120 := by
    intro e
    subst e
    simp [hexDigit] at d2
  unfold parseInt16
  simp only [hdrop]
  have e2 : (match [c1, c2] with
      | 45 :: t => t
      | 43 :: t => t
      | _ => [c1, c2]) = [c1, c2] := by
    split
    · rename_i t heq
      injection heq with ha _
      omega
    · rename_i t heq
      injection heq with ha _
      omega
    · rfl
  rw [e2]
  have e3 : (match [c1, c2] with
      | 48 :: 120 :: t => t
      | 48 :: 88 :: t => t
      | _ => [c1, c2]) = [c1, c2] := by
    split
    · rename_i t heq
      injection heq with _ hb
      injection hb with hb _
      exact absurd hb hx
    · rename_i t heq
      injection heq with _ hb
      injection hb with hb _
      exact absurd hb x2
    · rfl
  rw [e3, hlead]
  have hc45 : c1 ≠ 45 := by omega
  simp [hc45]

theorem parseColor_hex (s : Str) (r g b : Nat) (h : IsHexColour s r g b) :
    parseColor s = { r := some (r : Int), g := some (g : Int), b := some (b : Int) }
      ∧ r ≤ 255 ∧ g ≤ 255 ∧ b ≤ 255 := by
  obtain ⟨pr, pg, pb, rfl, hr, hg, hb⟩ := h
  obtain ⟨er, br⟩ := parseInt16_hexPair pr r hr
  obtain ⟨eg, bg⟩ := parseInt16_hexPair pg g hg
  obtain ⟨eb, bb⟩ := parseInt16_hexPair pb b hb
  refine ⟨?_, br, bg, bb⟩
  obtain ⟨a1, a2, _, _, rfl, _⟩ := hr
  obtain ⟨a3, a4, _, _, rfl, _⟩ := hg
  obtain ⟨a5, a6, _, _, rfl, _⟩ := hb
  simp only [parseColor, List.cons_append, List.nil_append, List.take, List.drop] at *
  rw [er, eg, eb]

/-! ### Rounding to a double -/

theorem pow2_eq_zpow (k : Int) : pow2 k = (2 : ℚ) ^ k := by
  unfold pow2
  split
  · rename_i h
    obtain ⟨n, rfl⟩ := Int.eq_ofNat_of_zero_le h
    simp
  · rename_i h
    obtain ⟨n, hn⟩ := Int.exists_eq_neg_ofNat (le_of_lt (not_le.1 h))
    subst hn
    simp

theorem pow2_pos (k : Int) : 0 < pow2 k := by
  rw [pow2_eq_zpow]
  positivity

theorem pow2_succ (k : Int) : pow2 (k + 1) = pow2 k * 2 := by
  rw [pow2_eq_zpow, pow2_eq_zpow, zpow_add_one₀ (by norm_num)]

theorem pow2_pred (k : Int) : pow2 (k - 1) = pow2 k / 2 := by
  rw [pow2_eq_zpow, pow2_eq_zpow, zpow_sub_one₀ (by norm_num)]
  rfl

theorem pow2_le_pow2 (a b : Int) (h : a ≤ b) : pow2 a ≤ pow2 b := by
  rw [pow2_eq_zpow, pow2_eq_zpow]
  exact zpow_le_zpow_right₀ (by norm_num) h

theorem lt_of_pow2_lt (a b : Int) (h : pow2 a < pow2 b) : a < b := by
  by_contra hn
  exact absurd (pow2_le_pow2 b a (not_lt.1 hn)) (not_le.2 h)

theorem binaryExponent_lt (K : Int) (hK : 0 < K) :
    ∀ (fuel : Nat) (m : ℚ) (e : Int), (0 < e → 1 ≤ m) → m * pow2 e < pow2 K →
      binaryExponent fuel m e < K := by
  have base : ∀ (m : ℚ) (e : Int), (0 < e → 1 ≤ m) → m * pow2 e < pow2 K → e < K := by
    intro m e h1 h2
    by_cases he : 0 < e
    · have hm := h1 he
      apply lt_of_pow2_lt
      have := pow2_pos e
      nlinarith
    · omega
  intro fuel
  induction fuel with
  | zero =>
    intro m e h1 h2
    exact base m e h1 h2
  | succ fuel ih =>
    intro m e h1 h2
    rw [binaryExponent]
    split
    · rename_i hc
      apply ih
      · intro _
        linarith [hc.1]
      · rw [pow2_succ]
        linarith [show m / 2 * (pow2 e * 2) = m * pow2 e by ring]
    · split
      · rename_i hc
        apply ih
        · intro hpos
          have : 0 < e := by omega
          linarith [h1 this, hc.1]
        · rw [pow2_pred]
          linarith [show m * 2 * (pow2 e / 2) = m * pow2 e by ring]
      · exact base m e h1 h2

theorem roundHalfEven_close (m : ℚ) : |(roundHalfEven m : ℚ) - m| ≤ 1 / 2 := by
  have h1 := Int.floor_le m
  have h2 := Int.lt_floor_add_one m
  unfold roundHalfEven
  simp only
  rw [abs_le]
  split
  · constructor <;> linarith
  · split
    · push_cast
      constructor <;> linarith
    · split
      · constructor <;> linarith
      · push_cast
        constructor <;> linarith

theorem roundHalfEven_ge (m : ℚ) (L : Int) (h : (L : ℚ) ≤ m) : L ≤ roundHalfEven m := by
  have hf : L ≤ ⌊m⌋ := Int.le_floor.2 h
  unfold roundHalfEven
  simp only
  split
  · exact hf
  · split
    · omega
    · split
      · exact hf
      · omega

theorem roundHalfEven_le (m : ℚ) (H : Int) (h : m ≤ (H : ℚ)) : roundHalfEven m ≤ H := by
  have h1 := Int.floor_le m
  have hf : ⌊m⌋ ≤ H := by
    have : (⌊m⌋ : ℚ) ≤ (H : ℚ) := le_trans h1 h
    exact_mod_cast this
  have hlt : ∀ d : ℚ, d = m - ⌊m⌋ → ¬ d < 1 / 2 → ⌊m⌋ + 1 ≤ H := by
    intro d hd hn
    have : (⌊m⌋ : ℚ) < (H : ℚ) := by linarith
    have : ⌊m⌋ < H := by exact_mod_cast this
    omega
  unfold roundHalfEven
  simp only
  split
  · exact hf
  · rename_i hn
    split
    · exact hlt _ rfl hn
    · split
      · exact hf
      · exact hlt _ rfl hn


theorem quantise_bounds (y : ℚ) (q : Int) (hq : q ≤ 0) (L H : Int) (hL : (L : ℚ) ≤ y)
    (hH : y ≤ (H : ℚ)) :
    (L : ℚ) ≤ (roundHalfEven (y / pow2 q) : ℚ) * pow2 q
      ∧ (roundHalfEven (y / pow2 q) : ℚ) * pow2 q ≤ (H : ℚ) := by
  obtain ⟨n, hn⟩ := Int.exists_eq_neg_ofNat hq
  subst hn
  have hp : pow2 (-(n : Int)) = 1 / ((2 : ℚ) ^ n) := by
    rw [pow2_eq_zpow, zpow_neg, zpow_natCast, one_div]
  have h2 : (0 : ℚ) < (2 : ℚ) ^ n := by positivity
  rw [hp]
  have e : y / (1 / (2 : ℚ) ^ n) = y * (2 : ℚ) ^ n := by
    field_simp
  rw [e]
  have c1 : (((L * 2 ^ n : Int)) : ℚ) ≤ y * (2 : ℚ) ^ n := by
    push_cast
    exact mul_le_mul_of_nonneg_right hL (le_of_lt h2)
  have c2 : y * (2 : ℚ) ^ n ≤ (((H * 2 ^ n : Int)) : ℚ) := by
    push_cast
    exact mul_le_mul_of_nonneg_right hH (le_of_lt h2)
  have r1 := roundHalfEven_ge _ _ c1
  have r2 := roundHalfEven_le _ _ c2
  have r1q : ((L * 2 ^ n : Int) : ℚ) ≤ (roundHalfEven (y * (2 : ℚ) ^ n) : ℚ) := by
    exact_mod_cast r1
  have r2q : (roundHalfEven (y * (2 : ℚ) ^ n) : ℚ) ≤ ((H * 2 ^ n : Int) : ℚ) := by
    exact_mod_cast r2
  push_cast at r1q r2q
  constructor
  · rw [mul_one_div, le_div_iff₀ h2]
    exact r1q
  · rw [mul_one_div, div_le_iff₀ h2]
    exact r2q

theorem quantise_close (y : ℚ) (q : Int) :
    |(roundHalfEven (y / pow2 q) : ℚ) * pow2 q - y| ≤ pow2 q / 2 := by
  have hp := pow2_pos q
  have h := roundHalfEven_close (y / pow2 q)
  have e : (roundHalfEven (y / pow2 q) : ℚ) * pow2 q - y
      = ((roundHalfEven (y / pow2 q) : ℚ) - y / pow2 q) * pow2 q := by
    field_simp
  rw [e, abs_mul, abs_of_pos hp]
  calc |(roundHalfEven (y / pow2 q) : ℚ) - y / pow2 q| * pow2 q
      ≤ 1 / 2 * pow2 q := mul_le_mul_of_nonneg_right h (le_of_lt hp)
    _ = pow2 q / 2 := by ring

theorem doubleQuantum_le (x : ℚ) (K : Int) (hK : 0 < K) (h : |x| < pow2 K) :
    doubleQuantum x ≤ K - 53 := by
  unfold doubleQuantum
  have := binaryExponent_lt K hK 1100 |x| 0 (fun h0 => absurd h0 (lt_irrefl 0))
    (by
      have : pow2 0 = 1 := by rw [pow2_eq_zpow]; simp
      rw [this, mul_one]
      exact h)
  omega

theorem roundToDouble_zero : roundToDouble 0 = 0 := by
  simp [roundToDouble]

theorem roundToDouble_bounds (x : ℚ) (K : Int) (hK : 0 < K) (hK53 : K ≤ 53)
    (h : |x| < pow2 K) (L H : Int) (hL : (L : ℚ) ≤ x) (hH : x ≤ (H : ℚ)) :
    (L : ℚ) ≤ roundToDouble x ∧ roundToDouble x ≤ (H : ℚ) := by
  have hq : doubleQuantum x ≤ 0 := by
    have := doubleQuantum_le x K hK h
    omega
  unfold roundToDouble
  split
  · rename_i h0
    subst h0
    exact ⟨hL, hH⟩
  · simp only
    split
    · rename_i hneg
      rw [abs_of_neg hneg]
      have hL2 : ((-H : Int) : ℚ) ≤ -x := by
        push_cast
        linarith
      have hH2 : -x ≤ ((-L : Int) : ℚ) := by
        push_cast
        linarith
      obtain ⟨b1, b2⟩ := quantise_bounds (-x) (doubleQuantum x) hq (-H) (-L) hL2 hH2
      push_cast at b1 b2
      constructor <;> linarith
    · rename_i hneg
      rw [abs_of_nonneg (not_lt.1 hneg)]
      exact quantise_bounds x (doubleQuantum x) hq L H hL hH

theorem roundToDouble_close (x : ℚ) (K : Int) (hK : 0 < K) (h : |x| < pow2 K) :
    |roundToDouble x - x| ≤ pow2 (K - 54) := by
  have hq := doubleQuantum_le x K hK h
  have hb : pow2 (doubleQuantum x) / 2 ≤ pow2 (K - 54) := by
    have e : pow2 (K - 54) = pow2 (K - 53) / 2 := by
      rw [← pow2_pred]
      congr 1
      omega
    rw [e]
    have := pow2_le_pow2 _ _ hq
    linarith
  unfold roundToDouble
  split
  · rename_i h0
    subst h0
    simp only [sub_zero, abs_zero]
    exact le_of_lt (pow2_pos _)
  · simp only
    split
    · rename_i hneg
      rw [abs_of_neg hneg]
      have c := quantise_close (-x) (doubleQuantum x)
      have e : -((roundHalfEven (-x / pow2 (doubleQuantum x)) : ℚ) * pow2 (doubleQuantum x)) - x
          = -((roundHalfEven (-x / pow2 (doubleQuantum x)) : ℚ) * pow2 (doubleQuantum x) - -x) := by
        ring
      rw [e, abs_neg]
      exact le_trans c hb
    · rename_i hneg
      rw [abs_of_nonneg (not_lt.1 hneg)]
      exact le_trans (quantise_close x (doubleQuantum x)) hb

theorem roundToDouble_intCast (n : Int) (h : |(n : ℚ)| < pow2 53) :
    roundToDouble (n : ℚ) = (n : ℚ) := by
  obtain ⟨b1, b2⟩ := roundToDouble_bounds (n : ℚ) 53 (by norm_num) (le_refl _) h n n
    (le_refl _) (le_refl _)
  exact le_antisymm b2 b1

theorem toDouble_finite (x : ℚ) (h : |roundToDouble x| < pow2 1024) :
    toDouble x = JSNum.finite (roundToDouble x) := by
  unfold toDouble
  split
  · rename_i h0
    subst h0
    rw [roundToDouble_zero]
  · have := binaryExponent_lt 1024 (by norm_num) 1100 |roundToDouble x| 0
      (fun h0 => absurd h0 (lt_irrefl 0))
      (by
        have : pow2 0 = 1 := by rw [pow2_eq_zpow]; simp
        rw [this, mul_one]
        exact h)
    rw [if_neg (by omega)]

theorem pow2_mono_lt (x : ℚ) (a b : Int) (h : x < pow2 a) (hab : a ≤ b) : x < pow2 b :=
  lt_of_lt_of_le h (pow2_le_pow2 a b hab)


theorem roundNearest_close (x : ℚ) : |x - (roundNearest x : ℚ)| ≤ 1 / 2 := by
  unfold roundNearest
  have h1 := Int.floor_le (x + 1 / 2)
  have h2 := Int.lt_floor_add_one (x + 1 / 2)
  rw [abs_le]
  constructor <;> linarith

theorem roundNearest_intCast (n : Int) : roundNearest (n : ℚ) = n := by
  unfold roundNearest
  have e : ((n : ℚ) + 1 / 2) = ((1 / 2 : ℚ) + (n : ℚ)) := by ring
  rw [e, Int.floor_add_int]
  have : ⌊(1 / 2 : ℚ)⌋ = 0 := by norm_num
  omega

theorem roundNearest_bounds (x : ℚ) (h0 : 0 ≤ x) (h1 : x ≤ 255) :
    0 ≤ roundNearest x ∧ roundNearest x ≤ 255 := by
  unfold roundNearest
  constructor
  · rw [Int.le_floor]
    push_cast
    linarith
  · have : ⌊x + 1 / 2⌋ < 256 := by
      rw [Int.floor_lt]
      push_cast
      linarith
    omega

theorem pow2_one : pow2 1 = 2 := by
  rw [pow2_eq_zpow]
  norm_num

theorem pow2_eight : pow2 8 = 256 := by
  rw [pow2_eq_zpow]
  norm_num

theorem lt_pow2_of_le_255 (x : ℚ) (K : Int) (hK : 8 ≤ K) (h : |x| ≤ 255) : |x| < pow2 K := by
  apply pow2_mono_lt _ 8 K _ hK
  rw [pow2_eight]
  linarith

theorem toDouble_of_le_255 (x : ℚ) (hx : |x| ≤ 255) :
    toDouble x = JSNum.finite (roundToDouble x)
      ∧ |roundToDouble x - x| ≤ pow2 (-46)
      ∧ ∀ L H : Int, (L : ℚ) ≤ x → x ≤ (H : ℚ) →
          (L : ℚ) ≤ roundToDouble x ∧ roundToDouble x ≤ (H : ℚ) := by
  have h8 := lt_pow2_of_le_255 x 8 (le_refl _) hx
  have hb : ∀ L H : Int, (L : ℚ) ≤ x → x ≤ (H : ℚ) →
      (L : ℚ) ≤ roundToDouble x ∧ roundToDouble x ≤ (H : ℚ) :=
    fun L H => roundToDouble_bounds x 8 (by norm_num) (by norm_num) h8 L H
  refine ⟨?_, roundToDouble_close x 8 (by norm_num) h8, hb⟩
  apply toDouble_finite
  obtain ⟨l, u⟩ := abs_le.1 hx
  obtain ⟨b1, b2⟩ := hb (-255) 255 (by push_cast; linarith) (by push_cast; linarith)
  push_cast at b1 b2
  exact lt_pow2_of_le_255 _ 1024 (by norm_num) (abs_le.2 ⟨b1, b2⟩)

theorem doubleLerp_spec (a b : Nat) (t : ℚ) (ha : a ≤ 255) (hb : b ≤ 255) (h0 : 0 ≤ t)
    (h1 : t ≤ 1) :
    interpolateChannel (some (a : Int)) (some (b : Int)) (toDouble t)
        = JSNum.finite (doubleLerp a b t)
      ∧ (0 ≤ doubleLerp a b t ∧ doubleLerp a b t ≤ 255)
      ∧ |doubleLerp a b t - lerpChannel a b t| ≤ 1 / 2 ^ 44 := by
  have ha0 : (0 : ℚ) ≤ (a : ℚ) := Nat.cast_nonneg a
  have hb0 : (0 : ℚ) ≤ (b : ℚ) := Nat.cast_nonneg b
  have ha1 : (a : ℚ) ≤ 255 := by exact_mod_cast ha
  have hb1 : (b : ℚ) ≤ 255 := by exact_mod_cast hb
  -- the fraction
  have ht : |t| ≤ 255 := by
    rw [abs_of_nonneg h0]
    linarith
  obtain ⟨et, _, bt⟩ := toDouble_of_le_255 t ht
  obtain ⟨t0, t1⟩ := bt 0 1 (by simpa using h0) (by simpa using h1)
  simp only [Int.cast_zero, Int.cast_one] at t0 t1
  have ct : |roundToDouble t - t| ≤ pow2 (-53) := by
    have := roundToDouble_close t 1 (by norm_num) (by
      rw [pow2_one, abs_of_nonneg h0]
      linarith)
    simpa using this
  -- the difference
  have hd : |(b : ℚ) - (a : ℚ)| ≤ 255 := by
    rw [abs_le]
    constructor <;> linarith
  obtain ⟨ed, _, bd⟩ := toDouble_of_le_255 ((b : ℚ) - (a : ℚ)) hd
  have edv : roundToDouble ((b : ℚ) - (a : ℚ)) = (b : ℚ) - (a : ℚ) := by
    obtain ⟨l, u⟩ := bd ((b : Int) - (a : Int)) ((b : Int) - (a : Int))
      (by push_cast; exact le_refl _) (by push_cast; exact le_refl _)
    push_cast at l u
    exact le_antisymm u l
  -- the product
  have hp : |((b : ℚ) - (a : ℚ)) * roundToDouble t| ≤ 255 := by
    rw [abs_mul, abs_of_nonneg t0]
    calc |(b : ℚ) - (a : ℚ)| * roundToDouble t ≤ 255 * 1 :=
          mul_le_mul hd t1 t0 (by norm_num)
      _ = 255 := by ring
  obtain ⟨ep, cp, bp⟩ := toDouble_of_le_255 (((b : ℚ) - (a : ℚ)) * roundToDouble t) hp
  have py : (min 0 ((b : Int) - (a : Int)) : ℚ)
        ≤ roundToDouble (((b : ℚ) - (a : ℚ)) * roundToDouble t)
      ∧ roundToDouble (((b : ℚ) - (a : ℚ)) * roundToDouble t)
        ≤ (max 0 ((b : Int) - (a : Int)) : ℚ) := by
    have := bp (min 0 ((b : Int) - (a : Int))) (max 0 ((b : Int) - (a : Int))) ?_ ?_
    · exact_mod_cast this
    · push_cast
      rcases le_total (0 : ℚ) ((b : ℚ) - (a : ℚ)) with h | h
      · rw [min_eq_left h]
        exact mul_nonneg h t0
      · rw [min_eq_right h]
        nlinarith
    · push_cast
      rcases le_total (0 : ℚ) ((b : ℚ) - (a : ℚ)) with h | h
      · rw [max_eq_right h]
        nlinarith
      · rw [max_eq_left h]
        exact mul_nonpos_of_nonpos_of_nonneg h t0
  have ymin : (0 : ℚ) ≤ (a : ℚ) + roundToDouble (((b : ℚ) - (a : ℚ)) * roundToDouble t) := by
    have := py.1
    push_cast at this
    rcases le_total (0 : ℚ) ((b : ℚ) - (a : ℚ)) with h | h
    · rw [min_eq_left h] at this
      linarith
    · rw [min_eq_right h] at this
      linarith
  have ymax : (a : ℚ) + roundToDouble (((b : ℚ) - (a : ℚ)) * roundToDouble t) ≤ 255 := by
    have := py.2
    push_cast at this
    rcases le_total (0 : ℚ) ((b : ℚ) - (a : ℚ)) with h | h
    · rw [max_eq_right h] at this
      linarith
    · rw [max_eq_left h] at this
      linarith
  -- the sum
  have hs : |(a : ℚ) + roundToDouble (((b : ℚ) - (a : ℚ)) * roundToDouble t)| ≤ 255 := by
    rw [abs_of_nonneg ymin]
    exact ymax
  obtain ⟨es, cs, bs⟩ := toDouble_of_le_255 _ hs
  obtain ⟨z0, z1⟩ := bs 0 255 (by simpa using ymin) (by simpa using ymax)
  simp only [Int.cast_zero, Int.cast_ofNat] at z0 z1
  refine ⟨?_, ⟨z0, z1⟩, ?_⟩
  · simp only [interpolateChannel, channelNumber, et, JSNum.sub, JSNum.mul, JSNum.add,
      Int.cast_natCast, ed, edv, ep, es, doubleLerp]
  · unfold doubleLerp lerpChannel
    have e46 : pow2 (-46) = 1 / 2 ^ 46 := by
      rw [pow2_eq_zpow]
      norm_num
    have e53 : pow2 (-53) = 1 / 2 ^ 53 := by
      rw [pow2_eq_zpow]
      norm_num
    rw [e46] at cp cs
    rw [e53] at ct
    have k1 : |((b : ℚ) - (a : ℚ)) * roundToDouble t - ((b : ℚ) - (a : ℚ)) * t|
        ≤ 255 * (1 / 2 ^ 53) := by
      rw [← mul_sub, abs_mul]
      exact mul_le_mul hd ct (abs_nonneg _) (by norm_num)
    rw [abs_le] at cp cs k1 ⊢
    constructor <;> norm_num at cp cs k1 ⊢ <;> linarith

theorem roundToDouble_small (n : Int) (h : |(n : ℚ)| ≤ 255) : roundToDouble (n : ℚ) = (n : ℚ) :=
  roundToDouble_intCast n (lt_pow2_of_le_255 _ 53 (by norm_num) h)

theorem doubleLerp_zero (a b : Nat) (ha : a ≤ 255) : doubleLerp a b 0 = (a : ℚ) := by
  have ha1 : (a : ℚ) ≤ 255 := by exact_mod_cast ha
  have ha0 : (0 : ℚ) ≤ (a : ℚ) := Nat.cast_nonneg a
  have := roundToDouble_small (a : Int) (by
    rw [abs_of_nonneg (by exact_mod_cast ha0)]
    exact_mod_cast ha1)
  unfold doubleLerp
  rw [roundToDouble_zero, mul_zero, roundToDouble_zero, add_zero]
  exact_mod_cast this

theorem doubleLerp_one (a b : Nat) (ha : a ≤ 255) (hb : b ≤ 255) :
    doubleLerp a b 1 = (b : ℚ) := by
  have ha1 : (a : ℚ) ≤ 255 := by exact_mod_cast ha
  have ha0 : (0 : ℚ) ≤ (a : ℚ) := Nat.cast_nonneg a
  have hb1 : (b : ℚ) ≤ 255 := by exact_mod_cast hb
  have hb0 : (0 : ℚ) ≤ (b : ℚ) := Nat.cast_nonneg b
  have e1 : roundToDouble 1 = 1 := by
    have := roundToDouble_small 1 (by norm_num)
    exact_mod_cast this
  have ed : roundToDouble ((b : ℚ) - (a : ℚ)) = (b : ℚ) - (a : ℚ) := by
    have := roundToDouble_small ((b : Int) - (a : Int)) (by
      push_cast
      rw [abs_le]
      constructor <;> linarith)
    exact_mod_cast this
  have eb : roundToDouble (b : ℚ) = (b : ℚ) := by
    have := roundToDouble_small (b : Int) (by
      rw [abs_of_nonneg (by exact_mod_cast hb0)]
      exact_mod_cast hb1)
    exact_mod_cast this
  unfold doubleLerp
  rw [e1, mul_one, ed, add_sub_cancel, eb]

theorem interpolateColor_of_hex (colorA colorB : Str) (ar ag ab br bg bb : Nat) (t : ℚ)
    (hA : IsHexColour colorA ar ag ab) (hB : IsHexColour colorB br bg bb)
    (h0 : 0 ≤ t) (h1 : t ≤ 1) :
    interpolateColor colorA colorB t
      = rgbText (roundNearest (doubleLerp ar br t)) (roundNearest (doubleLerp ag bg t))
          (roundNearest (doubleLerp ab bb t)) := by
  obtain ⟨eA, a1, a2, a3⟩ := parseColor_hex colorA ar ag ab hA
  obtain ⟨eB, b1, b2, b3⟩ := parseColor_hex colorB br bg bb hB
  unfold interpolateColor
  rw [eA, eB]
  simp only [(doubleLerp_spec ar br t a1 b1 h0 h1).1, (doubleLerp_spec ag bg t a2 b2 h0 h1).1,
    (doubleLerp_spec ab bb t a3 b3 h0 h1).1, rgbToColor, mathRound, rgbText, roundNearest]

theorem channel_close (a b : Nat) (t : ℚ) (ha : a ≤ 255) (hb : b ≤ 255) (h0 : 0 ≤ t)
    (h1 : t ≤ 1) :
    |lerpChannel a b t - (roundNearest (doubleLerp a b t) : ℚ)| ≤ 1 / 2 + 1 / 2 ^ 44 := by
  have c1 := (doubleLerp_spec a b t ha hb h0 h1).2.2
  have c2 := roundNearest_close (doubleLerp a b t)
  rw [abs_le] at c1 c2 ⊢
  constructor <;> linarith

/-- Claim C13, amended. For well-formed `#RRGGBB` colours and `t` in `[0, 1]`, each
channel of `interpolateColor(colorA, colorB, t)` is `Math.round` of `a + (b - a) * t`
as doubles compute it (the product and the sum each rounded to the nearest double),
channel by channel; it lies in 0..255 and within `1/2 + 2^-44` of the exact value;
`t = 0` gives the channels of `colorA` and `t = 1` those of `colorB`. -/
theorem interpolateColor_channels (colorA colorB : Str) (ar ag ab br bg bb : Nat) (t : ℚ)
    (hA : IsHexColour colorA ar ag ab) (hB : IsHexColour colorB br bg bb)
    (h0 : 0 ≤ t) (h1 : t ≤ 1) :
    interpolateColor colorA colorB t
        = rgbText (roundNearest (doubleLerp ar br t)) (roundNearest (doubleLerp ag bg t))
            (roundNearest (doubleLerp ab bb t))
    ∧ (|lerpChannel ar br t - (roundNearest (doubleLerp ar br t) : ℚ)| ≤ 1 / 2 + 1 / 2 ^ 44
        ∧ |lerpChannel ag bg t - (roundNearest (doubleLerp ag bg t) : ℚ)| ≤ 1 / 2 + 1 / 2 ^ 44
        ∧ |lerpChannel ab bb t - (roundNearest (doubleLerp ab bb t) : ℚ)| ≤ 1 / 2 + 1 / 2 ^ 44)
    ∧ ((0 ≤ roundNearest (doubleLerp ar br t) ∧ roundNearest (doubleLerp ar br t) ≤ 255)
        ∧ (0 ≤ roundNearest (doubleLerp ag bg t) ∧ roundNearest (doubleLerp ag bg t) ≤ 255)
        ∧ (0 ≤ roundNearest (doubleLerp ab bb t) ∧ roundNearest (doubleLerp ab bb t) ≤ 255))
    ∧ interpolateColor colorA colorB 0 = rgbText ar ag ab
    ∧ interpolateColor colorA colorB 1 = rgbText br bg bb := by
  obtain ⟨_, a1, a2, a3⟩ := parseColor_hex colorA ar ag ab hA
  obtain ⟨_, b1, b2, b3⟩ := parseColor_hex colorB br bg bb hB
  have hr := (doubleLerp_spec ar br t a1 b1 h0 h1).2.1
  have hg := (doubleLerp_spec ag bg t a2 b2 h0 h1).2.1
  have hb := (doubleLerp_spec ab bb t a3 b3 h0 h1).2.1
  refine ⟨interpolateColor_of_hex colorA colorB ar ag ab br bg bb t hA hB h0 h1,
    ⟨channel_close ar br t a1 b1 h0 h1, channel_close ag bg t a2 b2 h0 h1,
      channel_close ab bb t a3 b3 h0 h1⟩,
    ⟨roundNearest_bounds _ hr.1 hr.2, roundNearest_bounds _ hg.1 hg.2,
      roundNearest_bounds _ hb.1 hb.2⟩, ?_, ?_⟩
  · rw [interpolateColor_of_hex colorA colorB ar ag ab br bg bb 0 hA hB (le_refl _)
      (by norm_num)]
    have e : ∀ a b : Nat, a ≤ 255 → roundNearest (doubleLerp a b 0) = (a : Int) := by
      intro a b ha
      have : doubleLerp a b 0 = ((a : Int) : ℚ) := by
        rw [doubleLerp_zero a b ha]
        simp
      rw [this, roundNearest_intCast]
    rw [e _ _ a1, e _ _ a2, e _ _ a3]
  · rw [interpolateColor_of_hex colorA colorB ar ag ab br bg bb 1 hA hB (by norm_num)
      (le_refl _)]
    have e : ∀ a b : Nat, a ≤ 255 → b ≤ 255 → roundNearest (doubleLerp a b 1) = (b : Int) := by
      intro a b ha hb
      have : doubleLerp a b 1 = ((b : Int) : ℚ) := by
        rw [doubleLerp_one a b ha hb]
        simp
      rw [this, roundNearest_intCast]
    rw [e _ _ a1 b1, e _ _ a2 b2, e _ _ a3 b3]

theorem interpolateColor_channels_witness :
    interpolateColor (utf16 "#E60026") (utf16 "#ffFFff") (1 / 7)
      = rgbText (roundNearest (doubleLerp 230 255 (1 / 7)))
          (roundNearest (doubleLerp 0 255 (1 / 7))) (roundNearest (doubleLerp 38 255 (1 / 7)))
    ∧ interpolateColor (utf16 "#E60026") (utf16 "#ffFFff") (1 / 7) = utf16 "rgb(234, 36, 69)" :=
  ⟨(interpolateColor_channels (utf16 "#E60026") (utf16 "#ffFFff") 230 0 38 255 255 255 (1 / 7)
      ⟨utf16 "E6", utf16 "00", utf16 "26", by decide,
        ⟨69, 54, 14, 6, by decide, by decide, by decide, by decide⟩,
        ⟨48, 48, 0, 0, by decide, by decide, by decide, by decide⟩,
        ⟨50, 54, 2, 6, by decide, by decide, by decide, by decide⟩⟩
      ⟨utf16 "ff", utf16 "FF", utf16 "ff", by decide,
        ⟨102, 102, 15, 15, by decide, by decide, by decide, by decide⟩,
        ⟨70, 70, 15, 15, by decide, by decide, by decide, by decide⟩,
        ⟨102, 102, 15, 15, by decide, by decide, by decide, by decide⟩⟩
      (by norm_num) (by norm_num)).1,
   by with_unfolding_all decide⟩

/-- Claim C13 as stated fails: for `#000000`, `#030303` and the double nearest to one
sixth, the exact value `3 * t` of each channel is below one half, so that its nearest
integer is 0, but the product is rounded to the double `0.5` and `interpolateColor`
returns `rgb(1, 1, 1)`; the fraction is a double, since rounding leaves it as it is. -/
theorem interpolateColor_nearest_counterexample :
    IsHexColour (utf16 "#000000") 0 0 0 ∧ IsHexColour (utf16 "#030303") 3 3 3
    ∧ 0 ≤ oneSixthDouble ∧ oneSixthDouble ≤ 1
    ∧ (roundToDouble oneSixthDouble ≤ oneSixthDouble
        ∧ oneSixthDouble ≤ roundToDouble oneSixthDouble)
    ∧ interpolateColor (utf16 "#000000") (utf16 "#030303") oneSixthDouble
        = utf16 "rgb(1, 1, 1)"
    ∧ lerpChannel 0 3 oneSixthDouble < 1 / 2
    ∧ rgbText (roundNearest (lerpChannel 0 3 oneSixthDouble))
          (roundNearest (lerpChannel 0 3 oneSixthDouble))
          (roundNearest (lerpChannel 0 3 oneSixthDouble)) = utf16 "rgb(0, 0, 0)"
    ∧ interpolateColor (utf16 "#000000") (utf16 "#030303") oneSixthDouble
        ≠ rgbText (roundNearest (lerpChannel 0 3 oneSixthDouble))
          (roundNearest (lerpChannel 0 3 oneSixthDouble))
          (roundNearest (lerpChannel 0 3 oneSixthDouble)) := by
  refine ⟨?_, ?_, ?_, ?_, ⟨?_, ?_⟩, ?_, ?_, ?_, ?_⟩
  · exact ⟨utf16 "00", utf16 "00", utf16 "00", by decide,
      ⟨48, 48, 0, 0, by decide, by decide, by decide, by decide⟩,
      ⟨48, 48, 0, 0, by decide, by decide, by decide, by decide⟩,
      ⟨48, 48, 0, 0, by decide, by decide, by decide, by decide⟩⟩
  · exact ⟨utf16 "03", utf16 "03", utf16 "03", by decide,
      ⟨48, 51, 0, 3, by decide, by decide, by decide, by decide⟩,
      ⟨48, 51, 0, 3, by decide, by decide, by decide, by decide⟩,
      ⟨48, 51, 0, 3, by decide, by decide, by decide, by decide⟩⟩
  · with_unfolding_all decide
  · with_unfolding_all decide
  · with_unfolding_all decide
  · with_unfolding_all decide
  · with_unfolding_all decide
  · with_unfolding_all decide
  · with_unfolding_all decide
  · with_unfolding_all decide

/-- Claim C14 as stated fails: the text returned for black, white and one half is
not `#808080`. -/
theorem interpolateColor_half_counterexample :
    interpolateColor (utf16 "#000000") (utf16 "#FFFFFF") (1 / 2) ≠ utf16 "#808080" := by
  with_unfolding_all decide

/-- Claim C14, amended. `interpolateColor("#000000", "#FFFFFF", 0.5)` returns the text
`rgb(128, 128, 128)`, whose channels are those of `#808080`. -/
theorem interpolateColor_half :
    interpolateColor (utf16 "#000000") (utf16 "#FFFFFF") (1 / 2) = utf16 "rgb(128, 128, 128)"
    ∧ parseColor (utf16 "#808080") = { r := some 128, g := some 128, b := some 128 } := by
  constructor <;> with_unfolding_all decide

/-- Claim C15, evaluated on the code. Text without a leading `#` parses to white,
but text with a leading `#` and missing or non-hexadecimal digits parses to `NaN`
channels, and `interpolateColor` then returns a text with `NaN` in it. -/
theorem parseColor_malformed :
    (∀ color : Str, color.head? ≠ some 35 →
        parseColor color = { r := some 255, g := some 255, b := some 255 })
    ∧ parseColor (utf16 "#GG0000") = { r := none, g := some 0, b := some 0 }
    ∧ parseColor (utf16 "#12") = { r := some 18, g := none, b := none }
    ∧ interpolateColor (utf16 "#GGGGGG") (utf16 "#E60026") (1 / 2)
        = utf16 "rgb(NaN, NaN, NaN)" := by
  refine ⟨?_, by decide, by decide, by with_unfolding_all decide⟩
  intro color h
  cases color with
  | nil => rfl
  | cons c cs =>
    have hc : c ≠ 35 := by
      intro e
      apply h
      simp [e]
    unfold parseColor
    split
    · rename_i hex heq
      injection heq with h1 _
      exact absurd h1 hc
    · rfl

/-! ## Frozen clock and frame conditions -/

theorem updateGradientState_fonts (r : LyricRenderer) (now lineIndex wordIndex : Int)
    (wordLength : Nat) :
    (updateGradientState r now lineIndex wordIndex wordLength).1.fontsRegistered
      = r.fontsRegistered := by
  unfold updateGradientState
  simp only
  split <;> rfl

theorem updateGradientState_new_pair_eq (r : LyricRenderer) (now lineIndex wordIndex : Int)
    (wordLength : Nat) (h : lineIndex ≠ r.lastLineIndex ∨ wordIndex ≠ r.lastWordIndex) :
    updateGradientState r now lineIndex wordIndex wordLength
      = ({ r with lastLineIndex := lineIndex, lastWordIndex := wordIndex,
                  wordStartTime := now, currentWordLength := wordLength }, 0) := by
  simp only [updateGradientState, floor_div_interval]
  rw [if_pos h]
  simp

theorem updateGradientState_frozen (r : LyricRenderer) (now lineIndex wordIndex : Int)
    (wordLength : Nat) :
    updateGradientState (updateGradientState r now lineIndex wordIndex wordLength).1 now
        lineIndex wordIndex wordLength
      = updateGradientState r now lineIndex wordIndex wordLength := by
  by_cases h : lineIndex ≠ r.lastLineIndex ∨ wordIndex ≠ r.lastWordIndex
  · rw [updateGradientState_new_pair_eq r now lineIndex wordIndex wordLength h]
    have := updateGradientState_same
      { r with lastLineIndex := lineIndex, lastWordIndex := wordIndex,
               wordStartTime := now, currentWordLength := wordLength } now wordLength
    simp only at this
    rw [this]
    simp
  · have h1 : lineIndex = r.lastLineIndex := by
      by_contra hne
      exact h (Or.inl hne)
    have h2 : wordIndex = r.lastWordIndex := by
      by_contra hne
      exact h (Or.inr hne)
    subst h1 h2
    rw [updateGradientState_same]
    simp only
    rw [updateGradientState_same]

theorem renderCurrentLine_frozen (measure : Font → Str → ℚ) (r : LyricRenderer) (t : Int)
    (line : Option LyricLine) (lineIndex : Int) (wordIndex : Option Int) (highlightWord : Bool)
    (config : LineConfig) :
    renderCurrentLine measure
        (renderCurrentLine measure r t t line lineIndex wordIndex highlightWord config).2 t t
        line lineIndex wordIndex highlightWord config
      = renderCurrentLine measure r t t line lineIndex wordIndex highlightWord config := by
  cases line with
  | none => rfl
  | some line =>
    by_cases htext : truthy line.originalLyric = true
    · cases hv : validWordIndex highlightWord wordIndex with
      | none =>
        simp only [renderCurrentLine, htext, hv, Bool.not_true, Bool.false_eq_true, if_false]
      | some wi =>
        by_cases hw : (splitLyricToWords (orEmpty line.originalLyric)).length > 0
        · simp only [renderCurrentLine, htext, hv, hw, Bool.not_true, Bool.false_eq_true,
            if_false, if_true, updateGradientState_frozen]
        · simp only [renderCurrentLine, htext, hv, hw, Bool.not_true, Bool.false_eq_true,
            if_false]
    · simp only [renderCurrentLine, htext, Bool.not_false, if_true]

theorem renderCurrentLineCentered_frozen (measure : Font → Str → ℚ) (r : LyricRenderer)
    (t : Int) (line : Option LyricLine) (lineIndex : Int) (wordIndex : Option Int)
    (highlightWord : Bool) (config : CenteredConfig) :
    renderCurrentLineCentered measure
        (renderCurrentLineCentered measure r t t line lineIndex wordIndex highlightWord
          config).2 t t line lineIndex wordIndex highlightWord config
      = renderCurrentLineCentered measure r t t line lineIndex wordIndex highlightWord
          config := by
  cases line with
  | none => rfl
  | some line =>
    by_cases htext : truthy line.originalLyric = true
    · cases hv : validWordIndex highlightWord wordIndex with
      | none =>
        simp only [renderCurrentLineCentered, htext, hv, Bool.not_true, Bool.false_eq_true,
          if_false]
      | some wi =>
        by_cases hw : (splitLyricToWords (orEmpty line.originalLyric)).length > 0
        · simp only [renderCurrentLineCentered, htext, hv, hw, Bool.not_true,
            Bool.false_eq_true, if_false, if_true, updateGradientState_frozen]
        · simp only [renderCurrentLineCentered, htext, hv, hw, Bool.not_true,
            Bool.false_eq_true, if_false]
    · simp only [renderCurrentLineCentered, htext, Bool.not_false, if_true]

theorem renderCurrentLine_fonts (measure : Font → Str → ℚ) (r : LyricRenderer)
    (now nowPaint : Int) (line : Option LyricLine) (lineIndex : Int) (wordIndex : Option Int)
    (highlightWord : Bool) (config : LineConfig) :
    (renderCurrentLine measure r now nowPaint line lineIndex wordIndex highlightWord
        config).2.fontsRegistered = r.fontsRegistered := by
  cases line with
  | none => rfl
  | some line =>
    by_cases htext : truthy line.originalLyric = true
    · cases hv : validWordIndex highlightWord wordIndex with
      | none =>
        simp only [renderCurrentLine, htext, hv, Bool.not_true, Bool.false_eq_true, if_false]
      | some wi =>
        by_cases hw : (splitLyricToWords (orEmpty line.originalLyric)).length > 0
        · simp only [renderCurrentLine, htext, hv, hw, Bool.not_true, Bool.false_eq_true,
            if_false, if_true, updateGradientState_fonts]
        · simp only [renderCurrentLine, htext, hv, hw, Bool.not_true, Bool.false_eq_true,
            if_false]
    · simp only [renderCurrentLine, htext, Bool.not_false, if_true]

theorem renderCurrentLineCentered_fonts (measure : Font → Str → ℚ) (r : LyricRenderer)
    (now nowPaint : Int) (line : Option LyricLine) (lineIndex : Int) (wordIndex : Option Int)
    (highlightWord : Bool) (config : CenteredConfig) :
    (renderCurrentLineCentered measure r now nowPaint line lineIndex wordIndex highlightWord
        config).2.fontsRegistered = r.fontsRegistered := by
  cases line with
  | none => rfl
  | some line =>
    by_cases htext : truthy line.originalLyric = true
    · cases hv : validWordIndex highlightWord wordIndex with
      | none =>
        simp only [renderCurrentLineCentered, htext, hv, Bool.not_true, Bool.false_eq_true,
          if_false]
      | some wi =>
        by_cases hw : (splitLyricToWords (orEmpty line.originalLyric)).length > 0
        · simp only [renderCurrentLineCentered, htext, hv, hw, Bool.not_true,
            Bool.false_eq_true, if_false, if_true, updateGradientState_fonts]
        · simp only [renderCurrentLineCentered, htext, hv, hw, Bool.not_true,
            Bool.false_eq_true, if_false]
    · simp only [renderCurrentLineCentered, htext, Bool.not_false, if_true]

theorem ensureFonts_registered (r : LyricRenderer) : (ensureFonts r).fontsRegistered = true := by
  unfold ensureFonts
  cases h : r.fontsRegistered <;> simp [h]

theorem ensureFonts_of_registered (r : LyricRenderer) (h : r.fontsRegistered = true) :
    ensureFonts r = r := by
  simp [ensureFonts, h]

/-- Claim C16. Two consecutive `render` calls that read the same clock value, with
the same position, song, options and dimensions, produce the same frame (and the
second leaves the state as the first left it), whether or not the first call
reset the highlight anchor. -/
theorem render_frozen_clock (measure : Font → Str → ℚ) (r : LyricRenderer) (t : Int)
    (currentLyric : Option LyricPosition) (song : Option Song) (o : RenderOptions)
    (width height : ℚ) :
    (render measure (render measure r t t currentLyric song o width height).state t t
        currentLyric song o width height).ops
      = (render measure r t t currentLyric song o width height).ops
    ∧ (render measure (render measure r t t currentLyric song o width height).state t t
        currentLyric song o width height).state
      = (render measure r t t currentLyric song o width height).state := by
  cases hm : positionMissing currentLyric with
  | true =>
    rw [render_of_missing measure r t t currentLyric song o width height hm]
    simp only
    rw [render_of_missing measure (ensureFonts r) t t currentLyric song o width height hm]
    simp [ensureFonts_of_registered (ensureFonts r) (ensureFonts_registered r)]
  | false =>
    obtain ⟨cl, line, li, h1, h2, h3, h4, h5⟩ := position_present currentLyric hm
    subst h1
    rw [render_of_present measure r t t cl line li song o width height h2 h3 h4 h5]
    cases hs : secondaryAvailable o (some cl) with
    | true =>
      simp only [if_true]
      have hf : ensureFonts (renderCurrentLine measure (ensureFonts r) t t (some line) li
          cl.wordIndex o.highlightWord (primaryConfig o width)).2
          = (renderCurrentLine measure (ensureFonts r) t t (some line) li
          cl.wordIndex o.highlightWord (primaryConfig o width)).2 := by
        apply ensureFonts_of_registered
        rw [renderCurrentLine_fonts]
        exact ensureFonts_registered r
      rw [render_of_present measure _ t t cl line li song o width height h2 h3 h4 h5, hs]
      simp only [if_true, hf, renderCurrentLine_frozen, and_self]
    | false =>
      simp only [Bool.false_eq_true, if_false]
      have hf : ensureFonts (renderCurrentLineCentered measure (ensureFonts r) t t (some line) li
          cl.wordIndex o.highlightWord (singleConfig o width height)).2
          = (renderCurrentLineCentered measure (ensureFonts r) t t (some line) li
          cl.wordIndex o.highlightWord (singleConfig o width height)).2 := by
        apply ensureFonts_of_registered
        rw [renderCurrentLineCentered_fonts]
        exact ensureFonts_registered r
      rw [render_of_present measure _ t t cl line li song o width height h2 h3 h4 h5, hs]
      simp only [Bool.false_eq_true, if_false, hf, renderCurrentLineCentered_frozen, and_self]

theorem renderCurrentLine_static (measure : Font → Str → ℚ) (r r2 : LyricRenderer)
    (now nowPaint now2 nowPaint2 : Int) (line : Option LyricLine) (lineIndex : Int)
    (wordIndex : Option Int) (highlightWord : Bool) (config : LineConfig)
    (hv : validWordIndex highlightWord wordIndex = none) :
    renderCurrentLine measure r2 now2 nowPaint2 line lineIndex wordIndex highlightWord config
      = ((renderCurrentLine measure r now nowPaint line lineIndex wordIndex highlightWord
          config).1, r2) := by
  cases line with
  | none => rfl
  | some line =>
    by_cases htext : truthy line.originalLyric = true
    · simp only [renderCurrentLine, htext, hv, Bool.not_true, Bool.false_eq_true, if_false]
    · simp only [renderCurrentLine, htext, Bool.not_false, if_true]

theorem renderCurrentLineCentered_static (measure : Font → Str → ℚ) (r r2 : LyricRenderer)
    (now nowPaint now2 nowPaint2 : Int) (line : Option LyricLine) (lineIndex : Int)
    (wordIndex : Option Int) (highlightWord : Bool) (config : CenteredConfig)
    (hv : validWordIndex highlightWord wordIndex = none) :
    renderCurrentLineCentered measure r2 now2 nowPaint2 line lineIndex wordIndex highlightWord
        config
      = ((renderCurrentLineCentered measure r now nowPaint line lineIndex wordIndex
          highlightWord config).1, r2) := by
  cases line with
  | none => rfl
  | some line =>
    by_cases htext : truthy line.originalLyric = true
    · simp only [renderCurrentLineCentered, htext, hv, Bool.not_true, Bool.false_eq_true,
        if_false]
    · simp only [renderCurrentLineCentered, htext, Bool.not_false, if_true]

theorem renderCurrentLine_state (measure : Font → Str → ℚ) (r : LyricRenderer)
    (now nowPaint : Int) (line : Option LyricLine) (lineIndex : Int) (wordIndex : Option Int)
    (highlightWord : Bool) (config : LineConfig) :
    (renderCurrentLine measure r now nowPaint line lineIndex wordIndex highlightWord config).2 = r
      ∨ ∃ (wi : Int) (n : Nat),
        (renderCurrentLine measure r now nowPaint line lineIndex wordIndex highlightWord
          config).2 = (updateGradientState r now lineIndex wi n).1 := by
  cases line with
  | none => exact Or.inl rfl
  | some line =>
    by_cases htext : truthy line.originalLyric = true
    · cases hv : validWordIndex highlightWord wordIndex with
      | none =>
        left
        simp only [renderCurrentLine, htext, hv, Bool.not_true, Bool.false_eq_true, if_false]
      | some wi =>
        by_cases hw : (splitLyricToWords (orEmpty line.originalLyric)).length > 0
        · right
          refine ⟨wi, (currentWordOf (splitLyricToWords (orEmpty line.originalLyric)) wi).length,
            ?_⟩
          simp only [renderCurrentLine, htext, hv, hw, Bool.not_true, Bool.false_eq_true,
            if_false, if_true]
        · left
          simp only [renderCurrentLine, htext, hv, hw, Bool.not_true, Bool.false_eq_true,
            if_false]
    · left
      simp only [renderCurrentLine, htext, Bool.not_false, if_true]

theorem renderCurrentLineCentered_state (measure : Font → Str → ℚ) (r : LyricRenderer)
    (now nowPaint : Int) (line : Option LyricLine) (lineIndex : Int) (wordIndex : Option Int)
    (highlightWord : Bool) (config : CenteredConfig) :
    (renderCurrentLineCentered measure r now nowPaint line lineIndex wordIndex highlightWord
        config).2 = r
      ∨ ∃ (wi : Int) (n : Nat),
        (renderCurrentLineCentered measure r now nowPaint line lineIndex wordIndex highlightWord
          config).2 = (updateGradientState r now lineIndex wi n).1 := by
  cases line with
  | none => exact Or.inl rfl
  | some line =>
    by_cases htext : truthy line.originalLyric = true
    · cases hv : validWordIndex highlightWord wordIndex with
      | none =>
        left
        simp only [renderCurrentLineCentered, htext, hv, Bool.not_true, Bool.false_eq_true,
          if_false]
      | some wi =>
        by_cases hw : (splitLyricToWords (orEmpty line.originalLyric)).length > 0
        · right
          refine ⟨wi, (currentWordOf (splitLyricToWords (orEmpty line.originalLyric)) wi).length,
            ?_⟩
          simp only [renderCurrentLineCentered, htext, hv, hw, Bool.not_true,
            Bool.false_eq_true, if_false, if_true]
        · left
          simp only [renderCurrentLineCentered, htext, hv, hw, Bool.not_true,
            Bool.false_eq_true, if_false]
    · left
      simp only [renderCurrentLineCentered, htext, Bool.not_false, if_true]

theorem validWordIndex_none_of_noWordHighlight (o : RenderOptions) (cl : LyricPosition)
    (h : noWordHighlight o (some cl) = true) :
    validWordIndex o.highlightWord cl.wordIndex = none := by
  simp only [noWordHighlight, Bool.or_eq_true, Bool.not_eq_true'] at h
  unfold validWordIndex
  cases hw : cl.wordIndex with
  | none => rfl
  | some wi =>
    simp only
    rw [if_neg]
    rintro ⟨h1, h2⟩
    rcases h with h | h
    · rw [h] at h1
      exact Bool.noConfusion h1
    · rw [hw] at h
      simp only [decide_eq_true_eq] at h
      omega

/-- Claim C17 as stated fails: the first `render` call on a fresh renderer changes
a field other than the four of the highlight state, the `fontsRegistered` flag. -/
theorem render_frame_condition_counterexample :
    ¬ (∀ (measure : Font → Str → ℚ) (r : LyricRenderer) (now nowPaint : Int)
        (currentLyric : Option LyricPosition) (song : Option Song) (o : RenderOptions)
        (width height : ℚ),
        (render measure r now nowPaint currentLyric song o width height).state.fontsRegistered
          = r.fontsRegistered) := by
  intro h
  have := h sampleMeasure LyricRenderer.new 1000 1000 none none RenderOptions.default 480 60
  revert this
  decide

/-- Claim C17, amended. When `highlightWord` is off, or `wordIndex` is undefined or
negative, or `render` ends in the song panel, `render` leaves the four fields of
the highlight state as they were and its frame depends neither on the clock nor on
the renderer state (no call of `updateGradientState`); on every path the state
left is the incoming one with `fontsRegistered` set, possibly after one call of
`updateGradientState`, so besides those four fields only `fontsRegistered`
changes. -/
theorem render_frame_condition (measure : Font → Str → ℚ) (r : LyricRenderer)
    (now nowPaint : Int) (currentLyric : Option LyricPosition) (song : Option Song)
    (o : RenderOptions) (width height : ℚ) :
    ((noWordHighlight o currentLyric = true ∨ positionMissing currentLyric = true) →
      ((render measure r now nowPaint currentLyric song o width height).state.lastLineIndex
          = r.lastLineIndex
        ∧ (render measure r now nowPaint currentLyric song o width height).state.lastWordIndex
          = r.lastWordIndex
        ∧ (render measure r now nowPaint currentLyric song o width height).state.wordStartTime
          = r.wordStartTime
        ∧ (render measure r now nowPaint currentLyric song o width height).state.currentWordLength
          = r.currentWordLength)
      ∧ ∀ (r2 : LyricRenderer) (now2 nowPaint2 : Int),
          (render measure r2 now2 nowPaint2 currentLyric song o width height).ops
            = (render measure r now nowPaint currentLyric song o width height).ops
          ∧ (render measure r2 now2 nowPaint2 currentLyric song o width height).state
            = ensureFonts r2)
    ∧ ((render measure r now nowPaint currentLyric song o width height).state = ensureFonts r
        ∨ ∃ (lineIndex wordIndex : Int) (wordLength : Nat),
          (render measure r now nowPaint currentLyric song o width height).state
            = (updateGradientState (ensureFonts r) now lineIndex wordIndex wordLength).1)
    ∧ (render measure r now nowPaint currentLyric song o width height).state.fontsRegistered
        = true := by
  have hfields : ∀ r2 : LyricRenderer, (ensureFonts r2).lastLineIndex = r2.lastLineIndex ∧
      (ensureFonts r2).lastWordIndex = r2.lastWordIndex ∧
      (ensureFonts r2).wordStartTime = r2.wordStartTime ∧
      (ensureFonts r2).currentWordLength = r2.currentWordLength := by
    intro r2
    unfold ensureFonts
    split <;> exact ⟨rfl, rfl, rfl, rfl⟩
  have hstatic : (noWordHighlight o currentLyric = true ∨ positionMissing currentLyric = true) →
      ∀ (r2 : LyricRenderer) (now2 nowPaint2 : Int),
        (render measure r2 now2 nowPaint2 currentLyric song o width height).ops
          = (render measure r now nowPaint currentLyric song o width height).ops
        ∧ (render measure r2 now2 nowPaint2 currentLyric song o width height).state
          = ensureFonts r2 := by
    intro hcond r2 now2 nowPaint2
    cases hm : positionMissing currentLyric with
    | true =>
      rw [render_of_missing measure r now nowPaint currentLyric song o width height hm,
        render_of_missing measure r2 now2 nowPaint2 currentLyric song o width height hm]
      exact ⟨rfl, rfl⟩
    | false =>
      obtain ⟨cl, line, li, h1, h2, h3, h4, h5⟩ := position_present currentLyric hm
      subst h1
      have hno : noWordHighlight o (some cl) = true := by
        rcases hcond with h | h
        · exact h
        · rw [hm] at h
          exact Bool.noConfusion h
      have hv := validWordIndex_none_of_noWordHighlight o cl hno
      rw [render_of_present measure r now nowPaint cl line li song o width height h2 h3 h4 h5,
        render_of_present measure r2 now2 nowPaint2 cl line li song o width height h2 h3 h4 h5]
      cases hs : secondaryAvailable o (some cl) with
      | true =>
        simp only [if_true]
        rw [renderCurrentLine_static measure (ensureFonts r) (ensureFonts r2) now nowPaint now2
          nowPaint2 (some line) li cl.wordIndex o.highlightWord (primaryConfig o width) hv]
        exact ⟨rfl, rfl⟩
      | false =>
        simp only [Bool.false_eq_true, if_false]
        rw [renderCurrentLineCentered_static measure (ensureFonts r) (ensureFonts r2) now
          nowPaint now2 nowPaint2 (some line) li cl.wordIndex o.highlightWord
          (singleConfig o width height) hv]
        exact ⟨rfl, rfl⟩
  refine ⟨?_, ?_, ?_⟩
  · intro hcond
    refine ⟨?_, hstatic hcond⟩
    rw [(hstatic hcond r now nowPaint).2]
    exact hfields r
  · cases hm : positionMissing currentLyric with
    | true =>
      left
      rw [render_of_missing measure r now nowPaint currentLyric song o width height hm]
    | false =>
      obtain ⟨cl, line, li, h1, h2, h3, h4, h5⟩ := position_present currentLyric hm
      subst h1
      rw [render_of_present measure r now nowPaint cl line li song o width height h2 h3 h4 h5]
      cases hs : secondaryAvailable o (some cl) with
      | true =>
        simp only [if_true]
        rcases renderCurrentLine_state measure (ensureFonts r) now nowPaint (some line) li
          cl.wordIndex o.highlightWord (primaryConfig o width) with h | ⟨wi, n, h⟩
        · exact Or.inl h
        · exact Or.inr ⟨li, wi, n, h⟩
      | false =>
        simp only [Bool.false_eq_true, if_false]
        rcases renderCurrentLineCentered_state measure (ensureFonts r) now nowPaint (some line)
          li cl.wordIndex o.highlightWord (singleConfig o width height) with h | ⟨wi, n, h⟩
        · exact Or.inl h
        · exact Or.inr ⟨li, wi, n, h⟩
  · cases hm : positionMissing currentLyric with
    | true =>
      rw [render_of_missing measure r now nowPaint currentLyric song o width height hm]
      exact ensureFonts_registered r
    | false =>
      obtain ⟨cl, line, li, h1, h2, h3, h4, h5⟩ := position_present currentLyric hm
      subst h1
      rw [render_of_present measure r now nowPaint cl line li song o width height h2 h3 h4 h5]
      cases hs : secondaryAvailable o (some cl) with
      | true =>
        simp only [if_true]
        rw [renderCurrentLine_fonts]
        exact ensureFonts_registered r
      | false =>
        simp only [Bool.false_eq_true, if_false]
        rw [renderCurrentLineCentered_fonts]
        exact ensureFonts_registered r

/-! ## The highlight clock under a monotone clock -/

theorem reachable_invariant (r : LyricRenderer) (last : Int) (h : Reachable r last) :
    r.wordStartTime ≤ last ∧ 0 ≤ last := by
  induction h with
  | init => exact ⟨le_refl _, le_refl _⟩
  | step now lineIndex wordIndex wordLength _ hle ih =>
    refine ⟨?_, le_trans ih.2 hle⟩
    unfold updateGradientState
    simp only
    split
    · exact le_refl _
    · exact le_trans ih.1 hle

/-- Claim C18. In every state reachable from the constructor's state by
`updateGradientState` calls with non-negative, non-decreasing clock readings, a
further such call computes an elapsed time `now - wordStartTime` that is not
negative and returns a count that is not negative. -/
theorem updateGradientState_elapsed_nonneg (r : LyricRenderer) (last now lineIndex wordIndex : Int)
    (wordLength : Nat) (hr : Reachable r last) (hnow : last ≤ now) :
    0 ≤ now - (updateGradientState r now lineIndex wordIndex wordLength).1.wordStartTime
    ∧ 0 ≤ (updateGradientState r now lineIndex wordIndex wordLength).2 := by
  have hinv := reachable_invariant _ _ (Reachable.step now lineIndex wordIndex wordLength hr hnow)
  have he : 0 ≤ now - (updateGradientState r now lineIndex wordIndex wordLength).1.wordStartTime := by
    have := hinv.1
    omega
  refine ⟨he, ?_⟩
  have hval : (updateGradientState r now lineIndex wordIndex wordLength).2
      = min ((now - (updateGradientState r now lineIndex wordIndex wordLength).1.wordStartTime) / 35)
          (wordLength : Int) := by
    simp only [updateGradientState, floor_div_interval]
  rw [hval]
  have h1 : 0 ≤ (now - (updateGradientState r now lineIndex wordIndex wordLength).1.wordStartTime)
      / 35 := Int.ediv_nonneg he (by decide)
  exact le_min h1 (Int.ofNat_nonneg wordLength)

theorem updateGradientState_elapsed_nonneg_witness :
    0 ≤ (1090 : Int) - (updateGradientState
        (updateGradientState LyricRenderer.new 1000 2 1 5).1 1090 2 1 5).1.wordStartTime
    ∧ 0 ≤ (updateGradientState
        (updateGradientState LyricRenderer.new 1000 2 1 5).1 1090 2 1 5).2 :=
  updateGradientState_elapsed_nonneg (updateGradientState LyricRenderer.new 1000 2 1 5).1 1000
    1090 2 1 5 (Reachable.step 1000 2 1 5 Reachable.init (by decide)) (by decide)

/-! ## Options and their defaults -/

theorem orDefault_passes (v dflt : JSValue) :
    PassesOrDefault JSValue.truthy v (v.orDefault dflt) dflt := by
  unfold PassesOrDefault JSValue.orDefault
  constructor
  · intro h
    rw [if_pos h]
  · intro h
    rw [if_neg (by simp [h])]

theorem nullishDefault_passes (v dflt : JSValue) :
    PassesOrDefault JSValue.defined v (v.nullishDefault dflt) dflt := by
  unfold PassesOrDefault
  cases v <;> simp [JSValue.nullishDefault, JSValue.defined]

theorem truthy_of_validAlign (v : JSValue) (h : validAlign v = true) : v.truthy = true := by
  simp only [validAlign, decide_eq_true_eq] at h
  rcases h with h | h | h <;> subst h <;> decide

theorem truthy_of_validColour (v : JSValue) (h : validColour v = true) : v.truthy = true := by
  cases v with
  | string s =>
    cases s with
    | nil => simp [validColour] at h
    | cons c cs => simp [JSValue.truthy]
  | _ => simp [validColour] at h

theorem truthy_of_validSize (v : JSValue) (h : validSize v = true) : v.truthy = true := by
  cases v with
  | number x =>
    simp only [validSize, decide_eq_true_eq] at h
    simp only [JSValue.truthy, decide_eq_true_eq]
    exact ne_of_gt h
  | _ => simp [validSize] at h

theorem defined_of_validSize (v : JSValue) (h : validSize v = true) : v.defined = true := by
  cases v <;> simp [validSize, JSValue.defined] at h ⊢

theorem orDefault_ne_undefined (v dflt : JSValue) (hd : dflt ≠ JSValue.undefined) :
    v.orDefault dflt ≠ JSValue.undefined := by
  unfold JSValue.orDefault
  split
  · intro e
    rename_i h
    rw [e] at h
    exact Bool.noConfusion h
  · exact hd

theorem nullishDefault_ne_undefined (v dflt : JSValue) (hd : dflt ≠ JSValue.undefined) :
    v.nullishDefault dflt ≠ JSValue.undefined := by
  cases v <;> simp [JSValue.nullishDefault, hd]

/-- Claim C19 as stated fails: an alignment outside `left`, `center`, `right` is
handed to `render` as it is, not replaced by `left`. -/
theorem updateLyricKeyOptions_counterexample :
    ¬ (∀ d : KeyData, ValidOrDefault validAlign d.primaryAlign
        (updateLyricKeyOptions (some d)).primaryAlign (JSValue.string (utf16 "left"))) := by
  intro h
  have := h (alignOnlyData (JSValue.string (utf16 "middle")))
  revert this
  unfold ValidOrDefault
  decide

/-- Claim C19, amended. Every option that `updateLyricKey` hands to `render` is the
supplied value when that one is present (truthy; for the two top paddings: neither
`undefined` nor `null`; for the two switches: anything but `false` counts as on)
and the fixed default otherwise. So a valid supplied value is passed unchanged and
no option reaches `render` undefined; a present value is not checked further. -/
theorem updateLyricKeyOptions_defaults (d : KeyData) :
    (PassesOrDefault JSValue.truthy d.backgroundColor (updateLyricKeyOptions (some d)).backgroundColor
        (JSValue.string (utf16 "#1a1a1a"))
      ∧ PassesOrDefault JSValue.truthy d.primaryAlign (updateLyricKeyOptions (some d)).primaryAlign
        (JSValue.string (utf16 "left"))
      ∧ PassesOrDefault JSValue.truthy d.primaryFontSize (updateLyricKeyOptions (some d)).primaryFontSize
        (JSValue.number 18)
      ∧ PassesOrDefault JSValue.truthy d.primaryColor (updateLyricKeyOptions (some d)).primaryColor
        (JSValue.string (utf16 "#FFFFFF"))
      ∧ PassesOrDefault JSValue.truthy d.highlightColor (updateLyricKeyOptions (some d)).highlightColor
        (JSValue.string (utf16 "#E60026"))
      ∧ PassesOrDefault JSValue.truthy d.secondaryAlign (updateLyricKeyOptions (some d)).secondaryAlign
        (JSValue.string (utf16 "left"))
      ∧ PassesOrDefault JSValue.truthy d.secondaryFontSize (updateLyricKeyOptions (some d)).secondaryFontSize
        (JSValue.number 13)
      ∧ PassesOrDefault JSValue.truthy d.secondaryColor (updateLyricKeyOptions (some d)).secondaryColor
        (JSValue.string (utf16 "#888888"))
      ∧ PassesOrDefault JSValue.truthy d.paddingHorizontal (updateLyricKeyOptions (some d)).paddingHorizontal
        (JSValue.number 10)
      ∧ PassesOrDefault JSValue.defined d.primaryPaddingTop (updateLyricKeyOptions (some d)).primaryPaddingTop
        (JSValue.number 5)
      ∧ PassesOrDefault JSValue.defined d.secondaryPaddingTop (updateLyricKeyOptions (some d)).secondaryPaddingTop
        (JSValue.number 28))
    ∧ ((updateLyricKeyOptions (some d)).showTranslation = true ↔ d.showTranslation ≠ JSValue.bool false)
    ∧ ((updateLyricKeyOptions (some d)).highlightWord = true ↔ d.highlightWord ≠ JSValue.bool false)
    ∧ ((validColour d.backgroundColor = true → (updateLyricKeyOptions (some d)).backgroundColor = d.backgroundColor)
      ∧ (validAlign d.primaryAlign = true → (updateLyricKeyOptions (some d)).primaryAlign = d.primaryAlign)
      ∧ (validSize d.primaryFontSize = true → (updateLyricKeyOptions (some d)).primaryFontSize = d.primaryFontSize)
      ∧ (validColour d.primaryColor = true → (updateLyricKeyOptions (some d)).primaryColor = d.primaryColor)
      ∧ (validColour d.highlightColor = true → (updateLyricKeyOptions (some d)).highlightColor = d.highlightColor)
      ∧ (validAlign d.secondaryAlign = true → (updateLyricKeyOptions (some d)).secondaryAlign = d.secondaryAlign)
      ∧ (validSize d.secondaryFontSize = true → (updateLyricKeyOptions (some d)).secondaryFontSize = d.secondaryFontSize)
      ∧ (validColour d.secondaryColor = true → (updateLyricKeyOptions (some d)).secondaryColor = d.secondaryColor)
      ∧ (validSize d.paddingHorizontal = true → (updateLyricKeyOptions (some d)).paddingHorizontal = d.paddingHorizontal)
      ∧ (validSize d.primaryPaddingTop = true → (updateLyricKeyOptions (some d)).primaryPaddingTop = d.primaryPaddingTop)
      ∧ (validSize d.secondaryPaddingTop = true → (updateLyricKeyOptions (some d)).secondaryPaddingTop = d.secondaryPaddingTop))
    ∧ ((updateLyricKeyOptions (some d)).backgroundColor ≠ JSValue.undefined
      ∧ (updateLyricKeyOptions (some d)).primaryAlign ≠ JSValue.undefined
      ∧ (updateLyricKeyOptions (some d)).primaryFontSize ≠ JSValue.undefined
      ∧ (updateLyricKeyOptions (some d)).primaryColor ≠ JSValue.undefined
      ∧ (updateLyricKeyOptions (some d)).highlightColor ≠ JSValue.undefined
      ∧ (updateLyricKeyOptions (some d)).secondaryAlign ≠ JSValue.undefined
      ∧ (updateLyricKeyOptions (some d)).secondaryFontSize ≠ JSValue.undefined
      ∧ (updateLyricKeyOptions (some d)).secondaryColor ≠ JSValue.undefined
      ∧ (updateLyricKeyOptions (some d)).paddingHorizontal ≠ JSValue.undefined
      ∧ (updateLyricKeyOptions (some d)).primaryPaddingTop ≠ JSValue.undefined
      ∧ (updateLyricKeyOptions (some d)).secondaryPaddingTop ≠ JSValue.undefined)
    ∧ updateLyricKeyOptions none = updateLyricKeyOptions (some KeyData.empty) := by
  refine ⟨⟨orDefault_passes _ _,
    orDefault_passes _ _,
    orDefault_passes _ _,
    orDefault_passes _ _,
    orDefault_passes _ _,
    orDefault_passes _ _,
    orDefault_passes _ _,
    orDefault_passes _ _,
    orDefault_passes _ _,
    nullishDefault_passes _ _,
    nullishDefault_passes _ _⟩, ?_, ?_, ⟨fun h => (orDefault_passes _ _).1 (truthy_of_validColour _ h),
    fun h => (orDefault_passes _ _).1 (truthy_of_validAlign _ h),
    fun h => (orDefault_passes _ _).1 (truthy_of_validSize _ h),
    fun h => (orDefault_passes _ _).1 (truthy_of_validColour _ h),
    fun h => (orDefault_passes _ _).1 (truthy_of_validColour _ h),
    fun h => (orDefault_passes _ _).1 (truthy_of_validAlign _ h),
    fun h => (orDefault_passes _ _).1 (truthy_of_validSize _ h),
    fun h => (orDefault_passes _ _).1 (truthy_of_validColour _ h),
    fun h => (orDefault_passes _ _).1 (truthy_of_validSize _ h),
    fun h => (nullishDefault_passes _ _).1 (defined_of_validSize _ h),
    fun h => (nullishDefault_passes _ _).1 (defined_of_validSize _ h)⟩, ⟨orDefault_ne_undefined _ _ (by decide),
    orDefault_ne_undefined _ _ (by decide),
    orDefault_ne_undefined _ _ (by decide),
    orDefault_ne_undefined _ _ (by decide),
    orDefault_ne_undefined _ _ (by decide),
    orDefault_ne_undefined _ _ (by decide),
    orDefault_ne_undefined _ _ (by decide),
    orDefault_ne_undefined _ _ (by decide),
    orDefault_ne_undefined _ _ (by decide),
    nullishDefault_ne_undefined _ _ (by decide),
    nullishDefault_ne_undefined _ _ (by decide)⟩, rfl⟩
  · simp [updateLyricKeyOptions, JSValue.notFalse]
  · simp [updateLyricKeyOptions, JSValue.notFalse]

theorem updateLyricKeyOptions_invalid_pass :
    (updateLyricKeyOptions (some (alignOnlyData (JSValue.string (utf16 "middle"))))).primaryAlign
      = JSValue.string (utf16 "middle")
    ∧ (updateLyricKeyOptions (some { KeyData.empty with
        primaryColor := JSValue.string (utf16 "red") })).primaryColor
      = JSValue.string (utf16 "red")
    ∧ (updateLyricKeyOptions (some { KeyData.empty with
        primaryFontSize := JSValue.number (-5) })).primaryFontSize = JSValue.number (-5)
    ∧ (updateLyricKeyOptions (some { KeyData.empty with
        primaryPaddingTop := JSValue.string (utf16 "abc") })).primaryPaddingTop
      = JSValue.string (utf16 "abc")
    ∧ (updateLyricKeyOptions (some { KeyData.empty with
        paddingHorizontal := JSValue.number 0 })).paddingHorizontal = JSValue.number 10 := by
  refine ⟨by decide, by decide, ?_, by decide, ?_⟩ <;> with_unfolding_all decide
/-! ## Every path yields a frame -/

theorem readProp_undefined :
    readProp (none : Option LyricLine) (fun l => l.originalLyric)
      = Except.error JSError.typeError := rfl

theorem interpolateColorValue_string (p h : Str) (q : ℚ) :
    interpolateColorValue (JSValue.string p) (JSValue.string h) q
      = Except.ok (interpolateColor p h q) := rfl

theorem gradientLoopChecked_ok (measure : Str → ℚ) (r : LyricRenderer) (nowPaint : Int)
    (ctx : Ctx) (y : ℚ) (highlightedChars : Int) (p h : Str) :
    ∀ (chars : List Str) (i : Nat) (x : ℚ),
      gradientLoopChecked measure r nowPaint ctx y highlightedChars p h
          (interpolateColorValue (JSValue.string p) (JSValue.string h)) i chars x
        = Except.ok (gradientLoop measure r nowPaint ctx y highlightedChars p h i chars x) := by
  intro chars
  induction chars with
  | nil =>
    intro i x
    rfl
  | cons c rest ih =>
    intro i x
    rw [gradientLoopChecked, gradientLoop]
    simp only [ih, interpolateColorValue_string]
    by_cases h1 : (i : Int) < highlightedChars
    · simp [h1, bind, Except.bind]
    · by_cases h2 : (i : Int) = highlightedChars
      · simp [h2, bind, Except.bind]
      · simp [h1, h2, bind, Except.bind]

theorem lineLoopChecked_ok (measure : Str → ℚ) (r : LyricRenderer) (nowPaint : Int)
    (ctx : Ctx) (isCJK : Bool) (n : Nat) (wordIndex highlightedChars : Int) (limit lineY : ℚ)
    (p h : Str) :
    ∀ (words : List Str) (i : Nat) (x : ℚ),
      lineLoopChecked measure r nowPaint ctx isCJK n wordIndex highlightedChars limit lineY p h
          (interpolateColorValue (JSValue.string p) (JSValue.string h)) i words x
        = Except.ok (lineLoop measure r nowPaint ctx isCJK n wordIndex highlightedChars limit
            lineY p h i words x) := by
  intro words
  induction words with
  | nil =>
    intro i x
    rfl
  | cons w rest ih =>
    intro i x
    rw [lineLoopChecked, lineLoop]
    simp only [ih, gradientLoopChecked_ok, renderWordWithGradient]
    split_ifs <;> simp [bind, Except.bind]

theorem centeredLoopChecked_ok (measure : Str → ℚ) (r : LyricRenderer) (nowPaint : Int)
    (ctx : Ctx) (isCJK : Bool) (n : Nat) (wordIndex highlightedChars : Int)
    (limit centerY : ℚ) (p h : Str) :
    ∀ (words : List Str) (i : Nat) (x : ℚ),
      centeredLoopChecked measure r nowPaint ctx isCJK n wordIndex highlightedChars limit
          centerY p h (interpolateColorValue (JSValue.string p) (JSValue.string h)) i words x
        = Except.ok (centeredLoop measure r nowPaint ctx isCJK n wordIndex highlightedChars
            limit centerY p h i words x) := by
  intro words
  induction words with
  | nil =>
    intro i x
    rfl
  | cons w rest ih =>
    intro i x
    rw [centeredLoopChecked, centeredLoop]
    simp only [ih, gradientLoopChecked_ok, renderWordWithGradientCentered]
    split_ifs <;> simp [bind, Except.bind]

theorem renderCurrentLineChecked_ok (measure : Font → Str → ℚ) (r : LyricRenderer)
    (now nowPaint : Int) (line : Option LyricLine) (lineIndex : Int) (wordIndex : Option Int)
    (highlightWord : Bool) (config : LineConfig) :
    renderCurrentLineChecked measure r now nowPaint line lineIndex wordIndex highlightWord
        config (interpolateColorValue (JSValue.string config.primaryColor)
          (JSValue.string config.highlightColor))
      = Except.ok (renderCurrentLine measure r now nowPaint line lineIndex wordIndex
          highlightWord config) := by
  unfold renderCurrentLineChecked renderCurrentLine
  cases line with
  | none => rfl
  | some line =>
    simp only
    split
    · rfl
    · split
      · split
        · simp only [lineLoopChecked_ok, bind, Except.bind]
        · rfl
      · rfl

theorem renderCurrentLineCenteredChecked_ok (measure : Font → Str → ℚ) (r : LyricRenderer)
    (now nowPaint : Int) (line : Option LyricLine) (lineIndex : Int) (wordIndex : Option Int)
    (highlightWord : Bool) (config : CenteredConfig) :
    renderCurrentLineCenteredChecked measure r now nowPaint line lineIndex wordIndex
        highlightWord config (interpolateColorValue (JSValue.string config.primaryColor)
          (JSValue.string config.highlightColor))
      = Except.ok (renderCurrentLineCentered measure r now nowPaint line lineIndex wordIndex
          highlightWord config) := by
  unfold renderCurrentLineCenteredChecked renderCurrentLineCentered
  cases line with
  | none => rfl
  | some line =>
    simp only
    split
    · rfl
    · split
      · split
        · simp only [centeredLoopChecked_ok, bind, Except.bind]
        · rfl
      · rfl

theorem renderCurrentLineChecked_eq (measure : Font → Str → ℚ) (r : LyricRenderer)
    (now nowPaint : Int) (line : Option LyricLine) (lineIndex : Int) (wordIndex : Option Int)
    (highlightWord : Bool) (config : LineConfig) (p h : Str)
    (hp : config.primaryColor = p) (hh : config.highlightColor = h) :
    renderCurrentLineChecked measure r now nowPaint line lineIndex wordIndex highlightWord
        config (interpolateColorValue (JSValue.string p) (JSValue.string h))
      = Except.ok (renderCurrentLine measure r now nowPaint line lineIndex wordIndex
          highlightWord config) := by
  subst hp hh
  exact renderCurrentLineChecked_ok measure r now nowPaint line lineIndex wordIndex
    highlightWord config

theorem renderCurrentLineCenteredChecked_eq (measure : Font → Str → ℚ) (r : LyricRenderer)
    (now nowPaint : Int) (line : Option LyricLine) (lineIndex : Int) (wordIndex : Option Int)
    (highlightWord : Bool) (config : CenteredConfig) (p h : Str)
    (hp : config.primaryColor = p) (hh : config.highlightColor = h) :
    renderCurrentLineCenteredChecked measure r now nowPaint line lineIndex wordIndex
        highlightWord config (interpolateColorValue (JSValue.string p) (JSValue.string h))
      = Except.ok (renderCurrentLineCentered measure r now nowPaint line lineIndex wordIndex
          highlightWord config) := by
  subst hp hh
  exact renderCurrentLineCenteredChecked_ok measure r now nowPaint line lineIndex wordIndex
    highlightWord config

theorem renderChecked_ok (other : JSValue → Str) (canvasAccepts : ℚ → ℚ → Bool)
    (measure : Font → Str → ℚ) (r : LyricRenderer) (now nowPaint : Int)
    (currentLyric : Option LyricPosition) (song : Option Song) (options : RawOptions)
    (width height : ℚ) (p h : Str) (hp : options.primaryColor = JSValue.string p)
    (hh : options.highlightColor = JSValue.string h) (hc : canvasAccepts width height = true) :
    renderChecked other canvasAccepts measure r now nowPaint currentLyric song options
        width height
      = Except.ok (render measure r now nowPaint currentLyric song (options.texts other)
          width height) := by
  have tp : (options.texts other).primaryColor = p := by
    simp [RawOptions.texts, hp, styleText]
  have th : (options.texts other).highlightColor = h := by
    simp [RawOptions.texts, hh, styleText]
  generalize hto : options.texts other = o at tp th
  have hdual : ∀ (r0 : LyricRenderer) (line : Option LyricLine) (li : Int)
      (wi : Option Int) (mw : ℚ),
      renderCurrentLineChecked measure r0 now nowPaint line li wi o.highlightWord
          { x := o.paddingHorizontal, y := o.primaryPaddingTop, maxWidth := mw,
            fontSize := o.primaryFontSize, align := o.primaryAlign,
            primaryColor := o.primaryColor, highlightColor := o.highlightColor }
          (interpolateColorValue options.primaryColor options.highlightColor)
        = Except.ok (renderCurrentLine measure r0 now nowPaint line li wi o.highlightWord
          { x := o.paddingHorizontal, y := o.primaryPaddingTop, maxWidth := mw,
            fontSize := o.primaryFontSize, align := o.primaryAlign,
            primaryColor := o.primaryColor, highlightColor := o.highlightColor }) := by
    intro r0 line li wi mw
    rw [hp, hh]
    exact renderCurrentLineChecked_eq measure r0 now nowPaint line li wi _ _ p h tp th
  have hsingle : ∀ (r0 : LyricRenderer) (line : Option LyricLine) (li : Int)
      (wi : Option Int) (mw cy : ℚ),
      renderCurrentLineCenteredChecked measure r0 now nowPaint line li wi o.highlightWord
          { padding := o.paddingHorizontal, centerY := cy, maxWidth := mw,
            fontSize := o.primaryFontSize + 2, align := o.primaryAlign,
            primaryColor := o.primaryColor, highlightColor := o.highlightColor }
          (interpolateColorValue options.primaryColor options.highlightColor)
        = Except.ok (renderCurrentLineCentered measure r0 now nowPaint line li wi
          o.highlightWord
          { padding := o.paddingHorizontal, centerY := cy, maxWidth := mw,
            fontSize := o.primaryFontSize + 2, align := o.primaryAlign,
            primaryColor := o.primaryColor, highlightColor := o.highlightColor }) := by
    intro r0 line li wi mw cy
    rw [hp, hh]
    exact renderCurrentLineCenteredChecked_eq measure r0 now nowPaint line li wi _ _ p h tp th
  unfold renderChecked
  simp only [hto, hc, Bool.not_true, Bool.false_eq_true, if_false]
  cases currentLyric with
  | none => simp [render]
  | some cl =>
    obtain ⟨lineIndex, wordIndex, line, nextLine⟩ := cl
    cases lineIndex with
    | none => simp [render, readProp, bind, Except.bind]
    | some li =>
      by_cases hli : li < 0
      · simp [render, readProp, bind, Except.bind, hli]
      · cases line with
        | none => simp [render, readProp, bind, Except.bind, hli]
        | some line =>
          by_cases ht : truthy line.originalLyric = true
          · cases hT : o.showTranslation <;> cases hL : truthy line.translatedLyric <;>
              cases nextLine with
              | none =>
                simp [render, readProp, bind, Except.bind, hli, ht, hT, hL,
                  hasTranslation, hasNextLine, hdual, hsingle]
              | some nl =>
                cases hN : truthy nl.originalLyric <;>
                  simp [render, readProp, bind, Except.bind, hli, ht, hT, hL,
                    hN, hasTranslation, hasNextLine, hdual, hsingle]
          · simp [render, readProp, bind, Except.bind, hli, ht]

/-- Claim C20 as stated fails: `updateLyricKey` hands a `primaryColor` of 123 on to
`render` as it is, and `render`, on the first word of a line with word highlighting
on, blends the colour of the character being highlighted, where `parseColor` calls
`startsWith` on the number and raises a `TypeError`: no frame is returned. -/
theorem render_numeric_colour_counterexample :
    (updateLyricKeyOptions (some numericColourData)).primaryColor = JSValue.number 123
    ∧ numericColourOptions.primaryColor = JSValue.number 123
    ∧ renderChecked noStyle anyCanvas sampleMeasure LyricRenderer.new 0 0
        (some animatedPosition) none numericColourOptions 480 60
        = Except.error JSError.typeError := by
  refine ⟨by decide, by decide, ?_⟩
  with_unfolding_all decide

/-- Claim C20, amended. For every position (absent, partial or complete), song,
dimensions that the canvas accepts, and options whose `primaryColor` and
`highlightColor` are strings (well-formed colours or not, whatever the other two
colours are), `render` returns a frame and raises nothing: no property read raises,
the blend of two colour texts is an `rgb(...)` text, the frame starts with the
background fill, and the truncation loop ends within as many iterations as the text
has code units. -/
theorem render_always_frame (other : JSValue → Str) (canvasAccepts : ℚ → ℚ → Bool)
    (measure : Font → Str → ℚ) (r : LyricRenderer) (now nowPaint : Int)
    (currentLyric : Option LyricPosition) (song : Option Song) (options : RawOptions)
    (width height : ℚ) (p h : Str) (hp : options.primaryColor = JSValue.string p)
    (hh : options.highlightColor = JSValue.string h) (hc : canvasAccepts width height = true) :
    renderChecked other canvasAccepts measure r now nowPaint currentLyric song options
        width height
      = Except.ok (render measure r now nowPaint currentLyric song (options.texts other)
          width height)
    ∧ (∃ rest, (render measure r now nowPaint currentLyric song (options.texts other)
          width height).ops
        = DrawOp.fillRect (styleText other options.backgroundColor) 0 0 width height :: rest)
    ∧ (∀ progress : ℚ, ∃ body,
        interpolateColorValue options.primaryColor options.highlightColor progress
          = Except.ok (utf16 "rgb(" ++ body ++ utf16 ")"))
    ∧ (∀ (m : Str → ℚ) (text : Str) (maxWidth w : ℚ) (fuel : Nat), text.length ≤ fuel →
        truncateLoop m maxWidth fuel text w = truncateLoop m maxWidth text.length text w) := by
  refine ⟨renderChecked_ok other canvasAccepts measure r now nowPaint currentLyric song
    options width height p h hp hh hc, ?_, ?_, ?_⟩
  · have hb : (options.texts other).backgroundColor
        = styleText other options.backgroundColor := rfl
    rw [← hb]
    generalize options.texts other = o
    cases hm : positionMissing currentLyric with
    | true =>
      rw [render_of_missing measure r now nowPaint currentLyric song o width height hm]
      exact ⟨_, rfl⟩
    | false =>
      obtain ⟨cl, line, li, h1, h2, h3, h4, h5⟩ := position_present currentLyric hm
      subst h1
      rw [render_of_present measure r now nowPaint cl line li song o width height h2 h3 h4 h5]
      split <;> exact ⟨_, rfl⟩
  · intro progress
    rw [hp, hh, interpolateColorValue_string]
    refine ⟨numberToStr (mathRound (interpolateChannel (parseColor p).r
        (parseColor h).r (toDouble progress))) ++ utf16 ", " ++
      numberToStr (mathRound (interpolateChannel (parseColor p).g
        (parseColor h).g (toDouble progress))) ++ utf16 ", " ++
      numberToStr (mathRound (interpolateChannel (parseColor p).b
        (parseColor h).b (toDouble progress))), ?_⟩
    simp only [interpolateColor, rgbToColor, List.append_assoc]
  · intro m text maxWidth w fuel hf
    exact truncateLoop_fuel_stable m maxWidth fuel text w hf

theorem render_always_frame_witness :
    pluginDefaultOptions.raw.primaryColor = JSValue.string DEFAULT_PRIMARY
    ∧ pluginDefaultOptions.raw.highlightColor = JSValue.string DEFAULT_HIGHLIGHT
    ∧ anyCanvas 480 60 = true
    ∧ renderChecked noStyle anyCanvas sampleMeasure LyricRenderer.new 0 0
        (some animatedPosition) none pluginDefaultOptions.raw 480 60
      = Except.ok (render sampleMeasure LyricRenderer.new 0 0 (some animatedPosition) none
          (pluginDefaultOptions.raw.texts noStyle) 480 60) :=
  ⟨rfl, rfl, rfl,
    (render_always_frame noStyle anyCanvas sampleMeasure LyricRenderer.new 0 0
      (some animatedPosition) none pluginDefaultOptions.raw 480 60 DEFAULT_PRIMARY
      DEFAULT_HIGHLIGHT rfl rfl rfl).1⟩

/-! ## The gradient of the current word -/

theorem gradientLoop_length (measure : Str → ℚ) (r : LyricRenderer) (nowPaint : Int) (ctx : Ctx)
    (y : ℚ) (highlightedChars : Int) (primaryColor highlightColor : Str) (chars : List Str) :
    ∀ (k : Nat) (x : ℚ),
      (gradientLoop measure r nowPaint ctx y highlightedChars primaryColor highlightColor
        k chars x).length = chars.length := by
  induction chars with
  | nil => intro k x; rfl
  | cons c rest ih =>
    intro k x
    simp only [gradientLoop, List.length_cons, ih]

theorem gradientLoop_get (measure : Str → ℚ) (r : LyricRenderer) (nowPaint : Int) (ctx : Ctx)
    (y : ℚ) (highlightedChars : Int) (primaryColor highlightColor : Str) (chars : List Str) :
    ∀ (k : Nat) (x : ℚ) (i : Nat) (ch : Str), chars[i]? = some ch →
      (gradientLoop measure r nowPaint ctx y highlightedChars primaryColor highlightColor
          k chars x)[i]?
        = some (DrawOp.fillText
            { ctx with fillStyle := (gradientColour primaryColor highlightColor highlightedChars
                (gradientProgress r nowPaint) (k + i)) }
            ch (charX measure chars x i) y) := by
  induction chars with
  | nil =>
    intro k x i ch h
    simp at h
  | cons c rest ih =>
    intro k x i ch h
    cases i with
    | zero =>
      simp only [List.getElem?_cons_zero, Option.some.injEq] at h
      subst h
      simp only [gradientLoop, List.getElem?_cons_zero, Nat.add_zero, charX, List.take_zero,
        List.map_nil, List.sum_nil, add_zero, gradientColour]
      congr 3
      by_cases h1 : (k : Int) < highlightedChars
      · simp [h1]
      · by_cases h2 : (k : Int) = highlightedChars
        · simp [h2]
        · have h3 : (k : Int) > highlightedChars := by omega
          simp [h1, h2, h3]
    | succ j =>
      simp only [List.getElem?_cons_succ] at h
      simp only [gradientLoop, List.getElem?_cons_succ]
      rw [ih (k + 1) (x + measure c) j ch h]
      have e1 : k + 1 + j = k + (j + 1) := by omega
      have e2 : charX measure rest (x + measure c) j = charX measure (c :: rest) x (j + 1) := by
        simp only [charX, List.take_succ_cons, List.map_cons, List.sum_cons]
        ring
      rw [e1, e2]

theorem gradientProgress_range (r : LyricRenderer) (nowPaint : Int)
    (h : r.wordStartTime ≤ nowPaint) :
    0 ≤ gradientProgress r nowPaint ∧ gradientProgress r nowPaint < 1
      ∧ gradientProgress r nowPaint
          = (((nowPaint - r.wordStartTime) % 35 : Int) : ℚ) / 35 := by
  have hnn : 0 ≤ nowPaint - r.wordStartTime := by omega
  have e : (nowPaint - r.wordStartTime).tmod CHAR_INTERVAL_MS
      = (nowPaint - r.wordStartTime) % 35 := by
    simp only [CHAR_INTERVAL_MS]
    exact Int.tmod_eq_emod hnn (by decide)
  have h0 : 0 ≤ (nowPaint - r.wordStartTime) % 35 := Int.emod_nonneg _ (by decide)
  have h1 : (nowPaint - r.wordStartTime) % 35 < 35 := Int.emod_lt_of_pos _ (by decide)
  have c0 : (0 : ℚ) ≤ (((nowPaint - r.wordStartTime) % 35 : Int) : ℚ) := by exact_mod_cast h0
  have c1 : (((nowPaint - r.wordStartTime) % 35 : Int) : ℚ) < 35 := by exact_mod_cast h1
  have hval : gradientProgress r nowPaint
      = (((nowPaint - r.wordStartTime) % 35 : Int) : ℚ) / 35 := by
    unfold gradientProgress
    rw [e]
    simp [CHAR_INTERVAL_MS]
  rw [hval]
  refine ⟨div_nonneg c0 (by norm_num), ?_, rfl⟩
  rw [div_lt_one (by norm_num)]
  exact c1

theorem gradientColour_fraction (primaryColor highlightColor : Str) (highlightedChars : Int)
    (f g : ℚ) (i : Nat) (h : (i : Int) ≠ highlightedChars) :
    gradientColour primaryColor highlightColor highlightedChars f i
      = gradientColour primaryColor highlightColor highlightedChars g i := by
  unfold gradientColour
  by_cases h1 : (i : Int) < highlightedChars
  · simp [h1]
  · have h3 : (i : Int) > highlightedChars := by omega
    simp [h1, h3]

theorem gradientLoop_fraction (measure : Str → ℚ) (r : LyricRenderer) (nowPaint nowPaint2 : Int)
    (ctx : Ctx) (y : ℚ) (highlightedChars : Int) (primaryColor highlightColor : Str)
    (chars : List Str) (x : ℚ) (i : Nat) (h : (i : Int) ≠ highlightedChars) :
    (gradientLoop measure r nowPaint ctx y highlightedChars primaryColor highlightColor
        0 chars x)[i]?
      = (gradientLoop measure r nowPaint2 ctx y highlightedChars primaryColor highlightColor
        0 chars x)[i]? := by
  cases hc : chars[i]? with
  | none =>
    have hl : chars.length ≤ i := List.getElem?_eq_none_iff.1 hc
    rw [List.getElem?_eq_none_iff.2, List.getElem?_eq_none_iff.2]
    · rw [gradientLoop_length]
      exact hl
    · rw [gradientLoop_length]
      exact hl
  | some ch =>
    rw [gradientLoop_get measure r nowPaint ctx y highlightedChars primaryColor highlightColor
        chars 0 x i ch hc,
      gradientLoop_get measure r nowPaint2 ctx y highlightedChars primaryColor highlightColor
        chars 0 x i ch hc]
    simp only [Nat.zero_add]
    rw [gradientColour_fraction primaryColor highlightColor highlightedChars
      (gradientProgress r nowPaint) (gradientProgress r nowPaint2) i h]

/-- Claim C21 as stated fails: when the clock reading at paint time is before
`wordStartTime`, the remainder `%` is negative and so is the blend fraction. -/
theorem gradient_fraction_counterexample :
    ¬ (∀ (r : LyricRenderer) (nowPaint : Int),
        0 ≤ gradientProgress r nowPaint ∧ gradientProgress r nowPaint < 1) := by
  intro h
  have := (h ⟨true, 1, 2, 1000, 5⟩ 995).1
  revert this
  with_unfolding_all decide

/-- Claim C21, amended. `renderWordWithGradient` and `renderWordWithGradientCentered`
paint one call per character of the word, character `i` in `highlightColor` when
`i < highlightedChars`, in `primaryColor` when `i > highlightedChars`, and in
`interpolateColor(primaryColor, highlightColor, f)` when `i = highlightedChars`,
with `f = ((now - wordStartTime) % 35) / 35`; when the clock reading is not before
`wordStartTime`, `f` lies in `[0, 1)`; and `f` touches no call but that of character
`highlightedChars`. -/
theorem gradient_char_colours (measure : Str → ℚ) (r : LyricRenderer) (nowPaint : Int)
    (ctx : Ctx) (word : Str) (x y : ℚ) (highlightedChars : Int)
    (primaryColor highlightColor : Str) :
    ((renderWordWithGradient measure r nowPaint ctx word x y highlightedChars primaryColor
          highlightColor).length = (arrayFrom word).length
      ∧ ∀ (i : Nat) (ch : Str), (arrayFrom word)[i]? = some ch →
          (renderWordWithGradient measure r nowPaint ctx word x y highlightedChars primaryColor
              highlightColor)[i]?
            = some (DrawOp.fillText
                { ctx with fillStyle := (gradientColour primaryColor highlightColor
                    highlightedChars (gradientProgress r nowPaint) i) }
                ch (charX measure (arrayFrom word) x i) y))
    ∧ ((renderWordWithGradientCentered measure r nowPaint ctx word x y highlightedChars
          primaryColor highlightColor).length = (arrayFrom word).length
      ∧ ∀ (i : Nat) (ch : Str), (arrayFrom word)[i]? = some ch →
          (renderWordWithGradientCentered measure r nowPaint ctx word x y highlightedChars
              primaryColor highlightColor)[i]?
            = some (DrawOp.fillText
                { ctx with fillStyle := (gradientColour primaryColor highlightColor
                    highlightedChars (gradientProgress r nowPaint) i) }
                ch (charX measure (arrayFrom word) x i) y))
    ∧ (r.wordStartTime ≤ nowPaint →
        0 ≤ gradientProgress r nowPaint ∧ gradientProgress r nowPaint < 1
          ∧ gradientProgress r nowPaint
              = (((nowPaint - r.wordStartTime) % 35 : Int) : ℚ) / 35)
    ∧ (∀ (nowPaint2 : Int) (i : Nat), (i : Int) ≠ highlightedChars →
        (renderWordWithGradient measure r nowPaint ctx word x y highlightedChars primaryColor
            highlightColor)[i]?
          = (renderWordWithGradient measure r nowPaint2 ctx word x y highlightedChars
            primaryColor highlightColor)[i]?
        ∧ (renderWordWithGradientCentered measure r nowPaint ctx word x y highlightedChars
            primaryColor highlightColor)[i]?
          = (renderWordWithGradientCentered measure r nowPaint2 ctx word x y highlightedChars
            primaryColor highlightColor)[i]?) := by
  have hget : ∀ (i : Nat) (ch : Str), (arrayFrom word)[i]? = some ch →
      (gradientLoop measure r nowPaint ctx y highlightedChars primaryColor highlightColor
          0 (arrayFrom word) x)[i]?
        = some (DrawOp.fillText
            { ctx with fillStyle := (gradientColour primaryColor highlightColor
                highlightedChars (gradientProgress r nowPaint) i) }
            ch (charX measure (arrayFrom word) x i) y) := by
    intro i ch hc
    have := gradientLoop_get measure r nowPaint ctx y highlightedChars primaryColor
      highlightColor (arrayFrom word) 0 x i ch hc
    simpa only [Nat.zero_add] using this
  refine ⟨⟨gradientLoop_length _ _ _ _ _ _ _ _ _ _ _, hget⟩,
    ⟨gradientLoop_length _ _ _ _ _ _ _ _ _ _ _, hget⟩,
    gradientProgress_range r nowPaint, ?_⟩
  intro nowPaint2 i hi
  exact ⟨gradientLoop_fraction measure r nowPaint nowPaint2 ctx y highlightedChars primaryColor
      highlightColor (arrayFrom word) x i hi,
    gradientLoop_fraction measure r nowPaint nowPaint2 ctx y highlightedChars primaryColor
      highlightColor (arrayFrom word) x i hi⟩

/-! ## Spaces between units -/

theorem lineLoop_spaces (measure : Str → ℚ) (r : LyricRenderer) (nowPaint : Int) (ctx : Ctx)
    (isCJK : Bool) (n : Nat) (wordIndex highlightedChars : Int) (limit lineY : ℚ)
    (primaryColor highlightColor : Str) (rest : List Str) :
    ∀ (i : Nat) (currentX : ℚ), ∃ (painted : List PaintedUnit) (tail : List DrawOp),
      lineLoop measure r nowPaint ctx isCJK n wordIndex highlightedChars limit lineY
          primaryColor highlightColor i rest currentX
        = paintedByRule (fun w x => renderWordWithGradient measure r nowPaint ctx w x lineY
            highlightedChars primaryColor highlightColor) ctx wordIndex primaryColor
            highlightColor lineY i painted tail
      ∧ painted.map (fun u => u.word) <+: rest
      ∧ (∀ p ∈ List.enumFrom i painted,
          p.2.spaceOps = spaceRule measure ctx isCJK n wordIndex primaryColor highlightColor
            lineY p.1 p.2)
      ∧ (tail = [] ∨ ∃ x, tail = [DrawOp.fillText { ctx with fillStyle := primaryColor }
            ELLIPSIS x lineY]) := by
  induction rest with
  | nil =>
    intro i currentX
    exact ⟨[], [], by simp [lineLoop, paintedByRule], by simp, by simp, Or.inl rfl⟩
  | cons word rest ih =>
    intro i currentX
    by_cases hov : currentX + measure word > limit
    · refine ⟨[], _, ?_, by simp, by simp, Or.inr ⟨currentX, rfl⟩⟩
      simp [lineLoop, hov, paintedByRule]
    · by_cases hsp : (!isCJK) = true ∧ (i : Int) < (n : Int) - 1
      · obtain ⟨painted, tail, he, hpre, hspace, htail⟩ :=
          ih (i + 1) (currentX + measure word + measure SPACE)
        refine ⟨⟨word, currentX, [DrawOp.fillText
            { ctx with fillStyle := if (i : Int) < wordIndex then highlightColor else primaryColor }
            SPACE (currentX + measure word) lineY]⟩ :: painted, tail, ?_, ?_, ?_, htail⟩
        · simp only [lineLoop, hov, if_false, hsp, and_self, if_true]
          rw [he]
          simp [paintedByRule, unitColourRule, List.enumFrom_cons]
        · simpa using hpre
        · intro p hp
          rw [List.enumFrom_cons] at hp
          rcases List.mem_cons.1 hp with e | e
          · subst e
            have h1 : isCJK = false := by simpa using hsp.1
            have h2 : (i : Int) + 1 < (n : Int) := by omega
            simp only [spaceRule, h1, h2, and_self, if_true]
          · exact hspace p e
      · obtain ⟨painted, tail, he, hpre, hspace, htail⟩ := ih (i + 1) (currentX + measure word)
        refine ⟨⟨word, currentX, []⟩ :: painted, tail, ?_, ?_, ?_, htail⟩
        · simp only [lineLoop, hov, if_false, hsp]
          rw [he]
          simp [paintedByRule, unitColourRule, List.enumFrom_cons]
        · simpa using hpre
        · intro p hp
          rw [List.enumFrom_cons] at hp
          rcases List.mem_cons.1 hp with e | e
          · subst e
            have h3 : ¬ (isCJK = false ∧ (i : Int) + 1 < (n : Int)) := by
              rintro ⟨h1, h2⟩
              apply hsp
              exact ⟨by simp [h1], by omega⟩
            simp only [spaceRule, h3, if_false]
          · exact hspace p e

theorem centeredLoop_spaces (measure : Str → ℚ) (r : LyricRenderer) (nowPaint : Int) (ctx : Ctx)
    (isCJK : Bool) (n : Nat) (wordIndex highlightedChars : Int) (limit lineY : ℚ)
    (primaryColor highlightColor : Str) (rest : List Str) :
    ∀ (i : Nat) (currentX : ℚ), ∃ (painted : List PaintedUnit) (tail : List DrawOp),
      centeredLoop measure r nowPaint ctx isCJK n wordIndex highlightedChars limit lineY
          primaryColor highlightColor i rest currentX
        = paintedByRule (fun w x => renderWordWithGradientCentered measure r nowPaint ctx w x lineY
            highlightedChars primaryColor highlightColor) ctx wordIndex primaryColor
            highlightColor lineY i painted tail
      ∧ painted.map (fun u => u.word) <+: rest
      ∧ (∀ p ∈ List.enumFrom i painted,
          p.2.spaceOps = spaceRule measure ctx isCJK n wordIndex primaryColor highlightColor
            lineY p.1 p.2)
      ∧ (tail = [] ∨ ∃ x, tail = [DrawOp.fillText { ctx with fillStyle := primaryColor }
            ELLIPSIS x lineY]) := by
  induction rest with
  | nil =>
    intro i currentX
    exact ⟨[], [], by simp [centeredLoop, paintedByRule], by simp, by simp, Or.inl rfl⟩
  | cons word rest ih =>
    intro i currentX
    by_cases hov : currentX + measure word > limit
    · refine ⟨[], [], ?_, by simp, by simp, Or.inl rfl⟩
      simp [centeredLoop, hov, paintedByRule]
    · by_cases hsp : (!isCJK) = true ∧ (i : Int) < (n : Int) - 1
      · obtain ⟨painted, tail, he, hpre, hspace, htail⟩ :=
          ih (i + 1) (currentX + measure word + measure SPACE)
        refine ⟨⟨word, currentX, [DrawOp.fillText
            { ctx with fillStyle := if (i : Int) < wordIndex then highlightColor else primaryColor }
            SPACE (currentX + measure word) lineY]⟩ :: painted, tail, ?_, ?_, ?_, htail⟩
        · simp only [centeredLoop, hov, if_false, hsp, and_self, if_true]
          rw [he]
          simp [paintedByRule, unitColourRule, List.enumFrom_cons]
        · simpa using hpre
        · intro p hp
          rw [List.enumFrom_cons] at hp
          rcases List.mem_cons.1 hp with e | e
          · subst e
            have h1 : isCJK = false := by simpa using hsp.1
            have h2 : (i : Int) + 1 < (n : Int) := by omega
            simp only [spaceRule, h1, h2, and_self, if_true]
          · exact hspace p e
      · obtain ⟨painted, tail, he, hpre, hspace, htail⟩ := ih (i + 1) (currentX + measure word)
        refine ⟨⟨word, currentX, []⟩ :: painted, tail, ?_, ?_, ?_, htail⟩
        · simp only [centeredLoop, hov, if_false, hsp]
          rw [he]
          simp [paintedByRule, unitColourRule, List.enumFrom_cons]
        · simpa using hpre
        · intro p hp
          rw [List.enumFrom_cons] at hp
          rcases List.mem_cons.1 hp with e | e
          · subst e
            have h3 : ¬ (isCJK = false ∧ (i : Int) + 1 < (n : Int)) := by
              rintro ⟨h1, h2⟩
              apply hsp
              exact ⟨by simp [h1], by omega⟩
            simp only [spaceRule, h3, if_false]
          · exact hspace p e

/-- Claim C23 as stated fails: for "I love you" with word 1 current and fully
highlighted, the space after "love" is painted in the primary colour, while the
call to its left (the last character of "love") is in the highlight colour. -/
theorem space_colour_counterexample :
    ¬ spacesFollowLeftColour
        (renderCurrentLine sampleMeasure sampleRenderer 1000 1000 (some sampleLine) 0 (some 1)
          true sampleLineConfig).1 := by
  intro h
  have h5 := h 5 { lineCtx sampleLineConfig with fillStyle := DEFAULT_HIGHLIGHT }
    { lineCtx sampleLineConfig with fillStyle := DEFAULT_PRIMARY } (utf16 "e") 60 26 70 26
    (by with_unfolding_all decide) (by with_unfolding_all decide)
  revert h5
  decide

/-- Claim C23, amended. On the animated path of both painters, each painted unit but
the last unit of the line is followed by exactly one space when the text is not
CJK, and by none when it is; the space stands right after its unit and is painted
in `highlightColor` after a completed unit (index below `wordIndex`) and in
`primaryColor` after the current word or a unit not yet started. -/
theorem animated_spaces_rule (measure : Font → Str → ℚ) (r : LyricRenderer)
    (now nowPaint : Int) (line : LyricLine) (lineIndex wi : Int) (config : LineConfig)
    (cconfig : CenteredConfig)
    (htext : truthy line.originalLyric = true) (hwi : 0 ≤ wi)
    (hwords : (splitLyricToWords (orEmpty line.originalLyric)).length > 0) :
    paintsSpacesByRule (measure ⟨true, config.fontSize⟩)
        (fun w x => renderWordWithGradient (measure ⟨true, config.fontSize⟩)
          (animatedUpdate r now lineIndex wi (orEmpty line.originalLyric)).1 nowPaint
          (lineCtx config) w x (config.y + config.fontSize)
          (animatedUpdate r now lineIndex wi (orEmpty line.originalLyric)).2
          config.primaryColor config.highlightColor)
        (lineCtx config) (hasCJK (orEmpty line.originalLyric)) wi config.primaryColor
        config.highlightColor (config.y + config.fontSize)
        (splitLyricToWords (orEmpty line.originalLyric))
        (renderCurrentLine measure r now nowPaint (some line) lineIndex (some wi) true config).1
    ∧ paintsSpacesByRule (measure ⟨true, cconfig.fontSize⟩)
        (fun w x => renderWordWithGradientCentered (measure ⟨true, cconfig.fontSize⟩)
          (animatedUpdate r now lineIndex wi (orEmpty line.originalLyric)).1 nowPaint
          (centeredCtx cconfig) w x cconfig.centerY
          (animatedUpdate r now lineIndex wi (orEmpty line.originalLyric)).2
          cconfig.primaryColor cconfig.highlightColor)
        (centeredCtx cconfig) (hasCJK (orEmpty line.originalLyric)) wi cconfig.primaryColor
        cconfig.highlightColor cconfig.centerY
        (splitLyricToWords (orEmpty line.originalLyric))
        (renderCurrentLineCentered measure r now nowPaint (some line) lineIndex (some wi) true
          cconfig).1 := by
  have hv : validWordIndex true (some wi) = some wi := by
    simp [validWordIndex, hwi]
  constructor
  · obtain ⟨painted, tail, he, hpre, hspace, htail⟩ :=
      lineLoop_spaces (measure ⟨true, config.fontSize⟩)
        (animatedUpdate r now lineIndex wi (orEmpty line.originalLyric)).1
        nowPaint (lineCtx config) (hasCJK (orEmpty line.originalLyric))
        (splitLyricToWords (orEmpty line.originalLyric)).length wi
        (animatedUpdate r now lineIndex wi (orEmpty line.originalLyric)).2
        (config.x + config.maxWidth) (config.y + config.fontSize) config.primaryColor
        config.highlightColor (splitLyricToWords (orEmpty line.originalLyric)) 0
        (getAlignedX config.align config.x config.maxWidth
          (min (totalWidthLoop (measure ⟨true, config.fontSize⟩)
            (hasCJK (orEmpty line.originalLyric))
            (splitLyricToWords (orEmpty line.originalLyric)).length 0
            (splitLyricToWords (orEmpty line.originalLyric)) 0) config.maxWidth))
    refine ⟨painted, tail, ?_, hpre, hspace, htail⟩
    rw [← he]
    simp only [renderCurrentLine, htext, hv, hwords, Bool.not_true, Bool.false_eq_true,
      if_false, if_true, animatedUpdate, lineCtx]
  · obtain ⟨painted, tail, he, hpre, hspace, htail⟩ :=
      centeredLoop_spaces (measure ⟨true, cconfig.fontSize⟩)
        (animatedUpdate r now lineIndex wi (orEmpty line.originalLyric)).1
        nowPaint (centeredCtx cconfig) (hasCJK (orEmpty line.originalLyric))
        (splitLyricToWords (orEmpty line.originalLyric)).length wi
        (animatedUpdate r now lineIndex wi (orEmpty line.originalLyric)).2
        (cconfig.padding + cconfig.maxWidth) cconfig.centerY cconfig.primaryColor
        cconfig.highlightColor (splitLyricToWords (orEmpty line.originalLyric)) 0
        (getAlignedX cconfig.align cconfig.padding cconfig.maxWidth
          (min (totalWidthLoop (measure ⟨true, cconfig.fontSize⟩)
            (hasCJK (orEmpty line.originalLyric))
            (splitLyricToWords (orEmpty line.originalLyric)).length 0
            (splitLyricToWords (orEmpty line.originalLyric)) 0) cconfig.maxWidth))
    refine ⟨painted, tail, ?_, hpre, hspace, htail⟩
    rw [← he]
    simp only [renderCurrentLineCentered, htext, hv, hwords, Bool.not_true, Bool.false_eq_true,
      if_false, if_true, animatedUpdate, centeredCtx]

theorem animated_spaces_rule_witness :
    paintsSpacesByRule (sampleMeasure ⟨true, sampleLineConfig.fontSize⟩)
        (fun w x => renderWordWithGradient (sampleMeasure ⟨true, sampleLineConfig.fontSize⟩)
          (animatedUpdate sampleRenderer 1000 0 1 (orEmpty sampleLine.originalLyric)).1 1000
          (lineCtx sampleLineConfig) w x (sampleLineConfig.y + sampleLineConfig.fontSize)
          (animatedUpdate sampleRenderer 1000 0 1 (orEmpty sampleLine.originalLyric)).2
          sampleLineConfig.primaryColor sampleLineConfig.highlightColor)
        (lineCtx sampleLineConfig) (hasCJK (orEmpty sampleLine.originalLyric)) 1
        sampleLineConfig.primaryColor sampleLineConfig.highlightColor
        (sampleLineConfig.y + sampleLineConfig.fontSize)
        (splitLyricToWords (orEmpty sampleLine.originalLyric))
        (renderCurrentLine sampleMeasure sampleRenderer 1000 1000 (some sampleLine) 0 (some 1)
          true sampleLineConfig).1
    ∧ (renderCurrentLine sampleMeasure sampleRenderer 1000 1000 (some sampleLine) 0 (some 1)
          true sampleLineConfig).1
      = [DrawOp.fillText (lineCtx sampleLineConfig) (utf16 "I") 10 26,
         DrawOp.fillText (lineCtx sampleLineConfig) SPACE 20 26,
         DrawOp.fillText (lineCtx sampleLineConfig) (utf16 "l") 30 26,
         DrawOp.fillText (lineCtx sampleLineConfig) (utf16 "o") 40 26,
         DrawOp.fillText (lineCtx sampleLineConfig) (utf16 "v") 50 26,
         DrawOp.fillText (lineCtx sampleLineConfig) (utf16 "e") 60 26,
         DrawOp.fillText { lineCtx sampleLineConfig with fillStyle := DEFAULT_PRIMARY }
           SPACE 70 26,
         DrawOp.fillText { lineCtx sampleLineConfig with fillStyle := DEFAULT_PRIMARY }
           (utf16 "you") 80 26] :=
  ⟨(animated_spaces_rule sampleMeasure sampleRenderer 1000 1000 sampleLine 0 1
    sampleLineConfig sampleCenteredConfig (by decide) (by decide) (by decide)).1,
   by with_unfolding_all decide⟩

/-! ## Overflow in the two painters -/

theorem lineLoop_eq_centeredLoop (measure : Str → ℚ) (r : LyricRenderer) (nowPaint : Int)
    (ctx : Ctx) (isCJK : Bool) (n : Nat) (wordIndex highlightedChars : Int) (limit y : ℚ)
    (primaryColor highlightColor : Str) (rest : List Str) :
    ∀ (i : Nat) (currentX : ℚ), ∃ tail : List DrawOp,
      lineLoop measure r nowPaint ctx isCJK n wordIndex highlightedChars limit y primaryColor
          highlightColor i rest currentX
        = centeredLoop measure r nowPaint ctx isCJK n wordIndex highlightedChars limit y
            primaryColor highlightColor i rest currentX ++ tail
      ∧ (tail = [] ∨ ∃ x, tail = [DrawOp.fillText { ctx with fillStyle := primaryColor }
            ELLIPSIS x y]) := by
  induction rest with
  | nil =>
    intro i currentX
    exact ⟨[], by simp [lineLoop, centeredLoop], Or.inl rfl⟩
  | cons word rest ih =>
    intro i currentX
    by_cases hov : currentX + measure word > limit
    · refine ⟨_, ?_, Or.inr ⟨currentX, rfl⟩⟩
      simp [lineLoop, centeredLoop, hov]
    · by_cases hsp : (!isCJK) = true ∧ (i : Int) < (n : Int) - 1
      · obtain ⟨tail, he, htail⟩ := ih (i + 1) (currentX + measure word + measure SPACE)
        refine ⟨tail, ?_, htail⟩
        simp only [lineLoop, centeredLoop, hov, if_false, hsp, and_self, if_true]
        rw [he]
        simp [renderWordWithGradient, renderWordWithGradientCentered]
      · obtain ⟨tail, he, htail⟩ := ih (i + 1) (currentX + measure word)
        refine ⟨tail, ?_, htail⟩
        simp only [lineLoop, centeredLoop, hov, if_false, hsp]
        rw [he]
        simp [renderWordWithGradient, renderWordWithGradientCentered]

/-- Claim C22, evaluated on the code. The loop of `renderCurrentLineCentered` paints
what the loop of `renderCurrentLine` paints without the ellipsis: for "I love you"
in a box of width 50 the dual-line painter paints "I", a space and "...", the
single-line painter paints "I" and a space and stops. -/
theorem centered_overflow_no_ellipsis :
    (∀ (measure : Str → ℚ) (r : LyricRenderer) (nowPaint : Int) (ctx : Ctx) (isCJK : Bool)
        (n : Nat) (wordIndex highlightedChars : Int) (limit y : ℚ)
        (primaryColor highlightColor : Str) (words : List Str) (currentX : ℚ),
        ∃ tail : List DrawOp,
          lineLoop measure r nowPaint ctx isCJK n wordIndex highlightedChars limit y
              primaryColor highlightColor 0 words currentX
            = centeredLoop measure r nowPaint ctx isCJK n wordIndex highlightedChars limit y
                primaryColor highlightColor 0 words currentX ++ tail
          ∧ (tail = [] ∨ ∃ x, tail = [DrawOp.fillText { ctx with fillStyle := primaryColor }
                ELLIPSIS x y]))
    ∧ (renderCurrentLine sampleMeasure LyricRenderer.new 1000 1000 (some sampleLine) 0 (some 2)
          true narrowLineConfig).1
      = [DrawOp.fillText (lineCtx narrowLineConfig) (utf16 "I") 10 26,
         DrawOp.fillText (lineCtx narrowLineConfig) SPACE 20 26,
         DrawOp.fillText { lineCtx narrowLineConfig with fillStyle := DEFAULT_PRIMARY }
           ELLIPSIS 30 26]
    ∧ (renderCurrentLineCentered sampleMeasure LyricRenderer.new 1000 1000 (some sampleLine) 0
          (some 2) true narrowCenteredConfig).1
      = [DrawOp.fillText (centeredCtx narrowCenteredConfig) (utf16 "I") 10 30,
         DrawOp.fillText (centeredCtx narrowCenteredConfig) SPACE 20 30] := by
  refine ⟨?_, by with_unfolding_all decide, by with_unfolding_all decide⟩
  intro measure r nowPaint ctx isCJK n wordIndex highlightedChars limit y primaryColor
    highlightColor words currentX
  exact lineLoop_eq_centeredLoop measure r nowPaint ctx isCJK n wordIndex highlightedChars
    limit y primaryColor highlightColor words 0 currentX

/-! ## Baselines under the default options -/

theorem render_default_frame :
    (render sampleMeasure LyricRenderer.new 1000 1000 (some dualPosition) none
        RenderOptions.default 480 60).ops
      = [DrawOp.fillRect DEFAULT_BACKGROUND 0 0 480 60,
         DrawOp.fillText
           { fillStyle := DEFAULT_HIGHLIGHT, font := { bold := true, size := 18 },
             textAlign := ALIGN_START, textBaseline := BASELINE_ALPHABETIC }
           (utf16 "hello") 10 26,
         DrawOp.fillText
           { fillStyle := DEFAULT_SECONDARY, font := { bold := false, size := 13 },
             textAlign := ALIGN_START, textBaseline := BASELINE_ALPHABETIC }
           (utf16 "hola") 10 17] := by
  with_unfolding_all decide

/-- Claim C24, evaluated on the code. With the defaults that `updateLyricKey` supplies
the secondary baseline (41) is below the primary one (23); with the defaults of
`render` itself the secondary baseline (17) is above the primary one (26), and
the frame painted for a translated line shows it. -/
theorem default_baselines :
    (updateLyricKeyOptions none).toRenderOptions = some pluginDefaultOptions
    ∧ primaryBaseline pluginDefaultOptions = 23
    ∧ secondaryBaseline pluginDefaultOptions = 41
    ∧ primaryBaseline RenderOptions.default = 26
    ∧ secondaryBaseline RenderOptions.default = 17
    ∧ (render sampleMeasure LyricRenderer.new 1000 1000 (some dualPosition) none
        RenderOptions.default 480 60).ops
      = [DrawOp.fillRect DEFAULT_BACKGROUND 0 0 480 60,
         DrawOp.fillText
           { fillStyle := DEFAULT_HIGHLIGHT, font := { bold := true, size := 18 },
             textAlign := ALIGN_START, textBaseline := BASELINE_ALPHABETIC }
           (utf16 "hello") 10 26,
         DrawOp.fillText
           { fillStyle := DEFAULT_SECONDARY, font := { bold := false, size := 13 },
             textAlign := ALIGN_START, textBaseline := BASELINE_ALPHABETIC }
           (utf16 "hola") 10 17] := by
  refine ⟨by with_unfolding_all decide, by with_unfolding_all decide,
    by with_unfolding_all decide, by with_unfolding_all decide, by with_unfolding_all decide,
    render_default_frame⟩

/-! ## The count over time -/

theorem arrayFrom_length_le (text : Str) : (arrayFrom text).length ≤ text.length := by
  induction text using arrayFrom.induct with
  | case1 => simp [arrayFrom]
  | case2 a => simp [arrayFrom]
  | case3 a b rest h ih =>
    rw [arrayFrom, if_pos h]
    simp only [List.length_cons]
    omega
  | case4 a b rest h ih =>
    rw [arrayFrom, if_neg h]
    simp only [List.length_cons] at ih ⊢
    omega

theorem gradientLoop_all_highlight (measure : Str → ℚ) (r : LyricRenderer) (nowPaint : Int)
    (ctx : Ctx) (y : ℚ) (highlightedChars : Int) (primaryColor highlightColor : Str)
    (chars : List Str) (x : ℚ) (h : (chars.length : Int) ≤ highlightedChars) :
    ∀ op ∈ gradientLoop measure r nowPaint ctx y highlightedChars primaryColor highlightColor
        0 chars x,
      ∃ (ch : Str) (x2 : ℚ),
        op = DrawOp.fillText { ctx with fillStyle := highlightColor } ch x2 y := by
  intro op hop
  obtain ⟨i, hi⟩ := List.mem_iff_getElem?.1 hop
  have hlt : i < chars.length := by
    have h1 : i < (gradientLoop measure r nowPaint ctx y highlightedChars primaryColor
        highlightColor 0 chars x).length := by
      by_contra hn
      rw [List.getElem?_eq_none_iff.2 (not_lt.1 hn)] at hi
      exact Option.noConfusion hi
    rwa [gradientLoop_length] at h1
  have hch : chars[i]? = some chars[i] := List.getElem?_eq_getElem hlt
  have hg := gradientLoop_get measure r nowPaint ctx y highlightedChars primaryColor
    highlightColor chars 0 x i chars[i] hch
  rw [hg] at hi
  injection hi with hi
  refine ⟨chars[i], charX measure chars x i, ?_⟩
  rw [← hi]
  have hlt2 : ((0 + i : Nat) : Int) < highlightedChars := by
    have : (i : Int) < (chars.length : Int) := by exact_mod_cast hlt
    simp only [Nat.zero_add]
    omega
  simp only [gradientColour, hlt2, if_true]

/-- Claim C25. With the stored pair unchanged (no transition), the count returned
by `updateGradientState` does not decrease when the clock reading grows and equals
`wordLength` once the elapsed time is at least `35 * wordLength`; with that count
every character of the current word is painted in `highlightColor`, none in a
blended colour, by both gradient routines. -/
theorem highlight_count_monotone (r : LyricRenderer) (wordLength : Nat) :
    (∀ now : Int,
        (updateGradientState r now r.lastLineIndex r.lastWordIndex wordLength).1 = r)
    ∧ (∀ now1 now2 : Int, now1 ≤ now2 →
        (updateGradientState r now1 r.lastLineIndex r.lastWordIndex wordLength).2
          ≤ (updateGradientState r now2 r.lastLineIndex r.lastWordIndex wordLength).2)
    ∧ (∀ now : Int, 35 * (wordLength : Int) ≤ now - r.wordStartTime →
        (updateGradientState r now r.lastLineIndex r.lastWordIndex wordLength).2 = wordLength)
    ∧ (∀ (now nowPaint : Int) (measure : Str → ℚ) (ctx : Ctx) (word : Str) (x y : ℚ)
        (primaryColor highlightColor : Str),
        word.length = wordLength → 35 * (wordLength : Int) ≤ now - r.wordStartTime →
        (∀ op ∈ renderWordWithGradient measure r nowPaint ctx word x y
            (updateGradientState r now r.lastLineIndex r.lastWordIndex wordLength).2
            primaryColor highlightColor,
          ∃ (ch : Str) (x2 : ℚ),
            op = DrawOp.fillText { ctx with fillStyle := highlightColor } ch x2 y)
        ∧ (∀ op ∈ renderWordWithGradientCentered measure r nowPaint ctx word x y
            (updateGradientState r now r.lastLineIndex r.lastWordIndex wordLength).2
            primaryColor highlightColor,
          ∃ (ch : Str) (x2 : ℚ),
            op = DrawOp.fillText { ctx with fillStyle := highlightColor } ch x2 y)) := by
  have hfull : ∀ now : Int, 35 * (wordLength : Int) ≤ now - r.wordStartTime →
      (updateGradientState r now r.lastLineIndex r.lastWordIndex wordLength).2 = wordLength := by
    intro now h
    rw [updateGradientState_same]
    simp only
    have : (wordLength : Int) ≤ (now - r.wordStartTime) / 35 := by omega
    exact min_eq_right this
  refine ⟨?_, ?_, hfull, ?_⟩
  · intro now
    rw [updateGradientState_same]
  · intro now1 now2 h
    rw [updateGradientState_same, updateGradientState_same]
    simp only
    have : (now1 - r.wordStartTime) / 35 ≤ (now2 - r.wordStartTime) / 35 := by omega
    exact min_le_min_right _ this
  · intro now nowPaint measure ctx word x y primaryColor highlightColor hlen h
    rw [hfull now h]
    have hle : ((arrayFrom word).length : Int) ≤ (wordLength : Int) := by
      have := arrayFrom_length_le word
      rw [hlen] at this
      exact_mod_cast this
    exact ⟨gradientLoop_all_highlight measure r nowPaint ctx y wordLength primaryColor
        highlightColor (arrayFrom word) x hle,
      gradientLoop_all_highlight measure r nowPaint ctx y wordLength primaryColor
        highlightColor (arrayFrom word) x hle⟩

end NeteasePlugin
